import Mathlib

/-!
# MiniModbus: a verification development

Shallow embedding of `minimodbus.h` (MiniModbus v1.0.0): the CRC-16 checksum,
the request builder, the transaction engine and the two public register
operations, followed by theorems about them.

Conventions of the embedding:
* machine integers are `Nat`/`Int`; a conversion to `uint8_t`/`uint16_t` is an
  explicit `% 256` / `% 65536`;
* the 256-byte context buffer is a map from indices to bytes; every access goes
  through a bounds-checked accessor, and an access outside the buffer (undefined
  behaviour in C) makes the enclosing function return `none`;
* the transport callbacks are functions on an abstract transport state
  (the pointee of `user_data`); the calls made to them are recorded in order.
-/

namespace MiniModbus

/-! ## Constants and enumerations -/

@[simp] def MINIMODBUS_BUFFER_SIZE : Nat := 256
@[simp] def FUNCTION_READ_HOLDING_REGISTER : Nat := 0x03
@[simp] def FUNCTION_WRITE_SINGLE_REGISTER : Nat := 0x06
@[simp] def ERROR_CODE_BITMASK : Nat := 0x80
@[simp] def RESPONSE_HEADER_LENGTH : Nat := 2
@[simp] def MODBUS_TCP_IP_PROTOCOL_IDENTIFIER : Nat := 0

/-- The enumeration `MiniModbusError_t`, carried as its integer value (the engine
casts an arbitrary received byte to it). -/
abbrev MiniModbusError_t := Int

@[simp] def MiniModbusError_Success : MiniModbusError_t := 0
@[simp] def MiniModbusError_IllegalFunction : MiniModbusError_t := 0x01
@[simp] def MiniModbusError_IllegalDataAddress : MiniModbusError_t := 0x02
@[simp] def MiniModbusError_IllegalDataValue : MiniModbusError_t := 0x03
@[simp] def MiniModbusError_ServerDeviceFailure : MiniModbusError_t := 0x04
@[simp] def MiniModbusError_Acknowledge : MiniModbusError_t := 0x05
@[simp] def MiniModbusError_ServerDeviceBusy : MiniModbusError_t := 0x06
@[simp] def MiniModbusError_MemoryParityError : MiniModbusError_t := 0x08
@[simp] def MiniModbusError_GatewayPathUnavailable : MiniModbusError_t := 0x0a
@[simp] def MiniModbusError_GatewayTargetDeviceFailedToRespond : MiniModbusError_t := 0x0b
@[simp] def MiniModbusError_Generic : MiniModbusError_t := -1
@[simp] def MiniModbusError_InvalidArgument : MiniModbusError_t := -2
@[simp] def MiniModbusError_Send : MiniModbusError_t := -3
@[simp] def MiniModbusError_Receive : MiniModbusError_t := -4
@[simp] def MiniModbusError_InvalidCrc : MiniModbusError_t := -5
@[simp] def MiniModbusError_ResponseInvalidSlaveAddress : MiniModbusError_t := -6
@[simp] def MiniModbusError_ResponseUnexpectedErrorCode : MiniModbusError_t := -7
@[simp] def MiniModbusError_ResponseUnexpectedLength : MiniModbusError_t := -8
@[simp] def MiniModbusError_ResponseInvalidCode : MiniModbusError_t := -9
@[simp] def MiniModbusError_ResponseInvalid : MiniModbusError_t := -10
@[simp] def MiniModbusError_ResponseInvalidTransactionIdentifier : MiniModbusError_t := -11
@[simp] def MiniModbusError_ResponseInvalidProtocolIdentifier : MiniModbusError_t := -12
@[simp] def MiniModbusError_ResponseInvalidLength : MiniModbusError_t := -13

inductive MiniModbusMode where
  | RTU
  | TCP
  deriving DecidableEq

/-! ## Checksum engine -/

/-- The 256-entry lookup table `MiniModbus_Crc16Table`. -/
def MiniModbus_Crc16Table : List Nat := [
  0x0000, 0xC0C1, 0xC181, 0x0140, 0xC301, 0x03C0, 0x0280, 0xC241, 0xC601, 0x06C0, 0x0780, 0xC741,
  0x0500, 0xC5C1, 0xC481, 0x0440, 0xCC01, 0x0CC0, 0x0D80, 0xCD41, 0x0F00, 0xCFC1, 0xCE81, 0x0E40,
  0x0A00, 0xCAC1, 0xCB81, 0x0B40, 0xC901, 0x09C0, 0x0880, 0xC841, 0xD801, 0x18C0, 0x1980, 0xD941,
  0x1B00, 0xDBC1, 0xDA81, 0x1A40, 0x1E00, 0xDEC1, 0xDF81, 0x1F40, 0xDD01, 0x1DC0, 0x1C80, 0xDC41,
  0x1400, 0xD4C1, 0xD581, 0x1540, 0xD701, 0x17C0, 0x1680, 0xD641, 0xD201, 0x12C0, 0x1380, 0xD341,
  0x1100, 0xD1C1, 0xD081, 0x1040, 0xF001, 0x30C0, 0x3180, 0xF141, 0x3300, 0xF3C1, 0xF281, 0x3240,
  0x3600, 0xF6C1, 0xF781, 0x3740, 0xF501, 0x35C0, 0x3480, 0xF441, 0x3C00, 0xFCC1, 0xFD81, 0x3D40,
  0xFF01, 0x3FC0, 0x3E80, 0xFE41, 0xFA01, 0x3AC0, 0x3B80, 0xFB41, 0x3900, 0xF9C1, 0xF881, 0x3840,
  0x2800, 0xE8C1, 0xE981, 0x2940, 0xEB01, 0x2BC0, 0x2A80, 0xEA41, 0xEE01, 0x2EC0, 0x2F80, 0xEF41,
  0x2D00, 0xEDC1, 0xEC81, 0x2C40, 0xE401, 0x24C0, 0x2580, 0xE541, 0x2700, 0xE7C1, 0xE681, 0x2640,
  0x2200, 0xE2C1, 0xE381, 0x2340, 0xE101, 0x21C0, 0x2080, 0xE041, 0xA001, 0x60C0, 0x6180, 0xA141,
  0x6300, 0xA3C1, 0xA281, 0x6240, 0x6600, 0xA6C1, 0xA781, 0x6740, 0xA501, 0x65C0, 0x6480, 0xA441,
  0x6C00, 0xACC1, 0xAD81, 0x6D40, 0xAF01, 0x6FC0, 0x6E80, 0xAE41, 0xAA01, 0x6AC0, 0x6B80, 0xAB41,
  0x6900, 0xA9C1, 0xA881, 0x6840, 0x7800, 0xB8C1, 0xB981, 0x7940, 0xBB01, 0x7BC0, 0x7A80, 0xBA41,
  0xBE01, 0x7EC0, 0x7F80, 0xBF41, 0x7D00, 0xBDC1, 0xBC81, 0x7C40, 0xB401, 0x74C0, 0x7580, 0xB541,
  0x7700, 0xB7C1, 0xB681, 0x7640, 0x7200, 0xB2C1, 0xB381, 0x7340, 0xB101, 0x71C0, 0x7080, 0xB041,
  0x5000, 0x90C1, 0x9181, 0x5140, 0x9301, 0x53C0, 0x5280, 0x9241, 0x9601, 0x56C0, 0x5780, 0x9741,
  0x5500, 0x95C1, 0x9481, 0x5440, 0x9C01, 0x5CC0, 0x5D80, 0x9D41, 0x5F00, 0x9FC1, 0x9E81, 0x5E40,
  0x5A00, 0x9AC1, 0x9B81, 0x5B40, 0x9901, 0x59C0, 0x5880, 0x9841, 0x8801, 0x48C0, 0x4980, 0x8941,
  0x4B00, 0x8BC1, 0x8A81, 0x4A40, 0x4E00, 0x8EC1, 0x8F81, 0x4F40, 0x8D01, 0x4DC0, 0x4C80, 0x8C41,
  0x4400, 0x84C1, 0x8581, 0x4540, 0x8701, 0x47C0, 0x4680, 0x8641, 0x8201, 0x42C0, 0x4380, 0x8341,
  0x4100, 0x81C1, 0x8081, 0x4040]

/-- `MiniModbus_Crc16(data, length)`: the argument is the list of the `length`
bytes starting at `data`. Every table entry is below `2 ^ 16` and `crc >> 8` is
below `2 ^ 8`, so the `uint16_t` assignment never truncates. -/
def MiniModbus_Crc16 (data : List Nat) : Nat :=
  data.foldl (fun crc byte => (crc >>> 8) ^^^ MiniModbus_Crc16Table.getD ((crc ^^^ byte) &&& 0xFF) 0) 0xFFFF

/-- Reference CRC-16/MODBUS, one bit: shift right by one and XOR `0xA001` when
the bit shifted out was 1 (this definition follows the specification, not the
source). -/
def crc16_reference_bit (crc : Nat) : Nat :=
  if crc &&& 1 = 1 then (crc >>> 1) ^^^ 0xA001 else crc >>> 1

/-- Reference CRC-16/MODBUS, one byte: XOR the byte into the low byte of the
register, then eight bit steps. -/
def crc16_reference_byte (crc byte : Nat) : Nat :=
  Nat.iterate crc16_reference_bit 8 (crc ^^^ byte)

/-- Reference CRC-16/MODBUS of a byte sequence: register initialised to
`0xFFFF`, no final XOR. -/
def crc16_reference (data : List Nat) : Nat :=
  data.foldl crc16_reference_byte 0xFFFF

/-! ## Configuration, context and transport -/

/-- The structure `MiniModbusConfig`. The two callbacks act on the transport
state `σ` that `user_data` points to. `receive s length` returns the new
transport state, the bytes the callback stored at the start of the region it was
given (at most `length` of them are kept) and its `int` return value;
`send s data` is given the bytes of the region and returns the new transport
state and its `int` return value. -/
structure MiniModbusConfig (σ : Type) where
  mode : MiniModbusMode
  slave_address : Nat
  receive : σ → Nat → σ × List Nat × Int
  send : σ → List Nat → σ × Int

/-- The structure `MiniModbusContext`. `slave_address`, `request_code` and
`response_length` are `uint8_t`, `current_tcp_transaction_identifier` is
`uint16_t`; `buffer` maps an index to the byte stored there. -/
structure MiniModbusContext (σ : Type) where
  config : MiniModbusConfig σ
  buffer_position : Nat
  current_tcp_transaction_identifier : Nat
  request_code : Nat
  response_length : Nat
  buffer : Nat → Nat

/-- One call of a transport callback: `send` with the bytes handed over, or
`receive` with the offset into the context buffer of the region handed over and
the requested length. -/
inductive TransportCall where
  | send (data : List Nat)
  | receive (offset length : Nat)
  deriving DecidableEq

/-- What lies outside the context: the transport state behind `user_data` and
the record of the callback calls made so far, oldest first. -/
structure World (σ : Type) where
  user_data : σ
  calls : List TransportCall

/-! ## Bounds-checked buffer accessors -/

/-- Read `buffer[i]`. -/
def buffer_get (buffer : Nat → Nat) (i : Nat) : Option Nat :=
  if i < MINIMODBUS_BUFFER_SIZE then some (buffer i) else none

/-- Store `(uint8_t) byte` at `buffer[i]`. -/
def buffer_set (buffer : Nat → Nat) (i byte : Nat) : Option (Nat → Nat) :=
  if i < MINIMODBUS_BUFFER_SIZE then some (fun j => if j = i then byte % 256 else buffer j)
  else none

/-- The bytes `buffer[offset], ..., buffer[offset + length - 1]`, unchecked. -/
def buffer_bytes (buffer : Nat → Nat) (offset : Nat) : Nat → List Nat
  | 0 => []
  | length + 1 => buffer offset :: buffer_bytes buffer (offset + 1) length

/-- Read the region of `length` bytes starting at `buffer + offset`. -/
def buffer_slice (buffer : Nat → Nat) (offset length : Nat) : Option (List Nat) :=
  if offset + length ≤ MINIMODBUS_BUFFER_SIZE then some (buffer_bytes buffer offset length)
  else none

/-- Store the bytes `data` from `buffer + offset` on. -/
def buffer_blit (buffer : Nat → Nat) (offset : Nat) (data : List Nat) : Nat → Nat :=
  fun j => if offset ≤ j ∧ j < offset + data.length then data.getD (j - offset) 0 % 256
    else buffer j

/-- The conversion of an `int` to `size_t` (64 bits). -/
def size_t_of_int (i : Int) : Nat := (i % 18446744073709551616).toNat

/-- The call `ctx->config.receive(ctx->config.user_data, ctx->buffer + offset, length)`:
the region must lie inside the buffer; the callback stores at most `length`
bytes at its start. Returns the `int` the callback returned. -/
def transport_receive {σ : Type} (ctx : MiniModbusContext σ) (w : World σ) (offset length : Nat) :
    Option (MiniModbusContext σ × World σ × Int) :=
  if offset + length ≤ MINIMODBUS_BUFFER_SIZE then
    let r := ctx.config.receive w.user_data length
    some ({ ctx with buffer := buffer_blit ctx.buffer offset (r.2.1.take length) },
      { user_data := r.1, calls := w.calls ++ [TransportCall.receive offset length] }, r.2.2)
  else none

/-- The call `ctx->config.send(ctx->config.user_data, ctx->buffer, length)`. -/
def transport_send {σ : Type} (ctx : MiniModbusContext σ) (w : World σ) (length : Nat) :
    Option (World σ × Int) := do
  let data ← buffer_slice ctx.buffer 0 length
  let r := ctx.config.send w.user_data data
  pure ({ user_data := r.1, calls := w.calls ++ [TransportCall.send data] }, r.2)

/-! ## Request builder -/

def MiniModbus_RequestAddByte {σ : Type} (ctx : MiniModbusContext σ) (byte : Nat) :
    Option (MiniModbusContext σ) := do
  let buffer ← buffer_set ctx.buffer ctx.buffer_position byte
  pure { ctx with buffer := buffer, buffer_position := ctx.buffer_position + 1 }

def MiniModbus_RequestAddUInt16 {σ : Type} (ctx : MiniModbusContext σ) (value : Nat) :
    Option (MiniModbusContext σ) := do
  let ctx ← MiniModbus_RequestAddByte ctx ((value >>> 8) &&& 0xFF)
  MiniModbus_RequestAddByte ctx (value &&& 0xFF)

def MiniModbus_RequestStart {σ : Type} (ctx : MiniModbusContext σ)
    (function_code expected_response_length : Nat) : Option (MiniModbusContext σ) := do
  let ctx := { ctx with
    buffer_position := 0
    request_code := function_code % 256
    response_length := expected_response_length % 256 }
  let ctx ← match ctx.config.mode with
    | MiniModbusMode.TCP => do
      -- MBAP header
      let ctx := { ctx with
        current_tcp_transaction_identifier :=
          (ctx.current_tcp_transaction_identifier + 1) % 65536 }
      let ctx ← MiniModbus_RequestAddUInt16 ctx ctx.current_tcp_transaction_identifier
      let ctx ← MiniModbus_RequestAddUInt16 ctx MODBUS_TCP_IP_PROTOCOL_IDENTIFIER
      -- length populated with dummy values, will be populated later
      let ctx ← MiniModbus_RequestAddUInt16 ctx 0
      MiniModbus_RequestAddByte ctx ctx.config.slave_address
    | MiniModbusMode.RTU =>
      MiniModbus_RequestAddByte ctx ctx.config.slave_address
  MiniModbus_RequestAddByte ctx function_code

/-- `MiniModbus_PacketSend`: returns the context, the world and the error code. -/
def MiniModbus_PacketSend {σ : Type} (ctx : MiniModbusContext σ) (w : World σ) :
    Option (MiniModbusContext σ × World σ × MiniModbusError_t) := do
  -- -6 to account for header size
  let tcp_length : Nat := (((ctx.buffer_position : Int) - 6) % 65536).toNat
  let ctx ← match ctx.config.mode with
    | MiniModbusMode.RTU => do
      let data ← buffer_slice ctx.buffer 0 ctx.buffer_position
      let crc := MiniModbus_Crc16 data
      let ctx ← MiniModbus_RequestAddByte ctx (crc &&& 0xFF)
      MiniModbus_RequestAddByte ctx ((crc >>> 8) &&& 0xFF)
    | MiniModbusMode.TCP => do
      -- write length for TCP/IP header
      let buffer ← buffer_set ctx.buffer 4 ((tcp_length >>> 8) &&& 0xFF)
      let buffer ← buffer_set buffer 5 (tcp_length &&& 0xFF)
      pure { ctx with buffer := buffer }
  let (w, sent) ← transport_send ctx w ctx.buffer_position
  if sent < 0 ∨ sent ≠ (ctx.buffer_position : Int) then
    pure (ctx, w, MiniModbusError_Send)
  else
    pure (ctx, w, MiniModbusError_Success)

/-! ## Response reader and transaction engine -/

def MiniModbus_ResponseReadByte {σ : Type} (ctx : MiniModbusContext σ) :
    Option (Nat × MiniModbusContext σ) := do
  let byte ← buffer_get ctx.buffer ctx.buffer_position
  pure (byte, { ctx with buffer_position := ctx.buffer_position + 1 })

def MiniModbus_ResponseReadUIn16 {σ : Type} (ctx : MiniModbusContext σ) :
    Option (Nat × MiniModbusContext σ) := do
  let value : Nat := 0
  let (hi, ctx) ← MiniModbus_ResponseReadByte ctx
  let value := (value ||| (hi <<< 8)) % 65536
  let (lo, ctx) ← MiniModbus_ResponseReadByte ctx
  let value := (value ||| lo) % 65536
  pure (value, ctx)

/-- `MiniModbus_SendRequestAndWaitResponse`: returns the context, the world and
the error code. -/
def MiniModbus_SendRequestAndWaitResponse {σ : Type} (ctx : MiniModbusContext σ) (w : World σ) :
    Option (MiniModbusContext σ × World σ × MiniModbusError_t) := do
  let (ctx, w, error) ← MiniModbus_PacketSend ctx w
  if error ≠ MiniModbusError_Success then
    pure (ctx, w, error)
  else
    let header_size : Nat :=
      match ctx.config.mode with
      | MiniModbusMode.RTU => RESPONSE_HEADER_LENGTH + 3 -- 2 byte CRC + 1 byte slave address
      | MiniModbusMode.TCP => RESPONSE_HEADER_LENGTH + 7 -- MBAP header
    -- read response
    let (ctx, w, received) ← transport_receive ctx w 0 header_size
    if received ≠ (header_size : Int) then
      pure (ctx, w, MiniModbusError_Receive)
    else
      let total_received : Nat := size_t_of_int received
      let ctx := { ctx with buffer_position := 0 }
      -- header validation: the first failing check, if any, and tcp_expected_length
      let header : Option (MiniModbusContext σ × Nat × Option MiniModbusError_t) :=
        match ctx.config.mode with
        | MiniModbusMode.RTU => do
          let (address, ctx) ← MiniModbus_ResponseReadByte ctx
          if address ≠ ctx.config.slave_address then
            pure (ctx, 0, some MiniModbusError_ResponseInvalidSlaveAddress)
          else
            pure (ctx, 0, none)
        | MiniModbusMode.TCP => do
          let (transaction, ctx) ← MiniModbus_ResponseReadUIn16 ctx
          if transaction ≠ ctx.current_tcp_transaction_identifier then
            pure (ctx, 0, some MiniModbusError_ResponseInvalidTransactionIdentifier)
          else
            let (protocol, ctx) ← MiniModbus_ResponseReadUIn16 ctx
            if protocol ≠ MODBUS_TCP_IP_PROTOCOL_IDENTIFIER then
              pure (ctx, 0, some MiniModbusError_ResponseInvalidProtocolIdentifier)
            else
              let (tcp_expected_length, ctx) ← MiniModbus_ResponseReadUIn16 ctx
              let (address, ctx) ← MiniModbus_ResponseReadByte ctx
              if address ≠ ctx.config.slave_address then
                pure (ctx, tcp_expected_length, some MiniModbusError_ResponseInvalidSlaveAddress)
              else
                pure (ctx, tcp_expected_length, none)
      let (ctx, tcp_expected_length, failed) ← header
      match failed with
      | some error => pure (ctx, w, error)
      | none =>
        let (response_code, ctx) ← MiniModbus_ResponseReadByte ctx
        -- if not error, read rest of the response; otherwise read the error code
        let body : Option (MiniModbusContext σ × World σ × Nat × Nat × Bool) :=
          if response_code &&& ERROR_CODE_BITMASK = 0 then do
            let length : Int := (ctx.response_length : Int) - 1
            let (ctx, w, received) ← transport_receive ctx w header_size (size_t_of_int length)
            -- didn't read full response
            if received ≠ length then
              pure (ctx, w, total_received, 0, false)
            else
              pure (ctx, w, total_received + size_t_of_int received, 0, true)
          else do
            let (error_code, ctx) ← MiniModbus_ResponseReadByte ctx
            pure (ctx, w, total_received, error_code, true)
        let (ctx, w, total_received, error_code, complete) ← body
        if complete = false then
          pure (ctx, w, MiniModbusError_Receive)
        else
          let integrity : Option (Option MiniModbusError_t) :=
            match ctx.config.mode with
            | MiniModbusMode.RTU => do
              let data ← buffer_slice ctx.buffer 0 (total_received - 2)
              let crc := MiniModbus_Crc16 data
              let lo ← buffer_get ctx.buffer (total_received - 2)
              let hi ← buffer_get ctx.buffer (total_received - 1)
              if lo ≠ crc &&& 0xFF ∨ hi ≠ (crc >>> 8) &&& 0xFF then
                pure (some MiniModbusError_InvalidCrc)
              else
                pure none
            | MiniModbusMode.TCP =>
              if total_received - 6 ≠ tcp_expected_length then
                pure (some MiniModbusError_ResponseInvalidLength)
              else
                pure none
          match ← integrity with
          | some error => pure (ctx, w, error)
          | none =>
            if response_code &&& ERROR_CODE_BITMASK ≠ 0 then
              pure (ctx, w, (error_code : Int))
            else if response_code ≠ ctx.request_code then
              pure (ctx, w, MiniModbusError_ResponseInvalidCode)
            else
              pure (ctx, w, MiniModbusError_Success)

/-! ## Public operations -/

/-- `MiniModbus_Init`: an absent argument is `none`. Returns the error code and
the context after the call. -/
def MiniModbus_Init {σ : Type} (ctx : Option (MiniModbusContext σ))
    (config : Option (MiniModbusConfig σ)) :
    MiniModbusError_t × Option (MiniModbusContext σ) :=
  match ctx, config with
  | some _, some config =>
    (MiniModbusError_Success, some {
      config := config
      buffer_position := 0
      current_tcp_transaction_identifier := 0
      request_code := 0
      response_length := 0
      buffer := fun _ => 0 })
  | _, _ => (MiniModbusError_InvalidArgument, ctx)

/-- What a public operation leaves behind: the returned code, the context, the
world, and the contents of the cell the `value` argument points to (`none` when
there is no such cell). -/
structure Outcome (σ : Type) where
  error : MiniModbusError_t
  ctx : Option (MiniModbusContext σ)
  world : World σ
  value : Option Nat

/-- `MiniModbus_ReadHoldingRegister`: an absent context or `value` pointer is
`none`; `value` holds the contents of the cell pointed to before the call. -/
def MiniModbus_ReadHoldingRegister {σ : Type} (ctx : Option (MiniModbusContext σ)) (w : World σ)
    (reg : Nat) (value : Option Nat) : Option (Outcome σ) :=
  match ctx, value with
  | some ctx, some old => do
    let ctx ← MiniModbus_RequestStart ctx FUNCTION_READ_HOLDING_REGISTER 3
    let ctx ← MiniModbus_RequestAddUInt16 ctx reg
    let ctx ← MiniModbus_RequestAddUInt16 ctx 1
    let (ctx, w, error) ← MiniModbus_SendRequestAndWaitResponse ctx w
    if error ≠ MiniModbusError_Success then
      pure { error := error, ctx := some ctx, world := w, value := some old }
    else
      let (response_size, ctx) ← MiniModbus_ResponseReadByte ctx
      if response_size ≠ 2 then
        pure { error := MiniModbusError_ResponseInvalidLength, ctx := some ctx, world := w,
               value := some old }
      else
        let (read, ctx) ← MiniModbus_ResponseReadUIn16 ctx
        pure { error := MiniModbusError_Success, ctx := some ctx, world := w, value := some read }
  | _, _ =>
    some { error := MiniModbusError_InvalidArgument, ctx := ctx, world := w, value := value }

/-- `MiniModbus_WriteSingleRegister`: an absent context is `none`. There is no
output cell. -/
def MiniModbus_WriteSingleRegister {σ : Type} (ctx : Option (MiniModbusContext σ)) (w : World σ)
    (reg value : Nat) : Option (Outcome σ) :=
  match ctx with
  | some ctx => do
    let ctx ← MiniModbus_RequestStart ctx FUNCTION_WRITE_SINGLE_REGISTER 4
    let ctx ← MiniModbus_RequestAddUInt16 ctx reg
    let ctx ← MiniModbus_RequestAddUInt16 ctx value
    let (ctx, w, error) ← MiniModbus_SendRequestAndWaitResponse ctx w
    if error ≠ MiniModbusError_Success then
      pure { error := error, ctx := some ctx, world := w, value := none }
    else
      let (response_reg, ctx) ← MiniModbus_ResponseReadUIn16 ctx
      let (response_value, ctx) ← MiniModbus_ResponseReadUIn16 ctx
      if response_reg ≠ reg ∨ response_value ≠ value then
        pure { error := MiniModbusError_ResponseInvalid, ctx := some ctx, world := w,
               value := none }
      else
        pure { error := MiniModbusError_Success, ctx := some ctx, world := w, value := none }
  | none =>
    some { error := MiniModbusError_InvalidArgument, ctx := none, world := w, value := none }

/-! ## Vocabulary of the statements

The definitions below are not part of the library: they name the wire frames of
the specification (section 6) and the two operations, so that statements about
"each operation" and "the well-formed response" can be written down. -/

/-- Wire frame, RTU style: unit address, PDU, CRC-16 with the low byte first. -/
def rtu_frame (u : Nat) (pdu : List Nat) : List Nat :=
  let crc := MiniModbus_Crc16 (u :: pdu)
  (u :: pdu) ++ [crc % 256, crc / 256]

/-- Wire frame, TCP style: transaction identifier, protocol identifier 0, the
number of bytes from the unit address to the end, unit address, PDU. -/
def tcp_frame (tid u : Nat) (pdu : List Nat) : List Nat :=
  [tid / 256, tid % 256, 0, 0, (pdu.length + 1) / 256, (pdu.length + 1) % 256, u] ++ pdu

/-- Wire frame in the given mode (the transaction identifier is unused in RTU). -/
def wire_frame (mode : MiniModbusMode) (tid u : Nat) (pdu : List Nat) : List Nat :=
  match mode with
  | MiniModbusMode.RTU => rtu_frame u pdu
  | MiniModbusMode.TCP => tcp_frame tid u pdu

/-- Number of bytes the engine asks for in its first receive call. -/
def header_length (mode : MiniModbusMode) : Nat :=
  match mode with
  | MiniModbusMode.RTU => 5
  | MiniModbusMode.TCP => 9

/-- A public operation with its arguments. -/
inductive Operation where
  | read (reg : Nat)
  | write (reg value : Nat)
  deriving DecidableEq

/-- The function code an operation sends. -/
def Operation.function_code : Operation → Nat
  | Operation.read _ => 0x03
  | Operation.write _ _ => 0x06

/-- The request PDU (function code and payload) of an operation. -/
def Operation.request_pdu : Operation → List Nat
  | Operation.read reg => [0x03, reg / 256, reg % 256, 0x00, 0x01]
  | Operation.write reg value => [0x06, reg / 256, reg % 256, value / 256, value % 256]

/-- Number of payload bytes after the function code in a normal response. -/
def Operation.response_payload_length : Operation → Nat
  | Operation.read _ => 3
  | Operation.write _ _ => 4

/-- The PDU of the well-formed normal response to an operation: byte count 2
and the value `V` for a read, the echo of the request for a write. -/
def Operation.response_pdu (op : Operation) (V : Nat) : List Nat :=
  match op with
  | Operation.read _ => [0x03, 0x02, V / 256, V % 256]
  | Operation.write reg value => [0x06, reg / 256, reg % 256, value / 256, value % 256]

/-- The frame with bit `k` of its byte `i` flipped. -/
def flip_bit (frame : List Nat) (i k : Nat) : List Nat :=
  frame.set i (frame.getD i 0 ^^^ 2 ^ k)

/-- Run an operation on a present context; `out` is the initial contents of the
output cell of a read. -/
def Operation.run {σ : Type} (op : Operation) (ctx : MiniModbusContext σ) (w : World σ)
    (out : Nat) : Option (Outcome σ) :=
  match op with
  | Operation.read reg => MiniModbus_ReadHoldingRegister (some ctx) w reg (some out)
  | Operation.write reg value => MiniModbus_WriteSingleRegister (some ctx) w reg value

/-- The frames handed to `send` in a record of calls, oldest first. -/
def sent_frames (calls : List TransportCall) : List (List Nat) :=
  calls.filterMap (fun c =>
    match c with
    | TransportCall.send data => some data
    | TransportCall.receive _ _ => none)

/-- The `(offset, length)` regions handed to `receive` in a record of calls,
oldest first. -/
def receive_requests (calls : List TransportCall) : List (Nat × Nat) :=
  calls.filterMap (fun c =>
    match c with
    | TransportCall.send _ => none
    | TransportCall.receive offset length => some (offset, length))

/-- The 16-bit big-endian value of the two bytes at index `i` of a frame. -/
def frame_u16 (frame : List Nat) (i : Nat) : Nat :=
  frame.getD i 0 * 256 + frame.getD (i + 1) 0

/-- The transaction identifier the next request on `ctx` carries. -/
def next_transaction_identifier {σ : Type} (ctx : MiniModbusContext σ) : Nat :=
  (ctx.current_tcp_transaction_identifier + 1) % 65536

/-- The request frame an operation puts on the wire from the context `ctx`. -/
def request_frame {σ : Type} (ctx : MiniModbusContext σ) (op : Operation) : List Nat :=
  wire_frame ctx.config.mode (next_transaction_identifier ctx) ctx.config.slave_address
    op.request_pdu

/-- The function or exception byte of a received header. -/
def function_byte (mode : MiniModbusMode) (hdr : List Nat) : Nat :=
  match mode with
  | MiniModbusMode.RTU => hdr.getD 1 0
  | MiniModbusMode.TCP => hdr.getD 7 0

/-- The header checks of the specification (section 4.2, steps 1 and 2) on a
received header: transaction identifier, protocol identifier and unit address
in TCP mode, unit address in RTU mode. -/
def header_checks_pass (mode : MiniModbusMode) (tid u : Nat) (hdr : List Nat) : Prop :=
  match mode with
  | MiniModbusMode.RTU => hdr.getD 0 0 = u
  | MiniModbusMode.TCP => frame_u16 hdr 0 = tid ∧ frame_u16 hdr 2 = 0 ∧ hdr.getD 6 0 = u

/-- In state `s` the transport's send takes the whole frame and moves to `s1`. -/
def Accepts {σ : Type} (config : MiniModbusConfig σ) (s : σ) (frame : List Nat) (s1 : σ) : Prop :=
  config.send s frame = (s1, (frame.length : Int))

/-- In state `s` the transport's receive, asked for exactly as many bytes as
`data` has, stores `data`, reports that count and moves to `s1`. -/
def Delivers {σ : Type} (config : MiniModbusConfig σ) (s : σ) (data : List Nat) (s1 : σ) : Prop :=
  config.receive s data.length = (s1, data, (data.length : Int))

/-- A transport for examples: its state is the list of bytes still to be
delivered; send takes everything, receive hands out the next `length` bytes and
reports how many it had. -/
def stream_config (mode : MiniModbusMode) (u : Nat) : MiniModbusConfig (List Nat) where
  mode := mode
  slave_address := u
  receive := fun s length => (s.drop length, s.take length, ((s.take length).length : Int))
  send := fun s data => (s, (data.length : Int))

/-- A context as `MiniModbus_Init` leaves it, with the transaction counter set
to `tid`. -/
def fresh_context {σ : Type} (config : MiniModbusConfig σ) (tid : Nat) : MiniModbusContext σ where
  config := config
  buffer_position := 0
  current_tcp_transaction_identifier := tid
  request_code := 0
  response_length := 0
  buffer := fun _ => 0


/-- State of a simulated single-register device behind a TCP-style transport:
the register, and the response bytes not yet handed to `receive`. -/
structure DeviceState where
  register : Nat
  pending : List Nat

/-- The device takes a request frame. A write request (function code 0x06)
stores the value and is answered with the echo of its register and value; any
other request is answered as a read, with the stored value. The response copies
the request's transaction identifier and unit address. -/
def device_reply (st : DeviceState) (frame : List Nat) : DeviceState :=
  if frame.getD 7 0 = FUNCTION_WRITE_SINGLE_REGISTER then
    { register := frame_u16 frame 10
      pending := tcp_frame (frame_u16 frame 0) (frame.getD 6 0)
        [FUNCTION_WRITE_SINGLE_REGISTER, frame.getD 8 0, frame.getD 9 0, frame.getD 10 0,
          frame.getD 11 0] }
  else
    { register := st.register
      pending := tcp_frame (frame_u16 frame 0) (frame.getD 6 0)
        [FUNCTION_READ_HOLDING_REGISTER, 2, st.register / 256, st.register % 256] }

/-- The configuration of example_tcp.c (TCP mode), with the socket replaced by
the simulated device: send hands the frame to the device, receive hands out the
next `length` bytes of its response. -/
def device_config (u : Nat) : MiniModbusConfig DeviceState where
  mode := MiniModbusMode.TCP
  slave_address := u
  receive := fun st length =>
    ({ st with pending := st.pending.drop length }, st.pending.take length,
      ((st.pending.take length).length : Int))
  send := fun st data => (device_reply st data, (data.length : Int))

/-- Run the operations in order, each on the context and the world the previous
one left (the number paired with an operation is the initial contents of the
output cell of a read); the outcomes, oldest first. -/
def run_sequence {σ : Type} (ctx : MiniModbusContext σ) (w : World σ) :
    List (Operation × Nat) → Option (List (Outcome σ))
  | [] => some []
  | (op, out) :: rest =>
    match op.run ctx w out with
    | none => none
    | some r =>
      match r.ctx with
      | none => none
      | some c =>
        match run_sequence c r.world rest with
        | none => none
        | some rs => some (r :: rs)

/-- The context a history of operations leaves, starting from `ctx`: each entry
is an operation, the initial contents of the output cell of a read, and the
world (transport state and record of calls) the operation is run in. -/
def context_after {σ : Type} (ctx : MiniModbusContext σ) :
    List (Operation × Nat × World σ) → Option (MiniModbusContext σ)
  | [] => some ctx
  | (op, out, w) :: rest =>
    match op.run ctx w out with
    | none => none
    | some r =>
      match r.ctx with
      | none => none
      | some c => context_after c rest
/-! ## The transaction engine, mode by mode

`await_rtu`/`await_tcp` restate what `MiniModbus_SendRequestAndWaitResponse`
does after a successful send, and `transaction_rtu`/`transaction_tcp` what it
does as a whole, on a context whose buffer holds the request bytes `data` stored
by the builder. They are derived forms: the theorems `engine_rtu` and
`engine_tcp` below prove that the engine computes exactly them. -/

/-- The 16-bit big-endian value `MiniModbus_ResponseReadUIn16` reads at index `i`. -/
def read_u16 (buffer : Nat → Nat) (i : Nat) : Nat :=
  ((buffer i * 256) % 65536 ||| buffer (i + 1)) % 65536

/-- RTU mode, after the send succeeded: `pos` is the cursor left by the send,
`buffer` the buffer, `s` the transport state, `calls` the calls so far. -/
def await_rtu {σ : Type} (config : MiniModbusConfig σ) (pos tid rc rl : Nat)
    (buffer : Nat → Nat) (s : σ) (calls : List TransportCall) :
    MiniModbusContext σ × World σ × MiniModbusError_t :=
  let r1 := config.receive s 5
  let b1 := buffer_blit buffer 0 (r1.2.1.take 5)
  let calls1 := calls ++ [TransportCall.receive 0 5]
  if r1.2.2 ≠ 5 then
    (⟨config, pos, tid, rc, rl, b1⟩, ⟨r1.1, calls1⟩, MiniModbusError_Receive)
  else if b1 0 ≠ config.slave_address then
    (⟨config, 1, tid, rc, rl, b1⟩, ⟨r1.1, calls1⟩, MiniModbusError_ResponseInvalidSlaveAddress)
  else if b1 1 &&& 128 = 0 then
    let r2 := config.receive r1.1 (rl - 1)
    let b2 := buffer_blit b1 5 (r2.2.1.take (rl - 1))
    let calls2 := calls1 ++ [TransportCall.receive 5 (rl - 1)]
    let crc := MiniModbus_Crc16 (buffer_bytes b2 0 (5 + (rl - 1) - 2))
    if r2.2.2 ≠ ((rl : Int) - 1) then
      (⟨config, 2, tid, rc, rl, b2⟩, ⟨r2.1, calls2⟩, MiniModbusError_Receive)
    else if b2 (5 + (rl - 1) - 2) ≠ crc % 256 ∨ b2 (5 + (rl - 1) - 1) ≠ crc / 256 then
      (⟨config, 2, tid, rc, rl, b2⟩, ⟨r2.1, calls2⟩, MiniModbusError_InvalidCrc)
    else if b1 1 ≠ rc then
      (⟨config, 2, tid, rc, rl, b2⟩, ⟨r2.1, calls2⟩, MiniModbusError_ResponseInvalidCode)
    else
      (⟨config, 2, tid, rc, rl, b2⟩, ⟨r2.1, calls2⟩, MiniModbusError_Success)
  else
    let crc := MiniModbus_Crc16 (buffer_bytes b1 0 3)
    if b1 3 ≠ crc % 256 ∨ b1 4 ≠ crc / 256 then
      (⟨config, 3, tid, rc, rl, b1⟩, ⟨r1.1, calls1⟩, MiniModbusError_InvalidCrc)
    else
      (⟨config, 3, tid, rc, rl, b1⟩, ⟨r1.1, calls1⟩, ((b1 2 : Nat) : Int))

/-- TCP mode, after the send succeeded. -/
def await_tcp {σ : Type} (config : MiniModbusConfig σ) (pos tid rc rl : Nat)
    (buffer : Nat → Nat) (s : σ) (calls : List TransportCall) :
    MiniModbusContext σ × World σ × MiniModbusError_t :=
  let r1 := config.receive s 9
  let b1 := buffer_blit buffer 0 (r1.2.1.take 9)
  let calls1 := calls ++ [TransportCall.receive 0 9]
  if r1.2.2 ≠ 9 then
    (⟨config, pos, tid, rc, rl, b1⟩, ⟨r1.1, calls1⟩, MiniModbusError_Receive)
  else if read_u16 b1 0 ≠ tid then
    (⟨config, 2, tid, rc, rl, b1⟩, ⟨r1.1, calls1⟩,
      MiniModbusError_ResponseInvalidTransactionIdentifier)
  else if read_u16 b1 2 ≠ 0 then
    (⟨config, 4, tid, rc, rl, b1⟩, ⟨r1.1, calls1⟩,
      MiniModbusError_ResponseInvalidProtocolIdentifier)
  else if b1 6 ≠ config.slave_address then
    (⟨config, 7, tid, rc, rl, b1⟩, ⟨r1.1, calls1⟩, MiniModbusError_ResponseInvalidSlaveAddress)
  else if b1 7 &&& 128 = 0 then
    let r2 := config.receive r1.1 (rl - 1)
    let b2 := buffer_blit b1 9 (r2.2.1.take (rl - 1))
    let calls2 := calls1 ++ [TransportCall.receive 9 (rl - 1)]
    if r2.2.2 ≠ ((rl : Int) - 1) then
      (⟨config, 8, tid, rc, rl, b2⟩, ⟨r2.1, calls2⟩, MiniModbusError_Receive)
    else if 9 + (rl - 1) - 6 ≠ read_u16 b1 4 then
      (⟨config, 8, tid, rc, rl, b2⟩, ⟨r2.1, calls2⟩, MiniModbusError_ResponseInvalidLength)
    else if b1 7 ≠ rc then
      (⟨config, 8, tid, rc, rl, b2⟩, ⟨r2.1, calls2⟩, MiniModbusError_ResponseInvalidCode)
    else
      (⟨config, 8, tid, rc, rl, b2⟩, ⟨r2.1, calls2⟩, MiniModbusError_Success)
  else
    if 3 ≠ read_u16 b1 4 then
      (⟨config, 9, tid, rc, rl, b1⟩, ⟨r1.1, calls1⟩, MiniModbusError_ResponseInvalidLength)
    else
      (⟨config, 9, tid, rc, rl, b1⟩, ⟨r1.1, calls1⟩, ((b1 8 : Nat) : Int))

/-- RTU mode: the request bytes `data` are sealed with their checksum and sent;
then `await_rtu`. -/
def transaction_rtu {σ : Type} (config : MiniModbusConfig σ) (tid rc rl : Nat)
    (base : Nat → Nat) (data : List Nat) (w : World σ) :
    MiniModbusContext σ × World σ × MiniModbusError_t :=
  let frame := data ++ [MiniModbus_Crc16 data % 256, MiniModbus_Crc16 data / 256]
  let r0 := config.send w.user_data frame
  let calls0 := w.calls ++ [TransportCall.send frame]
  if r0.2 ≠ ((data.length + 2 : Nat) : Int) then
    (⟨config, data.length + 2, tid, rc, rl, buffer_blit base 0 frame⟩, ⟨r0.1, calls0⟩,
      MiniModbusError_Send)
  else
    await_rtu config (data.length + 2) tid rc rl (buffer_blit base 0 frame) r0.1 calls0

/-- TCP mode: the length field of the request bytes `data` is patched and they
are sent; then `await_tcp`. -/
def transaction_tcp {σ : Type} (config : MiniModbusConfig σ) (tid rc rl : Nat)
    (base : Nat → Nat) (data : List Nat) (w : World σ) :
    MiniModbusContext σ × World σ × MiniModbusError_t :=
  let frame := (data.set 4 ((data.length - 6) / 256)).set 5 ((data.length - 6) % 256)
  let r0 := config.send w.user_data frame
  let calls0 := w.calls ++ [TransportCall.send frame]
  if r0.2 ≠ (data.length : Int) then
    (⟨config, data.length, tid, rc, rl, buffer_blit base 0 frame⟩, ⟨r0.1, calls0⟩,
      MiniModbusError_Send)
  else
    await_tcp config data.length tid rc rl (buffer_blit base 0 frame) r0.1 calls0

/-- What `MiniModbus_ReadHoldingRegister` does with the engine's result `t`;
`out` is the previous contents of the output cell. -/
def read_decode {σ : Type} (out : Nat)
    (t : MiniModbusContext σ × World σ × MiniModbusError_t) : Outcome σ :=
  if t.2.2 ≠ MiniModbusError_Success then
    ⟨t.2.2, some t.1, t.2.1, some out⟩
  else if t.1.buffer t.1.buffer_position ≠ 2 then
    ⟨MiniModbusError_ResponseInvalidLength,
      some { t.1 with buffer_position := t.1.buffer_position + 1 }, t.2.1, some out⟩
  else
    ⟨MiniModbusError_Success, some { t.1 with buffer_position := t.1.buffer_position + 1 + 2 },
      t.2.1, some (read_u16 t.1.buffer (t.1.buffer_position + 1))⟩

/-- What `MiniModbus_WriteSingleRegister` does with the engine's result `t`. -/
def write_decode {σ : Type} (reg value : Nat)
    (t : MiniModbusContext σ × World σ × MiniModbusError_t) : Outcome σ :=
  if t.2.2 ≠ MiniModbusError_Success then
    ⟨t.2.2, some t.1, t.2.1, none⟩
  else if read_u16 t.1.buffer t.1.buffer_position ≠ reg ∨
      read_u16 t.1.buffer (t.1.buffer_position + 2) ≠ value then
    ⟨MiniModbusError_ResponseInvalid,
      some { t.1 with buffer_position := t.1.buffer_position + 2 + 2 }, t.2.1, none⟩
  else
    ⟨MiniModbusError_Success, some { t.1 with buffer_position := t.1.buffer_position + 2 + 2 },
      t.2.1, none⟩

/-- The bytes the request builder has stored when the engine starts: unit
address, function code and two 16-bit fields, after the MBAP header (with its
length still zero) in TCP mode. -/
def request_data (mode : MiniModbusMode) (tid u fc a b : Nat) : List Nat :=
  match mode with
  | MiniModbusMode.RTU => [u % 256, fc % 256, a / 256 % 256, a % 256, b / 256 % 256, b % 256]
  | MiniModbusMode.TCP =>
    [tid / 256 % 256, tid % 256, 0, 0, 0, 0, u % 256, fc % 256, a / 256 % 256, a % 256,
      b / 256 % 256, b % 256]

/-- The engine's result in the mode of `config`. -/
def transaction {σ : Type} (config : MiniModbusConfig σ) (tid rc rl : Nat) (base : Nat → Nat)
    (data : List Nat) (w : World σ) : MiniModbusContext σ × World σ × MiniModbusError_t :=
  match config.mode with
  | MiniModbusMode.RTU => transaction_rtu config tid rc rl base data w
  | MiniModbusMode.TCP => transaction_tcp config tid rc rl base data w

/-- The transaction identifier field of the context while a request is in
flight: the incremented counter in TCP mode, the untouched counter in RTU mode. -/
def request_tid {σ : Type} (ctx : MiniModbusContext σ) : Nat :=
  match ctx.config.mode with
  | MiniModbusMode.RTU => ctx.current_tcp_transaction_identifier
  | MiniModbusMode.TCP => next_transaction_identifier ctx

/-- The first 16-bit field of an operation's request payload. -/
def Operation.first_field : Operation → Nat
  | Operation.read reg => reg
  | Operation.write reg _ => reg

/-- The second 16-bit field of an operation's request payload. -/
def Operation.second_field : Operation → Nat
  | Operation.read _ => 1
  | Operation.write _ value => value

/-- What the operation does with the engine's result. -/
def Operation.decode {σ : Type} (op : Operation) (out : Nat)
    (t : MiniModbusContext σ × World σ × MiniModbusError_t) : Outcome σ :=
  match op with
  | Operation.read _ => read_decode out t
  | Operation.write reg value => write_decode reg value t

/-- The engine after a successful send, in the mode of `config`. -/
def await {σ : Type} (config : MiniModbusConfig σ) (pos tid rc rl : Nat)
    (buffer : Nat → Nat) (s : σ) (calls : List TransportCall) :
    MiniModbusContext σ × World σ × MiniModbusError_t :=
  match config.mode with
  | MiniModbusMode.RTU => await_rtu config pos tid rc rl buffer s calls
  | MiniModbusMode.TCP => await_tcp config pos tid rc rl buffer s calls


/-- Bounds on an engine result `t`, for a send that left the cursor at `pos` and
the record of calls `calls`: the cursor is at most 9 when the result is Success
and at most `max 9 pos` anyway, and every region handed to `receive` since ends
at or before index 12. -/
def engine_bounds {σ : Type} (pos : Nat) (calls : List TransportCall)
    (t : MiniModbusContext σ × World σ × MiniModbusError_t) : Prop :=
  (t.2.2 = MiniModbusError_Success → t.1.buffer_position ≤ 9) ∧
    t.1.buffer_position ≤ max 9 pos ∧
    ∀ p ∈ receive_requests t.2.1.calls, p ∈ receive_requests calls ∨ p.1 + p.2 ≤ 12

/-- Two engine results agree on everything the decoding of an operation looks
at: the code, the world, the cursor and the buffer below index `k`; and on
Success the four bytes from the cursor on lie below `k`. -/
def same_outcome {σ : Type} (k : Nat)
    (t1 t2 : MiniModbusContext σ × World σ × MiniModbusError_t) : Prop :=
  t1.2.2 = t2.2.2 ∧ t1.2.1 = t2.2.1 ∧ t1.1.buffer_position = t2.1.buffer_position ∧
    (∀ j, j < k → t1.1.buffer j = t2.1.buffer j) ∧
    (t1.2.2 = MiniModbusError_Success → t1.1.buffer_position + 4 ≤ k)
/-! ## Checksum: table against bit-by-bit reference -/

set_option maxRecDepth 100000 in
theorem crc16_table_length : MiniModbus_Crc16Table.length = 256 := by decide

set_option maxRecDepth 100000 in
theorem crc16_table_entry : ∀ i, i < 256 →
    MiniModbus_Crc16Table.getD i 0 = Nat.iterate crc16_reference_bit 8 i := by
  decide


theorem shiftRight_xor (a b k : Nat) : (a ^^^ b) >>> k = (a >>> k) ^^^ (b >>> k) := by
  apply Nat.eq_of_testBit_eq
  intro i
  simp [Nat.testBit_shiftRight, Nat.testBit_xor]

theorem and_one_cases (a : Nat) : a &&& 1 = 0 ∨ a &&& 1 = 1 := by
  rw [Nat.and_one_is_mod]
  omega

theorem crc16_reference_bit_xor (a b : Nat) :
    crc16_reference_bit (a ^^^ b) = crc16_reference_bit a ^^^ crc16_reference_bit b := by
  unfold crc16_reference_bit
  rw [Nat.and_xor_distrib_right, shiftRight_xor]
  have hcancel : ∀ p q : Nat, (p ^^^ 40961) ^^^ (q ^^^ 40961) = p ^^^ q := by
    intro p q
    rw [Nat.xor_assoc, Nat.xor_comm q 40961, ← Nat.xor_assoc 40961, Nat.xor_self, Nat.zero_xor]
  rcases and_one_cases a with ha | ha <;> rcases and_one_cases b with hb | hb
  · simp [ha, hb]
  · simp [ha, hb, Nat.xor_assoc]
  · simp only [ha, hb, show ((1 : Nat) ^^^ 0) = 1 from rfl, if_true,
      show ((0 : Nat) = 1) = False from by simp, if_false]
    ac_rfl
  · simp only [ha, hb, Nat.xor_self, show ((0 : Nat) = 1) = False from by simp, if_false, if_true]
    rw [hcancel]

theorem crc16_reference_iterate_xor (n a b : Nat) :
    Nat.iterate crc16_reference_bit n (a ^^^ b) =
      Nat.iterate crc16_reference_bit n a ^^^ Nat.iterate crc16_reference_bit n b := by
  induction n generalizing a b with
  | zero => rfl
  | succ n ih => simp only [Function.iterate_succ, Function.comp, crc16_reference_bit_xor, ih]

theorem crc16_reference_bit_shiftLeft (y k : Nat) :
    crc16_reference_bit (y <<< (k + 1)) = y <<< k := by
  unfold crc16_reference_bit
  have h0 : (y <<< (k + 1)) &&& 1 = 0 := by
    rw [Nat.and_one_is_mod, Nat.shiftLeft_eq, pow_succ, ← Nat.mul_assoc]
    omega
  have h1 : (y <<< (k + 1)) >>> 1 = y <<< k := by
    rw [Nat.shiftLeft_eq, Nat.shiftLeft_eq, Nat.shiftRight_eq_div_pow, pow_succ, ← Nat.mul_assoc]
    omega
  simp [h0, h1]

theorem crc16_reference_iterate_shiftLeft (y k : Nat) :
    Nat.iterate crc16_reference_bit k (y <<< k) = y := by
  induction k with
  | zero => simp
  | succ k ih => rw [Function.iterate_succ, Function.comp, crc16_reference_bit_shiftLeft, ih]

theorem split_low_byte (x : Nat) : x = (x &&& 0xFF) ^^^ ((x >>> 8) <<< 8) := by
  apply Nat.eq_of_testBit_eq
  intro i
  have h255 : (255 : Nat) = 2 ^ 8 - 1 := by norm_num
  rw [Nat.testBit_xor, Nat.testBit_and, h255, Nat.testBit_two_pow_sub_one, Nat.testBit_shiftLeft,
    Nat.testBit_shiftRight]
  by_cases h : i < 8
  · simp [h, Nat.not_le.mpr h]
  · have h8 : 8 ≤ i := Nat.not_lt.mp h
    simp [h, h8, Nat.add_sub_cancel' h8]

/-- One table lookup does the work of eight bit steps. -/
theorem crc16_table_step (x : Nat) :
    (x >>> 8) ^^^ MiniModbus_Crc16Table.getD (x &&& 0xFF) 0 =
      Nat.iterate crc16_reference_bit 8 x := by
  have hlo : x &&& 0xFF < 256 := by
    have h := Nat.and_pow_two_sub_one_eq_mod x 8
    norm_num at h
    rw [h]
    omega
  conv_rhs => rw [split_low_byte x]
  rw [crc16_reference_iterate_xor, crc16_reference_iterate_shiftLeft, ← crc16_table_entry _ hlo,
    Nat.xor_comm]

theorem xor_byte_shiftRight (crc byte : Nat) (h : byte < 256) :
    (crc ^^^ byte) >>> 8 = crc >>> 8 := by
  rw [shiftRight_xor]
  have : byte >>> 8 = 0 := by
    rw [Nat.shiftRight_eq_div_pow]
    exact Nat.div_eq_of_lt h
  rw [this, Nat.xor_zero]

theorem crc16_foldl_refines (data : List Nat) (h : ∀ b ∈ data, b < 256) (c : Nat) :
    data.foldl (fun crc byte =>
        (crc >>> 8) ^^^ MiniModbus_Crc16Table.getD ((crc ^^^ byte) &&& 0xFF) 0) c =
      data.foldl crc16_reference_byte c := by
  induction data generalizing c with
  | nil => rfl
  | cons b rest ih =>
    have hb : b < 256 := h b (List.mem_cons_self _ _)
    have hrest : ∀ x ∈ rest, x < 256 := fun x hx => h x (List.mem_cons_of_mem _ hx)
    simp only [List.foldl_cons]
    rw [ih hrest]
    congr 1
    unfold crc16_reference_byte
    rw [← crc16_table_step, xor_byte_shiftRight c b hb]


/-! ## Arithmetic of bytes -/

theorem byte_lo (x : Nat) : x &&& 255 = x % 256 := by
  have h := Nat.and_pow_two_sub_one_eq_mod x 8
  norm_num at h
  exact h

theorem shiftRight_eight (x : Nat) : x >>> 8 = x / 256 := by
  rw [Nat.shiftRight_eq_div_pow]

theorem shiftLeft_eight (x : Nat) : x <<< 8 = x * 256 := by
  rw [Nat.shiftLeft_eq]

theorem or_eq_add_of_byte (hi lo : Nat) (h : lo < 256) : (hi * 256) ||| lo = hi * 256 + lo := by
  have h3 : (256 : Nat) = 2 ^ 8 := by norm_num
  rw [h3] at h
  have := Nat.mul_add_lt_is_or h hi
  rw [h3, Nat.mul_comm hi]
  exact this.symm

/-! ## The buffer after a run of stores -/

theorem buffer_blit_apply (buffer : Nat → Nat) (offset : Nat) (data : List Nat) (j : Nat) :
    buffer_blit buffer offset data j =
      if offset ≤ j ∧ j < offset + data.length then data.getD (j - offset) 0 % 256 else buffer j :=
  rfl

theorem buffer_set_first (buffer : Nat → Nat) (byte : Nat) :
    buffer_set buffer 0 byte = some (buffer_blit buffer 0 [byte % 256]) := by
  unfold buffer_set
  simp only [MINIMODBUS_BUFFER_SIZE, Nat.zero_lt_succ, if_true, Option.some.injEq]
  funext j
  by_cases h : j = 0 <;> simp [buffer_blit, h]

theorem buffer_set_append (base : Nat → Nat) (data : List Nat) (i byte : Nat)
    (hi : i = data.length) (hlt : i < 256) :
    buffer_set (buffer_blit base 0 data) i byte = some (buffer_blit base 0 (data ++ [byte % 256])) := by
  subst hi
  unfold buffer_set
  simp only [MINIMODBUS_BUFFER_SIZE, hlt, if_true, Option.some.injEq]
  funext j
  simp only [buffer_blit, Nat.zero_le, true_and, Nat.zero_add, Nat.sub_zero, List.length_append,
    List.length_singleton]
  by_cases h : j = data.length
  · subst h
    simp [List.getD_eq_getElem?_getD]
  · by_cases h2 : j < data.length
    · simp [h, h2, Nat.lt_succ_of_lt h2, List.getD_eq_getElem?_getD, List.getElem?_append_left h2]
    · have h3 : ¬ j < data.length + 1 := by omega
      simp [h, h2, h3]

theorem buffer_set_inside (base : Nat → Nat) (data : List Nat) (i byte : Nat)
    (hi : i < data.length) (hlt : i < 256) :
    buffer_set (buffer_blit base 0 data) i byte = some (buffer_blit base 0 (data.set i (byte % 256))) := by
  unfold buffer_set
  simp only [MINIMODBUS_BUFFER_SIZE, hlt, if_true, Option.some.injEq]
  funext j
  simp only [buffer_blit, Nat.zero_le, true_and, Nat.zero_add, Nat.sub_zero, List.length_set]
  by_cases h : j = i
  · subst h
    simp [hi, List.getD_eq_getElem?_getD]
  · by_cases h2 : j < data.length
    · simp [h, h2, List.getD_eq_getElem?_getD, List.getElem?_set_ne (Ne.symm h)]
    · simp [h, h2]

theorem buffer_bytes_blit (base : Nat → Nat) (data : List Nat) (k n : Nat)
    (h : k + n ≤ data.length) :
    buffer_bytes (buffer_blit base 0 data) k n = ((data.drop k).take n).map (fun b => b % 256) := by
  induction n generalizing k with
  | zero => simp [buffer_bytes]
  | succ n ih =>
    have hk : k < data.length := by omega
    rw [buffer_bytes, ih (k + 1) (by omega), List.drop_eq_getElem_cons hk, List.take_succ_cons,
      List.map_cons]
    congr 1
    simp [buffer_blit, hk, List.getD_eq_getElem?_getD, List.getElem?_eq_getElem hk]

theorem buffer_slice_blit (base : Nat → Nat) (data : List Nat) (n : Nat)
    (h : n = data.length) (hlt : n ≤ 256) :
    buffer_slice (buffer_blit base 0 data) 0 n = some (data.map (fun b => b % 256)) := by
  subst h
  unfold buffer_slice
  simp only [MINIMODBUS_BUFFER_SIZE, Nat.zero_add, hlt, if_true]
  rw [buffer_bytes_blit base data 0 data.length (by omega)]
  simp

/-! ## The request builder on a buffer holding the bytes stored so far -/

theorem RequestAddByte_first {σ : Type} (config : MiniModbusConfig σ) (tid rc rl : Nat)
    (buffer : Nat → Nat) (byte : Nat) :
    MiniModbus_RequestAddByte ⟨config, 0, tid, rc, rl, buffer⟩ byte =
      some ⟨config, 1, tid, rc, rl, buffer_blit buffer 0 [byte % 256]⟩ := by
  simp [MiniModbus_RequestAddByte, buffer_set_first]

theorem RequestAddByte_append {σ : Type} (config : MiniModbusConfig σ) (pos tid rc rl : Nat)
    (base : Nat → Nat) (data : List Nat) (byte : Nat) (hpos : pos = data.length)
    (hlt : pos < 256) :
    MiniModbus_RequestAddByte ⟨config, pos, tid, rc, rl, buffer_blit base 0 data⟩ byte =
      some ⟨config, pos + 1, tid, rc, rl, buffer_blit base 0 (data ++ [byte % 256])⟩ := by
  simp [MiniModbus_RequestAddByte, buffer_set_append base data pos byte hpos hlt]

theorem RequestAddUInt16_append {σ : Type} (config : MiniModbusConfig σ) (pos tid rc rl : Nat)
    (base : Nat → Nat) (data : List Nat) (value : Nat) (hpos : pos = data.length)
    (hlt : pos + 1 < 256) :
    MiniModbus_RequestAddUInt16 ⟨config, pos, tid, rc, rl, buffer_blit base 0 data⟩ value =
      some ⟨config, pos + 2, tid, rc, rl,
        buffer_blit base 0 (data ++ [value / 256 % 256, value % 256])⟩ := by
  unfold MiniModbus_RequestAddUInt16
  rw [RequestAddByte_append config pos tid rc rl base data _ hpos (by omega)]
  simp only [Option.bind_eq_bind, Option.some_bind]
  rw [RequestAddByte_append config (pos + 1) tid rc rl base _ _ (by simp [hpos]) hlt]
  simp [byte_lo, shiftRight_eight]

theorem RequestStart_rtu {σ : Type} (ctx : MiniModbusContext σ) (fc rl : Nat)
    (hm : ctx.config.mode = MiniModbusMode.RTU) :
    MiniModbus_RequestStart ctx fc rl =
      some ⟨ctx.config, 2, ctx.current_tcp_transaction_identifier, fc % 256, rl % 256,
        buffer_blit ctx.buffer 0 [ctx.config.slave_address % 256, fc % 256]⟩ := by
  unfold MiniModbus_RequestStart
  simp only [hm, RequestAddByte_first, Option.bind_eq_bind, Option.some_bind]
  rw [RequestAddByte_append _ _ _ _ _ _ _ _ (by simp) (by omega)]
  simp

theorem RequestStart_tcp {σ : Type} (ctx : MiniModbusContext σ) (fc rl : Nat)
    (hm : ctx.config.mode = MiniModbusMode.TCP) :
    MiniModbus_RequestStart ctx fc rl =
      some ⟨ctx.config, 8, next_transaction_identifier ctx, fc % 256, rl % 256,
        buffer_blit ctx.buffer 0
          [next_transaction_identifier ctx / 256 % 256, next_transaction_identifier ctx % 256,
            0, 0, 0, 0, ctx.config.slave_address % 256, fc % 256]⟩ := by
  unfold MiniModbus_RequestStart MiniModbus_RequestAddUInt16
  simp only [hm, RequestAddByte_first, Option.bind_eq_bind, Option.some_bind]
  repeat (rw [RequestAddByte_append _ _ _ _ _ _ _ _ (by simp) (by omega)]; simp only [Option.some_bind])
  simp only [byte_lo, shiftRight_eight, next_transaction_identifier, List.cons_append,
    List.nil_append, Nat.zero_div, Nat.zero_mod, MODBUS_TCP_IP_PROTOCOL_IDENTIFIER]
  rw [RequestAddByte_append _ _ _ _ _ _ _ _ (by simp) (by omega)]
  simp

set_option maxRecDepth 100000 in
theorem crc16_table_entry_lt : ∀ i, i < 256 → MiniModbus_Crc16Table.getD i 0 < 65536 := by
  decide

theorem crc16_foldl_lt (data : List Nat) (c : Nat) (hc : c < 65536) :
    data.foldl (fun crc byte =>
      (crc >>> 8) ^^^ MiniModbus_Crc16Table.getD ((crc ^^^ byte) &&& 0xFF) 0) c < 65536 := by
  induction data generalizing c with
  | nil => exact hc
  | cons b rest ih =>
    apply ih
    have h1 : c >>> 8 < 2 ^ 16 := by
      rw [shiftRight_eight]
      omega
    have h2 : MiniModbus_Crc16Table.getD ((c ^^^ b) &&& 0xFF) 0 < 2 ^ 16 := by
      apply crc16_table_entry_lt
      rw [byte_lo]
      omega
    exact Nat.xor_lt_two_pow h1 h2

theorem MiniModbus_Crc16_lt (data : List Nat) : MiniModbus_Crc16 data < 65536 :=
  crc16_foldl_lt data 0xFFFF (by norm_num)

theorem map_mod_of_bytes (l : List Nat) (hl : ∀ b ∈ l, b < 256) :
    l.map (fun b => b % 256) = l := by
  conv_rhs => rw [← List.map_id l]
  apply List.map_congr_left
  intro b hb
  exact Nat.mod_eq_of_lt (hl b hb)

theorem PacketSend_rtu {σ : Type} (config : MiniModbusConfig σ) (pos tid rc rl : Nat)
    (base : Nat → Nat) (data : List Nat) (w : World σ)
    (hm : config.mode = MiniModbusMode.RTU) (hpos : pos = data.length) (hlt : pos + 1 < 256)
    (hdata : ∀ b ∈ data, b < 256) :
    MiniModbus_PacketSend ⟨config, pos, tid, rc, rl, buffer_blit base 0 data⟩ w =
      some (⟨config, data.length + 2, tid, rc, rl,
          buffer_blit base 0 (data ++ [MiniModbus_Crc16 data % 256, MiniModbus_Crc16 data / 256])⟩,
        ⟨(config.send w.user_data
            (data ++ [MiniModbus_Crc16 data % 256, MiniModbus_Crc16 data / 256])).1,
          w.calls ++ [TransportCall.send
            (data ++ [MiniModbus_Crc16 data % 256, MiniModbus_Crc16 data / 256])]⟩,
        if (config.send w.user_data
            (data ++ [MiniModbus_Crc16 data % 256, MiniModbus_Crc16 data / 256])).2
              ≠ ((data.length + 2 : Nat) : Int)
        then MiniModbusError_Send else MiniModbusError_Success) := by
  subst hpos
  have hcrc := MiniModbus_Crc16_lt data
  have hframe : ∀ b ∈ data ++ [MiniModbus_Crc16 data % 256, MiniModbus_Crc16 data / 256],
      b < 256 := by
    intro b hb
    rcases List.mem_append.mp hb with h | h
    · exact hdata b h
    · simp at h
      omega
  unfold MiniModbus_PacketSend
  simp only [hm, Option.bind_eq_bind]
  rw [buffer_slice_blit base data _ rfl (by omega), Option.some_bind,
    map_mod_of_bytes data hdata,
    RequestAddByte_append config _ tid rc rl base data _ rfl (by omega), Option.some_bind,
    RequestAddByte_append config _ tid rc rl base _ _ (by simp) hlt,
    Option.some_bind]
  simp only [transport_send, Option.bind_eq_bind, List.append_assoc, List.singleton_append,
    byte_lo, shiftRight_eight, Nat.mod_mod]
  rw [show MiniModbus_Crc16 data / 256 % 256 = MiniModbus_Crc16 data / 256 from by omega,
    buffer_slice_blit base _ _ (by simp) (by omega), Option.some_bind,
    map_mod_of_bytes _ hframe]
  simp only [Option.pure_def]
  generalize (config.send w.user_data
      (data ++ [MiniModbus_Crc16 data % 256, MiniModbus_Crc16 data / 256])) = r
  simp only [Option.some_bind]
  by_cases hs : r.2 = ((data.length + 2 : Nat) : Int)
  · have hc : ¬ (r.2 < 0 ∨ r.2 ≠ ((data.length + 1 + 1 : Nat) : Int)) := by
      rw [hs]; push_cast; omega
    rw [if_neg hc, if_neg (not_not.mpr hs)]
  · have hc : r.2 < 0 ∨ r.2 ≠ ((data.length + 1 + 1 : Nat) : Int) := Or.inr hs
    rw [if_pos hc, if_pos hs]

theorem PacketSend_tcp {σ : Type} (config : MiniModbusConfig σ) (pos tid rc rl : Nat)
    (base : Nat → Nat) (data : List Nat) (w : World σ)
    (hm : config.mode = MiniModbusMode.TCP) (hpos : pos = data.length) (hlt : pos ≤ 256)
    (h6 : 6 ≤ pos) (hdata : ∀ b ∈ data, b < 256) :
    MiniModbus_PacketSend ⟨config, pos, tid, rc, rl, buffer_blit base 0 data⟩ w =
      some (⟨config, data.length, tid, rc, rl,
          buffer_blit base 0
            ((data.set 4 ((data.length - 6) / 256)).set 5 ((data.length - 6) % 256))⟩,
        ⟨(config.send w.user_data
            ((data.set 4 ((data.length - 6) / 256)).set 5 ((data.length - 6) % 256))).1,
          w.calls ++ [TransportCall.send
            ((data.set 4 ((data.length - 6) / 256)).set 5 ((data.length - 6) % 256))]⟩,
        if (config.send w.user_data
            ((data.set 4 ((data.length - 6) / 256)).set 5 ((data.length - 6) % 256))).2
              ≠ (data.length : Int)
        then MiniModbusError_Send else MiniModbusError_Success) := by
  subst hpos
  have hlen : (((data.length : Int) - 6) % 65536).toNat = data.length - 6 := by omega
  have hframe : ∀ b ∈ (data.set 4 ((data.length - 6) / 256)).set 5 ((data.length - 6) % 256),
      b < 256 := by
    intro b hb
    rcases List.mem_or_eq_of_mem_set hb with h | h
    · rcases List.mem_or_eq_of_mem_set h with h | h
      · exact hdata b h
      · omega
    · omega
  unfold MiniModbus_PacketSend
  simp only [hm, Option.bind_eq_bind, hlen, byte_lo, shiftRight_eight]
  rw [buffer_set_inside base data 4 _ (by omega) (by omega), Option.some_bind,
    buffer_set_inside base _ 5 _ (by simp; omega) (by omega), Option.some_bind]
  simp only [transport_send, Option.bind_eq_bind, Option.pure_def, Option.some_bind, Nat.mod_mod]
  rw [show (data.length - 6) / 256 % 256 = (data.length - 6) / 256 from by omega,
    buffer_slice_blit base _ _ (by simp) hlt, Option.some_bind, map_mod_of_bytes _ hframe]
  generalize (config.send w.user_data
      ((data.set 4 ((data.length - 6) / 256)).set 5 ((data.length - 6) % 256))) = r
  simp only [Option.some_bind]
  by_cases hs : r.2 = (data.length : Int)
  · have hc : ¬ (r.2 < 0 ∨ r.2 ≠ (data.length : Int)) := by
      rw [hs]; omega
    rw [if_neg hc, if_neg (not_not.mpr hs)]
  · have hc : r.2 < 0 ∨ r.2 ≠ (data.length : Int) := Or.inr hs
    rw [if_pos hc, if_pos hs]

/-! ## The engine computes its mode-by-mode form -/

theorem ResponseReadByte_mk {σ : Type} (config : MiniModbusConfig σ) (pos tid rc rl : Nat)
    (buffer : Nat → Nat) (h : pos < 256) :
    MiniModbus_ResponseReadByte ⟨config, pos, tid, rc, rl, buffer⟩ =
      some (buffer pos, ⟨config, pos + 1, tid, rc, rl, buffer⟩) := by
  simp [MiniModbus_ResponseReadByte, buffer_get, h]

theorem ResponseReadUIn16_mk {σ : Type} (config : MiniModbusConfig σ) (pos tid rc rl : Nat)
    (buffer : Nat → Nat) (h : pos + 1 < 256) :
    MiniModbus_ResponseReadUIn16 ⟨config, pos, tid, rc, rl, buffer⟩ =
      some (read_u16 buffer pos, ⟨config, pos + 2, tid, rc, rl, buffer⟩) := by
  unfold MiniModbus_ResponseReadUIn16
  rw [ResponseReadByte_mk _ _ _ _ _ _ (by omega)]
  simp only [Option.bind_eq_bind, Option.some_bind]
  rw [ResponseReadByte_mk _ _ _ _ _ _ h]
  simp [shiftLeft_eight, read_u16]

theorem size_t_of_int_natCast (n : Nat) (h : n < 18446744073709551616) :
    size_t_of_int (n : Int) = n := by
  unfold size_t_of_int
  omega

theorem size_t_of_int_pred (rl : Nat) (h1 : 1 ≤ rl) (h : rl < 18446744073709551616) :
    size_t_of_int ((rl : Int) - 1) = rl - 1 := by
  unfold size_t_of_int
  omega

set_option maxHeartbeats 1000000 in
theorem engine_rtu {σ : Type} (config : MiniModbusConfig σ) (pos tid rc rl : Nat)
    (base : Nat → Nat) (data : List Nat) (w : World σ)
    (hm : config.mode = MiniModbusMode.RTU) (hpos : pos = data.length) (hlt : pos + 1 < 256)
    (hdata : ∀ b ∈ data, b < 256) (hrl : 1 ≤ rl) (hrl2 : rl ≤ 248) :
    MiniModbus_SendRequestAndWaitResponse ⟨config, pos, tid, rc, rl, buffer_blit base 0 data⟩ w =
      some (transaction_rtu config tid rc rl base data w) := by
  unfold MiniModbus_SendRequestAndWaitResponse transaction_rtu
  rw [PacketSend_rtu config pos tid rc rl base data w hm hpos hlt hdata]
  simp only [Option.bind_eq_bind, Option.some_bind]
  generalize (config.send w.user_data
      (data ++ [MiniModbus_Crc16 data % 256, MiniModbus_Crc16 data / 256])) = r0
  generalize buffer_blit base 0
      (data ++ [MiniModbus_Crc16 data % 256, MiniModbus_Crc16 data / 256]) = b0
  generalize w.calls ++ [TransportCall.send
      (data ++ [MiniModbus_Crc16 data % 256, MiniModbus_Crc16 data / 256])] = calls0
  by_cases hs : r0.2 = ((data.length + 2 : Nat) : Int)
  · simp only [hs, ne_eq, not_true_eq_false, if_false, MiniModbusError_Success, Option.pure_def,
      hm, RESPONSE_HEADER_LENGTH, transport_receive, MINIMODBUS_BUFFER_SIZE, Nat.zero_add,
      Nat.reduceAdd, Nat.reduceLeDiff, if_true, Option.some_bind]
    simp only [await_rtu]
    generalize config.receive r0.1 5 = r1
    generalize hb1 : buffer_blit b0 0 (List.take 5 r1.2.1) = b1
    by_cases h1 : r1.2.2 = 5
    · simp only [h1, Nat.cast_ofNat, ne_eq, not_true_eq_false, if_false, show size_t_of_int 5 = 5 from by decide,
        ResponseReadByte_mk _ _ _ _ _ _ (show 0 < 256 by norm_num), Option.some_bind, Option.bind_eq_bind]
      by_cases h2 : b1 0 = config.slave_address
      · simp only [h2, not_true_eq_false, if_false, Option.some_bind, ne_eq,
          ResponseReadByte_mk _ _ _ _ _ _ (show 0 + 1 < 256 by norm_num), ERROR_CODE_BITMASK]
        by_cases h3 : b1 1 &&& 128 = 0
        · simp only [h3, if_true, size_t_of_int_pred rl hrl (by omega), MINIMODBUS_BUFFER_SIZE,
            show 5 + (rl - 1) ≤ 256 from by omega, transport_receive, Option.some_bind,
            Option.bind_eq_bind]
          generalize config.receive r1.1 (rl - 1) = r2
          generalize hb2 : buffer_blit b1 5 (List.take (rl - 1) r2.2.1) = b2
          by_cases h4 : r2.2.2 = (rl : Int) - 1
          · have h4n : size_t_of_int ((rl : Int) - 1) = rl - 1 := size_t_of_int_pred rl hrl (by omega)
            simp only [h4, h4n, ne_eq, not_true_eq_false, if_false, Option.some_bind, hm,
              buffer_slice, buffer_get, MINIMODBUS_BUFFER_SIZE, Nat.zero_add,
              show 5 + (rl - 1) - 2 ≤ 256 from by omega, show 5 + (rl - 1) - 2 < 256 from by omega,
              show 5 + (rl - 1) - 1 < 256 from by omega, if_true, Option.bind_eq_bind, byte_lo,
              shiftRight_eight, Bool.true_eq_false]
            have hc := MiniModbus_Crc16_lt (buffer_bytes b2 0 (5 + (rl - 1) - 2))
            rw [show MiniModbus_Crc16 (buffer_bytes b2 0 (5 + (rl - 1) - 2)) / 256 % 256 =
              MiniModbus_Crc16 (buffer_bytes b2 0 (5 + (rl - 1) - 2)) / 256 from by omega]
            split_ifs <;> simp_all
          · simp [h4]
        · simp only [h3, if_false, ResponseReadByte_mk _ _ _ _ _ _ (show 0 + 1 + 1 < 256 by norm_num),
            Option.some_bind, Option.bind_eq_bind, hm, buffer_slice, buffer_get,
            MINIMODBUS_BUFFER_SIZE, Bool.true_eq_false, Nat.zero_add, Nat.reduceSub, Nat.reduceLeDiff,
            Nat.reduceLT, if_true, byte_lo, shiftRight_eight]
          have hc := MiniModbus_Crc16_lt (buffer_bytes b1 0 3)
          rw [show MiniModbus_Crc16 (buffer_bytes b1 0 3) / 256 % 256 =
              MiniModbus_Crc16 (buffer_bytes b1 0 3) / 256 from by omega]
          split_ifs <;> simp_all
      · simp [h2]
    · simp [h1]
  · have hs2 : ¬ r0.2 = (data.length : Int) + 2 := by
      push_cast at hs
      exact hs
    simp [hs2]

set_option maxHeartbeats 1000000 in
theorem engine_tcp {σ : Type} (config : MiniModbusConfig σ) (pos tid rc rl : Nat)
    (base : Nat → Nat) (data : List Nat) (w : World σ)
    (hm : config.mode = MiniModbusMode.TCP) (hpos : pos = data.length) (hlt : pos ≤ 256)
    (h6 : 6 ≤ pos) (hdata : ∀ b ∈ data, b < 256) (hrl : 1 ≤ rl) (hrl2 : rl ≤ 248) :
    MiniModbus_SendRequestAndWaitResponse ⟨config, pos, tid, rc, rl, buffer_blit base 0 data⟩ w =
      some (transaction_tcp config tid rc rl base data w) := by
  unfold MiniModbus_SendRequestAndWaitResponse transaction_tcp
  rw [PacketSend_tcp config pos tid rc rl base data w hm hpos hlt h6 hdata]
  simp only [Option.bind_eq_bind, Option.some_bind]
  generalize (config.send w.user_data
      ((data.set 4 ((data.length - 6) / 256)).set 5 ((data.length - 6) % 256))) = r0
  generalize buffer_blit base 0
      ((data.set 4 ((data.length - 6) / 256)).set 5 ((data.length - 6) % 256)) = b0
  generalize w.calls ++ [TransportCall.send
      ((data.set 4 ((data.length - 6) / 256)).set 5 ((data.length - 6) % 256))] = calls0
  by_cases hs : r0.2 = (data.length : Int)
  · simp only [hs, ne_eq, not_true_eq_false, if_false, MiniModbusError_Success, Option.pure_def,
      hm, RESPONSE_HEADER_LENGTH, transport_receive, MINIMODBUS_BUFFER_SIZE, Nat.zero_add,
      Nat.reduceAdd, Nat.reduceLeDiff, if_true, Option.some_bind]
    simp only [await_tcp]
    generalize config.receive r0.1 9 = r1
    generalize hb1 : buffer_blit b0 0 (List.take 9 r1.2.1) = b1
    by_cases h1 : r1.2.2 = 9
    · simp only [h1, Nat.cast_ofNat, ne_eq, not_true_eq_false, if_false,
        show size_t_of_int 9 = 9 from by decide,
        ResponseReadUIn16_mk _ _ _ _ _ _ (show 0 + 1 < 256 by norm_num), Option.some_bind,
        Option.bind_eq_bind]
      by_cases h2 : read_u16 b1 0 = tid
      · simp only [h2, not_true_eq_false, if_false, Option.some_bind, ne_eq,
          ResponseReadUIn16_mk _ _ _ _ _ _ (show 0 + 2 + 1 < 256 by norm_num), Nat.zero_add,
          MODBUS_TCP_IP_PROTOCOL_IDENTIFIER]
        by_cases h3 : read_u16 b1 2 = 0
        · simp only [h3, not_true_eq_false, if_false, Option.some_bind, ne_eq,
            ResponseReadUIn16_mk _ _ _ _ _ _ (show 2 + 2 + 1 < 256 by norm_num),
            ResponseReadByte_mk _ _ _ _ _ _ (show 2 + 2 + 2 < 256 by norm_num), Nat.reduceAdd]
          by_cases h4 : b1 6 = config.slave_address
          · simp only [h4, not_true_eq_false, if_false, Option.some_bind, ne_eq,
              ResponseReadByte_mk _ _ _ _ _ _ (show 7 < 256 by norm_num), ERROR_CODE_BITMASK,
              Nat.reduceAdd]
            by_cases h5 : b1 7 &&& 128 = 0
            · simp only [h5, if_true, size_t_of_int_pred rl hrl (by omega), MINIMODBUS_BUFFER_SIZE,
                show 9 + (rl - 1) ≤ 256 from by omega, transport_receive, Option.some_bind,
                Option.bind_eq_bind]
              generalize config.receive r1.1 (rl - 1) = r2
              generalize hb2 : buffer_blit b1 9 (List.take (rl - 1) r2.2.1) = b2
              by_cases h6 : r2.2.2 = (rl : Int) - 1
              · have h6n : size_t_of_int ((rl : Int) - 1) = rl - 1 :=
                  size_t_of_int_pred rl hrl (by omega)
                simp only [h6, h6n, ne_eq, not_true_eq_false, if_false, Option.some_bind, hm,
                  Bool.true_eq_false, Option.pure_def]
                split_ifs <;> simp_all
              · simp [h6]
            · simp only [h5, if_false, ResponseReadByte_mk _ _ _ _ _ _ (show 8 < 256 by norm_num),
                Option.some_bind, Option.bind_eq_bind, hm, Bool.true_eq_false, Nat.reduceSub,
                Nat.reduceAdd, Option.pure_def]
              split_ifs <;> simp_all
          · simp [h4]
        · simp [h3]
      · simp [h2]
    · simp [h1]
  · simp [hs]

/-! ## The public operations in terms of the mode-by-mode engine -/

theorem request_data_bytes (mode : MiniModbusMode) (tid u fc a b : Nat) :
    ∀ x ∈ request_data mode tid u fc a b, x < 256 := by
  intro x hx
  cases mode <;> simp [request_data] at hx <;> omega

theorem request_built {σ : Type} (ctx : MiniModbusContext σ) (fc rl a b : Nat) :
    (MiniModbus_RequestStart ctx fc rl).bind (fun c =>
      (MiniModbus_RequestAddUInt16 c a).bind (fun c => MiniModbus_RequestAddUInt16 c b)) =
    some ⟨ctx.config, (request_data ctx.config.mode (request_tid ctx) ctx.config.slave_address
        fc a b).length, request_tid ctx, fc % 256, rl % 256,
      buffer_blit ctx.buffer 0
        (request_data ctx.config.mode (request_tid ctx) ctx.config.slave_address fc a b)⟩ := by
  cases hm : ctx.config.mode
  · rw [RequestStart_rtu ctx _ _ hm, Option.some_bind,
      RequestAddUInt16_append _ _ _ _ _ _ _ _ (by simp) (by omega), Option.some_bind,
      RequestAddUInt16_append _ _ _ _ _ _ _ _ (by simp) (by omega)]
    simp [request_data, request_tid, hm]
  · rw [RequestStart_tcp ctx _ _ hm, Option.some_bind,
      RequestAddUInt16_append _ _ _ _ _ _ _ _ (by simp) (by omega), Option.some_bind,
      RequestAddUInt16_append _ _ _ _ _ _ _ _ (by simp) (by omega)]
    simp [request_data, request_tid, hm]

theorem request_data_length (mode : MiniModbusMode) (tid u fc a b : Nat) :
    (request_data mode tid u fc a b).length = (match mode with
      | MiniModbusMode.RTU => 6
      | MiniModbusMode.TCP => 12) := by
  cases mode <;> rfl

theorem engine_eq {σ : Type} (config : MiniModbusConfig σ) (pos tid rc rl : Nat)
    (base : Nat → Nat) (data : List Nat) (w : World σ)
    (hpos : pos = data.length) (hlt : pos + 1 < 256)
    (h6 : 6 ≤ pos) (hdata : ∀ b ∈ data, b < 256) (hrl : 1 ≤ rl) (hrl2 : rl ≤ 248) :
    MiniModbus_SendRequestAndWaitResponse ⟨config, pos, tid, rc, rl, buffer_blit base 0 data⟩ w =
      some (transaction config tid rc rl base data w) := by
  unfold transaction
  cases hm : config.mode
  · exact engine_rtu config pos tid rc rl base data w hm hpos hlt hdata hrl hrl2
  · exact engine_tcp config pos tid rc rl base data w hm hpos (by omega) h6 hdata hrl hrl2

theorem sent_frames_append (a b : List TransportCall) :
    sent_frames (a ++ b) = sent_frames a ++ sent_frames b := by
  simp [sent_frames, List.filterMap_append]

/-- Whatever the transport does after the send, the engine leaves the
configuration and the stored request fields alone, keeps the cursor small and
sends nothing more (RTU mode). -/
theorem await_rtu_shape {σ : Type} (config : MiniModbusConfig σ) (pos tid rc rl : Nat)
    (buffer : Nat → Nat) (s : σ) (calls : List TransportCall) :
    (await_rtu config pos tid rc rl buffer s calls).1.config = config ∧
    (await_rtu config pos tid rc rl buffer s calls).1.current_tcp_transaction_identifier = tid ∧
    (await_rtu config pos tid rc rl buffer s calls).1.buffer_position ≤ max 9 pos ∧
    sent_frames (await_rtu config pos tid rc rl buffer s calls).2.1.calls = sent_frames calls := by
  unfold await_rtu
  generalize config.receive s 5 = r1
  simp only []
  generalize buffer_blit buffer 0 (r1.2.1.take 5) = b1
  generalize config.receive r1.1 (rl - 1) = r2
  generalize buffer_blit b1 5 (r2.2.1.take (rl - 1)) = b2
  split_ifs <;> exact ⟨rfl, rfl, by simp, by simp [sent_frames]⟩

/-- The same in TCP mode. -/
theorem await_tcp_shape {σ : Type} (config : MiniModbusConfig σ) (pos tid rc rl : Nat)
    (buffer : Nat → Nat) (s : σ) (calls : List TransportCall) :
    (await_tcp config pos tid rc rl buffer s calls).1.config = config ∧
    (await_tcp config pos tid rc rl buffer s calls).1.current_tcp_transaction_identifier = tid ∧
    (await_tcp config pos tid rc rl buffer s calls).1.buffer_position ≤ max 9 pos ∧
    sent_frames (await_tcp config pos tid rc rl buffer s calls).2.1.calls = sent_frames calls := by
  unfold await_tcp
  generalize config.receive s 9 = r1
  simp only []
  generalize buffer_blit buffer 0 (r1.2.1.take 9) = b1
  generalize config.receive r1.1 (rl - 1) = r2
  generalize buffer_blit b1 9 (r2.2.1.take (rl - 1)) = b2
  split_ifs <;> exact ⟨rfl, rfl, by simp, by simp [sent_frames]⟩

/-- The engine as a whole: configuration and counter field untouched, cursor
small, and exactly one frame sent: the stored request bytes, sealed with the
checksum in RTU mode and with the length patched in TCP mode. -/
theorem transaction_shape {σ : Type} (config : MiniModbusConfig σ) (tid rc rl : Nat)
    (base : Nat → Nat) (data : List Nat) (w : World σ) :
    (transaction config tid rc rl base data w).1.config = config ∧
    (transaction config tid rc rl base data w).1.current_tcp_transaction_identifier = tid ∧
    (transaction config tid rc rl base data w).1.buffer_position ≤ max 9 (data.length + 2) ∧
    sent_frames (transaction config tid rc rl base data w).2.1.calls =
      sent_frames w.calls ++ [match config.mode with
        | MiniModbusMode.RTU => data ++ [MiniModbus_Crc16 data % 256, MiniModbus_Crc16 data / 256]
        | MiniModbusMode.TCP =>
          (data.set 4 ((data.length - 6) / 256)).set 5 ((data.length - 6) % 256)] := by
  unfold transaction
  cases config.mode
  · simp only [transaction_rtu]
    split_ifs
    · exact ⟨rfl, rfl, by simp, by simp [sent_frames]⟩
    · obtain ⟨h1, h2, h3, h4⟩ := await_rtu_shape config (data.length + 2)
        tid rc rl (buffer_blit base 0
          (data ++ [MiniModbus_Crc16 data % 256, MiniModbus_Crc16 data / 256]))
        (config.send w.user_data
          (data ++ [MiniModbus_Crc16 data % 256, MiniModbus_Crc16 data / 256])).1
        (w.calls ++ [TransportCall.send
          (data ++ [MiniModbus_Crc16 data % 256, MiniModbus_Crc16 data / 256])])
      exact ⟨h1, h2, h3, by rw [h4]; simp [sent_frames]⟩
  · simp only [transaction_tcp]
    split_ifs
    · exact ⟨rfl, rfl, by simp, by simp [sent_frames]⟩
    · obtain ⟨h1, h2, h3, h4⟩ := await_tcp_shape config data.length
        tid rc rl (buffer_blit base 0
          ((data.set 4 ((data.length - 6) / 256)).set 5 ((data.length - 6) % 256)))
        (config.send w.user_data
          ((data.set 4 ((data.length - 6) / 256)).set 5 ((data.length - 6) % 256))).1
        (w.calls ++ [TransportCall.send
          ((data.set 4 ((data.length - 6) / 256)).set 5 ((data.length - 6) % 256))])
      exact ⟨h1, h2, le_trans h3 (by omega), by rw [h4]; simp [sent_frames]⟩

theorem transaction_cursor {σ : Type} (config : MiniModbusConfig σ) (tid rc rl : Nat)
    (base : Nat → Nat) (data : List Nat) (w : World σ) :
    (transaction config tid rc rl base data w).1.buffer_position ≤ max 9 (data.length + 2) :=
  (transaction_shape config tid rc rl base data w).2.2.1

theorem ResponseReadByte_eq {σ : Type} (ctx : MiniModbusContext σ) (h : ctx.buffer_position < 256) :
    MiniModbus_ResponseReadByte ctx =
      some (ctx.buffer ctx.buffer_position,
        { ctx with buffer_position := ctx.buffer_position + 1 }) := by
  simp [MiniModbus_ResponseReadByte, buffer_get, h]

theorem ResponseReadUIn16_eq {σ : Type} (ctx : MiniModbusContext σ)
    (h : ctx.buffer_position + 1 < 256) :
    MiniModbus_ResponseReadUIn16 ctx =
      some (read_u16 ctx.buffer ctx.buffer_position,
        { ctx with buffer_position := ctx.buffer_position + 2 }) := by
  cases ctx
  exact ResponseReadUIn16_mk _ _ _ _ _ _ h

theorem bind_bind_of_eq_some {α β : Type} (x : Option α) (f g : α → Option α)
    (k : α → Option β) (c : α) (h : x.bind (fun a => (f a).bind g) = some c) :
    x.bind (fun a => (f a).bind (fun b => (g b).bind k)) = k c := by
  have e : x.bind (fun a => (f a).bind (fun b => (g b).bind k)) =
      (x.bind (fun a => (f a).bind g)).bind k := by
    simp only [Option.bind_assoc]
  rw [e, h, Option.some_bind]

theorem read_eq {σ : Type} (ctx : MiniModbusContext σ) (w : World σ) (reg out : Nat) :
    MiniModbus_ReadHoldingRegister (some ctx) w reg (some out) =
      some (read_decode out (transaction ctx.config (request_tid ctx) 3 3 ctx.buffer
        (request_data ctx.config.mode (request_tid ctx) ctx.config.slave_address 3 reg 1) w)) := by
  have hb := request_built ctx FUNCTION_READ_HOLDING_REGISTER 3 reg 1
  have hl := request_data_length ctx.config.mode (request_tid ctx) ctx.config.slave_address 3 reg 1
  have hc := transaction_cursor ctx.config (request_tid ctx) 3 3 ctx.buffer
    (request_data ctx.config.mode (request_tid ctx) ctx.config.slave_address 3 reg 1) w
  have hl2 : 6 ≤ (request_data ctx.config.mode (request_tid ctx) ctx.config.slave_address
      3 reg 1).length ∧ (request_data ctx.config.mode (request_tid ctx) ctx.config.slave_address
      3 reg 1).length ≤ 12 := by
    rw [hl]; cases ctx.config.mode <;> simp
  unfold MiniModbus_ReadHoldingRegister
  simp only [Option.bind_eq_bind, FUNCTION_READ_HOLDING_REGISTER] at hb ⊢
  rw [bind_bind_of_eq_some _ _ _ _ _ hb,
    engine_eq _ _ _ _ _ _ _ _ rfl (by omega) (by omega) (request_data_bytes _ _ _ _ _ _)
      (by norm_num) (by norm_num), Option.some_bind]
  norm_num only at *
  generalize transaction ctx.config (request_tid ctx) 3 3 ctx.buffer
    (request_data ctx.config.mode (request_tid ctx) ctx.config.slave_address 3 reg 1) w = t at *
  have hp : t.1.buffer_position ≤ 14 := by
    refine le_trans hc ?_
    simp only [max_le_iff]
    omega
  unfold read_decode
  by_cases he : t.2.2 = MiniModbusError_Success
  · rw [if_neg (not_not.mpr he), if_neg (not_not.mpr he),
      ResponseReadByte_eq _ (by omega), Option.some_bind]
    by_cases h2 : t.1.buffer t.1.buffer_position = 2
    · rw [if_neg (not_not.mpr h2), if_neg (not_not.mpr h2),
        ResponseReadUIn16_eq _ (by simp only []; omega), Option.some_bind]
      rfl
    · rw [if_pos h2, if_pos h2]
      rfl
  · rw [if_pos he, if_pos he]
    rfl

theorem write_eq {σ : Type} (ctx : MiniModbusContext σ) (w : World σ) (reg value : Nat) :
    MiniModbus_WriteSingleRegister (some ctx) w reg value =
      some (write_decode reg value (transaction ctx.config (request_tid ctx) 6 4 ctx.buffer
        (request_data ctx.config.mode (request_tid ctx) ctx.config.slave_address 6 reg value) w)) := by
  have hb := request_built ctx FUNCTION_WRITE_SINGLE_REGISTER 4 reg value
  have hl := request_data_length ctx.config.mode (request_tid ctx) ctx.config.slave_address
    6 reg value
  have hc := transaction_cursor ctx.config (request_tid ctx) 6 4 ctx.buffer
    (request_data ctx.config.mode (request_tid ctx) ctx.config.slave_address 6 reg value) w
  have hl2 : 6 ≤ (request_data ctx.config.mode (request_tid ctx) ctx.config.slave_address
      6 reg value).length ∧ (request_data ctx.config.mode (request_tid ctx)
      ctx.config.slave_address 6 reg value).length ≤ 12 := by
    rw [hl]; cases ctx.config.mode <;> simp
  unfold MiniModbus_WriteSingleRegister
  simp only [Option.bind_eq_bind, FUNCTION_WRITE_SINGLE_REGISTER] at hb ⊢
  rw [bind_bind_of_eq_some _ _ _ _ _ hb,
    engine_eq _ _ _ _ _ _ _ _ rfl (by omega) (by omega) (request_data_bytes _ _ _ _ _ _)
      (by norm_num) (by norm_num), Option.some_bind]
  norm_num only at *
  generalize transaction ctx.config (request_tid ctx) 6 4 ctx.buffer
    (request_data ctx.config.mode (request_tid ctx) ctx.config.slave_address 6 reg value) w = t at *
  have hp : t.1.buffer_position ≤ 14 := by
    refine le_trans hc ?_
    simp only [max_le_iff]
    omega
  unfold write_decode
  by_cases he : t.2.2 = MiniModbusError_Success
  · rw [if_neg (not_not.mpr he), if_neg (not_not.mpr he),
      ResponseReadUIn16_eq _ (by omega), Option.some_bind,
      ResponseReadUIn16_eq _ (by simp only []; omega), Option.some_bind]
    by_cases hcond : read_u16 t.1.buffer t.1.buffer_position ≠ reg ∨
        read_u16 t.1.buffer (t.1.buffer_position + 2) ≠ value
    · simp only [Option.pure_def, hcond, if_true]
    · simp only [Option.pure_def, hcond, if_false]
  · rw [if_pos he, if_pos he]
    rfl

theorem run_eq {σ : Type} (op : Operation) (ctx : MiniModbusContext σ) (w : World σ) (out : Nat) :
    op.run ctx w out =
      some (op.decode out (transaction ctx.config (request_tid ctx) op.function_code
        (op.response_payload_length) ctx.buffer
        (request_data ctx.config.mode (request_tid ctx) ctx.config.slave_address
          op.function_code op.first_field op.second_field) w)) := by
  cases op with
  | read reg => exact read_eq ctx w reg out
  | write reg value => exact write_eq ctx w reg value

theorem be16 (hi lo : Nat) (hhi : hi < 256) (hlo : lo < 256) :
    ((hi * 256) % 65536 ||| lo) % 65536 = hi * 256 + lo := by
  rw [Nat.mod_eq_of_lt (show hi * 256 < 65536 by omega), or_eq_add_of_byte _ _ hlo]
  omega

theorem request_tid_tcp {σ : Type} (ctx : MiniModbusContext σ)
    (hm : ctx.config.mode = MiniModbusMode.TCP) :
    request_tid ctx = next_transaction_identifier ctx := by
  simp [request_tid, hm]

theorem next_transaction_identifier_lt {σ : Type} (ctx : MiniModbusContext σ) :
    next_transaction_identifier ctx < 65536 := by
  unfold next_transaction_identifier
  omega

/-! ## What an operation hands to the transport -/

theorem transaction_sent {σ : Type} (config : MiniModbusConfig σ) (tid rc rl : Nat)
    (base : Nat → Nat) (data : List Nat) (w : World σ) :
    sent_frames (transaction config tid rc rl base data w).2.1.calls =
      sent_frames w.calls ++ [match config.mode with
        | MiniModbusMode.RTU => data ++ [MiniModbus_Crc16 data % 256, MiniModbus_Crc16 data / 256]
        | MiniModbusMode.TCP =>
          (data.set 4 ((data.length - 6) / 256)).set 5 ((data.length - 6) % 256)] :=
  (transaction_shape config tid rc rl base data w).2.2.2

theorem transaction_tid {σ : Type} (config : MiniModbusConfig σ) (tid rc rl : Nat)
    (base : Nat → Nat) (data : List Nat) (w : World σ) :
    (transaction config tid rc rl base data w).1.current_tcp_transaction_identifier = tid :=
  (transaction_shape config tid rc rl base data w).2.1

theorem transaction_config {σ : Type} (config : MiniModbusConfig σ) (tid rc rl : Nat)
    (base : Nat → Nat) (data : List Nat) (w : World σ) :
    (transaction config tid rc rl base data w).1.config = config :=
  (transaction_shape config tid rc rl base data w).1

theorem decode_world {σ : Type} (op : Operation) (out : Nat)
    (t : MiniModbusContext σ × World σ × MiniModbusError_t) :
    (op.decode out t).world = t.2.1 := by
  cases op <;> simp only [Operation.decode, read_decode, write_decode] <;> split_ifs <;> rfl

theorem read_decode_world {σ : Type} (out : Nat)
    (t : MiniModbusContext σ × World σ × MiniModbusError_t) :
    (read_decode out t).world = t.2.1 :=
  decode_world (Operation.read 0) out t

theorem write_decode_world {σ : Type} (reg value : Nat)
    (t : MiniModbusContext σ × World σ × MiniModbusError_t) :
    (write_decode reg value t).world = t.2.1 :=
  decode_world (Operation.write reg value) 0 t

theorem decode_ctx {σ : Type} (op : Operation) (out : Nat)
    (t : MiniModbusContext σ × World σ × MiniModbusError_t) :
    ∃ c, (op.decode out t).ctx = some c ∧ c.config = t.1.config ∧
      c.current_tcp_transaction_identifier = t.1.current_tcp_transaction_identifier := by
  cases op <;> simp only [Operation.decode, read_decode, write_decode] <;> split_ifs <;>
    exact ⟨_, rfl, rfl, rfl⟩

theorem frame_u16_tcp (t a b c d : Nat) (rest : List Nat) :
    frame_u16 (t / 256 :: t % 256 :: a :: b :: c :: d :: rest) 0 = t := by
  simp [frame_u16]
  omega

/-- In TCP mode an operation always returns, leaves the incremented counter in
the context and sends exactly one frame, which carries that counter. -/
theorem run_tcp_identifier {σ : Type} (op : Operation) (ctx : MiniModbusContext σ) (w : World σ)
    (out : Nat) (hm : ctx.config.mode = MiniModbusMode.TCP) :
    ∃ r c frame, op.run ctx w out = some r ∧ r.ctx = some c ∧ c.config = ctx.config ∧
      c.current_tcp_transaction_identifier = next_transaction_identifier ctx ∧
      sent_frames r.world.calls = sent_frames w.calls ++ [frame] ∧
      frame_u16 frame 0 = next_transaction_identifier ctx := by
  have ht := next_transaction_identifier_lt ctx
  have ht1 : next_transaction_identifier ctx / 256 % 256 = next_transaction_identifier ctx / 256 := by
    omega
  obtain ⟨c, hc, hcfg, htid⟩ := decode_ctx op out
    (transaction ctx.config (request_tid ctx) op.function_code op.response_payload_length
      ctx.buffer (request_data ctx.config.mode (request_tid ctx) ctx.config.slave_address
        op.function_code op.first_field op.second_field) w)
  refine ⟨_, c,
    [next_transaction_identifier ctx / 256, next_transaction_identifier ctx % 256, 0, 0, 0, 6,
      ctx.config.slave_address % 256, op.function_code % 256, op.first_field / 256 % 256,
      op.first_field % 256, op.second_field / 256 % 256, op.second_field % 256],
    run_eq op ctx w out, hc, ?_, ?_, ?_, ?_⟩
  · rw [hcfg, transaction_config]
  · rw [htid, transaction_tid, request_tid_tcp ctx hm]
  · rw [decode_world]
    simp only [transaction_sent, hm, request_tid_tcp ctx hm]
    simp [request_data, ht1]
  · exact frame_u16_tcp _ _ _ _ _ _
/-! ## A flipped bit changes the checksum -/

/-- The lookup table is linear over XOR. -/
theorem crc16_table_getD_xor (a b : Nat) (ha : a < 256) (hb : b < 256) :
    MiniModbus_Crc16Table.getD (a ^^^ b) 0 =
      MiniModbus_Crc16Table.getD a 0 ^^^ MiniModbus_Crc16Table.getD b 0 := by
  have hab : a ^^^ b < 256 := by
    have h1 : a < 2 ^ 8 := by norm_num; exact ha
    have h2 : b < 2 ^ 8 := by norm_num; exact hb
    have := Nat.xor_lt_two_pow h1 h2
    norm_num at this
    exact this
  rw [crc16_table_entry _ hab, crc16_table_entry _ ha, crc16_table_entry _ hb,
    crc16_reference_iterate_xor]

theorem and_255_lt (x : Nat) : x &&& 255 < 256 := by
  rw [byte_lo]
  omega

/-- Changing the register by `d` before a step changes the result by what the
step does to `d` alone with a zero byte. -/
theorem crc16_step_xor (c d b : Nat) :
    ((c ^^^ d) >>> 8) ^^^ MiniModbus_Crc16Table.getD (((c ^^^ d) ^^^ b) &&& 0xFF) 0 =
      ((c >>> 8) ^^^ MiniModbus_Crc16Table.getD ((c ^^^ b) &&& 0xFF) 0) ^^^
        ((d >>> 8) ^^^ MiniModbus_Crc16Table.getD (d &&& 0xFF) 0) := by
  have h1 : ((c ^^^ d) ^^^ b) &&& 0xFF = ((c ^^^ b) &&& 0xFF) ^^^ (d &&& 0xFF) := by
    rw [← Nat.and_xor_distrib_right]
    congr 1
    ac_rfl
  rw [h1, crc16_table_getD_xor _ _ (and_255_lt _) (and_255_lt _), shiftRight_xor]
  ac_rfl

theorem crc16_foldl_xor (post : List Nat) (c d : Nat) :
    post.foldl (fun crc byte =>
        (crc >>> 8) ^^^ MiniModbus_Crc16Table.getD ((crc ^^^ byte) &&& 0xFF) 0) (c ^^^ d) =
      post.foldl (fun crc byte =>
        (crc >>> 8) ^^^ MiniModbus_Crc16Table.getD ((crc ^^^ byte) &&& 0xFF) 0) c ^^^
      Nat.iterate (fun x => (x >>> 8) ^^^ MiniModbus_Crc16Table.getD (x &&& 0xFF) 0)
        post.length d := by
  induction post generalizing c d with
  | nil => rfl
  | cons b rest ih =>
    simp only [List.foldl_cons, List.length_cons, Function.iterate_succ, Function.comp]
    rw [crc16_step_xor, ih]

theorem crc16_flip (pre post : List Nat) (x k : Nat) (hk : k < 8) :
    MiniModbus_Crc16 (pre ++ (x ^^^ 2 ^ k) :: post) =
      MiniModbus_Crc16 (pre ++ x :: post) ^^^
        Nat.iterate (fun y => (y >>> 8) ^^^ MiniModbus_Crc16Table.getD (y &&& 0xFF) 0)
          post.length (MiniModbus_Crc16Table.getD (2 ^ k) 0) := by
  have hk2 : 2 ^ k < 256 := by
    have : 2 ^ k < 2 ^ 8 := Nat.pow_lt_pow_right (by norm_num) hk
    norm_num at this
    exact this
  have hk3 : (2 ^ k) &&& 255 = 2 ^ k := by
    rw [byte_lo]
    exact Nat.mod_eq_of_lt hk2
  unfold MiniModbus_Crc16
  simp only [List.foldl_append, List.foldl_cons]
  generalize pre.foldl (fun crc byte =>
        (crc >>> 8) ^^^ MiniModbus_Crc16Table.getD ((crc ^^^ byte) &&& 0xFF) 0) 0xFFFF = c
  have hstep : (c >>> 8) ^^^ MiniModbus_Crc16Table.getD ((c ^^^ (x ^^^ 2 ^ k)) &&& 0xFF) 0 =
      ((c >>> 8) ^^^ MiniModbus_Crc16Table.getD ((c ^^^ x) &&& 0xFF) 0) ^^^
        MiniModbus_Crc16Table.getD (2 ^ k) 0 := by
    have h1 : (c ^^^ (x ^^^ 2 ^ k)) &&& 0xFF = ((c ^^^ x) &&& 0xFF) ^^^ 2 ^ k := by
      rw [← Nat.xor_assoc, Nat.and_xor_distrib_right, hk3]
    rw [h1, crc16_table_getD_xor _ _ (and_255_lt _) hk2, Nat.xor_assoc]
  rw [hstep, crc16_foldl_xor]

set_option maxRecDepth 100000 in
theorem crc16_flip_delta_ne_zero : ∀ k, k < 8 → ∀ n, n < 4 →
    Nat.iterate (fun y => (y >>> 8) ^^^ MiniModbus_Crc16Table.getD (y &&& 0xFF) 0)
      n (MiniModbus_Crc16Table.getD (2 ^ k) 0) ≠ 0 := by
  decide

theorem xor_pow_ne (x k : Nat) : x ^^^ 2 ^ k ≠ x := by
  intro h
  have h2 : x ^^^ (x ^^^ 2 ^ k) = x ^^^ x := by rw [h]
  rw [Nat.xor_cancel_left, Nat.xor_self] at h2
  exact absurd h2 (by positivity)

theorem xor_byte_lt (x k : Nat) (hx : x < 256) (hk : k < 8) : x ^^^ 2 ^ k < 256 := by
  have h1 : x < 2 ^ 8 := by norm_num; exact hx
  have h2 : 2 ^ k < 2 ^ 8 := Nat.pow_lt_pow_right (by norm_num) hk
  have := Nat.xor_lt_two_pow h1 h2
  norm_num at this
  exact this

/-- A single bit flipped in one of the last four bytes of a message changes its
checksum. -/
theorem crc16_flip_ne (pre post : List Nat) (x k : Nat) (hk : k < 8) (hpost : post.length < 4) :
    MiniModbus_Crc16 (pre ++ (x ^^^ 2 ^ k) :: post) ≠ MiniModbus_Crc16 (pre ++ x :: post) := by
  rw [crc16_flip pre post x k hk]
  intro h
  have h2 := congrArg (fun z => MiniModbus_Crc16 (pre ++ x :: post) ^^^ z) h
  simp only [Nat.xor_cancel_left, Nat.xor_self] at h2
  exact crc16_flip_delta_ne_zero k hk post.length hpost h2

/-! ## An RTU response whose checksum does not match -/

theorem buffer_blit_split (buffer : Nat → Nat) (resp : List Nat) (n : Nat) (h : n ≤ resp.length) :
    buffer_blit (buffer_blit buffer 0 (resp.take n)) n (resp.drop n) = buffer_blit buffer 0 resp := by
  funext j
  simp only [buffer_blit, Nat.zero_le, true_and, Nat.zero_add, Nat.sub_zero, List.length_take,
    List.length_drop, Nat.min_eq_left h, List.getD_eq_getElem?_getD]
  by_cases h1 : j < n
  · have h2 : ¬ n ≤ j := by omega
    have h3 : j < resp.length := by omega
    simp [h1, h2, h3, List.getElem?_take]
  · have h2 : n ≤ j := by omega
    by_cases h3 : j < resp.length
    · have h4 : j < n + (resp.length - n) := by omega
      simp only [h2, h4, h3, and_self, if_true, List.getElem?_drop]
      rw [Nat.add_sub_cancel' h2]
    · have h4 : ¬ j < n + (resp.length - n) := by omega
      simp [h1, h3, h4]

theorem getD_lt_of_bytes (l : List Nat) (hl : ∀ b ∈ l, b < 256) (j : Nat) : l.getD j 0 < 256 := by
  by_cases h : j < l.length
  · rw [List.getD_eq_getElem l 0 h]
    exact hl _ (List.getElem_mem h)
  · rw [List.getD_eq_default l 0 (by omega)]
    norm_num

/-- In RTU mode, a fully received non-exception response with the right unit
address whose two trailing bytes are not the checksum of the bytes before them
ends the engine with InvalidCrc. -/
theorem await_rtu_checksum_mismatch {σ : Type} (config : MiniModbusConfig σ) (pos tid rc rl : Nat)
    (buffer : Nat → Nat) (s : σ) (calls : List TransportCall) (resp : List Nat) (s2 s3 : σ)
    (hrl : 1 ≤ rl) (hlen : resp.length = 5 + (rl - 1)) (hbytes : ∀ b ∈ resp, b < 256)
    (hhdr : config.receive s 5 = (s2, resp.take 5, 5))
    (hbody : config.receive s2 (rl - 1) = (s3, resp.drop 5, ((rl - 1 : Nat) : Int)))
    (haddr : resp.getD 0 0 = config.slave_address) (hfc : resp.getD 1 0 &&& 128 = 0)
    (hcrc : resp.getD (5 + (rl - 1) - 2) 0 ≠
        MiniModbus_Crc16 (resp.take (5 + (rl - 1) - 2)) % 256 ∨
      resp.getD (5 + (rl - 1) - 1) 0 ≠
        MiniModbus_Crc16 (resp.take (5 + (rl - 1) - 2)) / 256) :
    (await_rtu config pos tid rc rl buffer s calls).2.2 = MiniModbusError_InvalidCrc := by
  have hget : ∀ j, j < resp.length → buffer_blit buffer 0 resp j = resp.getD j 0 := by
    intro j hj
    simp only [buffer_blit, Nat.zero_le, true_and, Nat.zero_add, hj, if_true, Nat.sub_zero]
    exact Nat.mod_eq_of_lt (getD_lt_of_bytes resp hbytes j)
  have htake : (resp.take 5).take 5 = resp.take 5 := by simp
  have hdrop : (resp.drop 5).take (rl - 1) = resp.drop 5 := by
    apply List.take_of_length_le
    simp [hlen]
  have hb1 : ∀ j, j < 5 → buffer_blit buffer 0 (resp.take 5) j = resp.getD j 0 := by
    intro j hj
    have h5 : j < (resp.take 5).length := by simp [hlen]; omega
    simp only [buffer_blit, Nat.zero_le, true_and, Nat.zero_add, h5, if_true, Nat.sub_zero,
      List.getD_eq_getElem?_getD, List.getElem?_take, hj]
    rw [← List.getD_eq_getElem?_getD]
    exact Nat.mod_eq_of_lt (getD_lt_of_bytes resp hbytes j)
  have hr : ((rl - 1 : Nat) : Int) = (rl : Int) - 1 := by omega
  have hbb : buffer_bytes (buffer_blit buffer 0 resp) 0 (5 + (rl - 1) - 2) =
      resp.take (5 + (rl - 1) - 2) := by
    rw [buffer_bytes_blit buffer resp 0 _ (by omega), List.drop_zero]
    apply map_mod_of_bytes
    intro b hb
    exact hbytes b (List.mem_of_mem_take hb)
  unfold await_rtu
  simp only [hhdr, hbody, htake, hdrop, hr, ne_eq, not_true_eq_false, if_false,
    buffer_blit_split buffer resp 5 (by omega), hb1 0 (by norm_num), hb1 1 (by norm_num), haddr,
    hfc, if_true, hbb, hget _ (show 5 + (rl - 1) - 2 < resp.length by omega),
    hget _ (show 5 + (rl - 1) - 1 < resp.length by omega)]
  rw [if_pos hcrc]

theorem ne_of_div_mod_ne (a b : Nat) (h : a ≠ b) : a % 256 ≠ b % 256 ∨ a / 256 ≠ b / 256 := by
  omega

/-- A frame sealed with its checksum, with one bit flipped in one of the last
four bytes of the body or in the checksum, no longer carries the checksum of
its body. -/
theorem flipped_frame_checksum_mismatch (body : List Nat) (i k : Nat) (hk : k < 8)
    (hi : i < body.length + 2) (hpost : body.length < i + 5) :
    (flip_bit (body ++ [MiniModbus_Crc16 body % 256, MiniModbus_Crc16 body / 256]) i k).getD
        body.length 0 ≠
      MiniModbus_Crc16 ((flip_bit
        (body ++ [MiniModbus_Crc16 body % 256, MiniModbus_Crc16 body / 256]) i k).take
          body.length) % 256 ∨
    (flip_bit (body ++ [MiniModbus_Crc16 body % 256, MiniModbus_Crc16 body / 256]) i k).getD
        (body.length + 1) 0 ≠
      MiniModbus_Crc16 ((flip_bit
        (body ++ [MiniModbus_Crc16 body % 256, MiniModbus_Crc16 body / 256]) i k).take
          body.length) / 256 := by
  unfold flip_bit
  generalize hc : MiniModbus_Crc16 body = c
  by_cases h1 : i < body.length
  · rw [List.getD_append _ _ _ _ h1, List.set_append_left _ _ h1,
      List.take_left' (List.length_set _ _ _),
      List.getD_append_right _ _ _ _ (by simp),
      List.getD_append_right _ _ _ _ (by simp)]
    simp only [List.length_set, Nat.sub_self, Nat.add_sub_cancel_left, List.getD_cons_zero,
      List.getD_cons_succ]
    have hne : MiniModbus_Crc16 (body.set i (body.getD i 0 ^^^ 2 ^ k)) ≠ c := by
      rw [← hc, List.set_eq_take_append_cons_drop, if_pos h1, List.getD_eq_getElem body 0 h1]
      conv_rhs => rw [← List.take_append_drop i body, List.drop_eq_getElem_cons h1]
      apply crc16_flip_ne _ _ _ _ hk
      simp only [List.length_drop]
      omega
    exact ne_of_div_mod_ne _ _ (Ne.symm hne)
  · have h2 : body.length ≤ i := by omega
    rw [List.getD_append_right _ _ _ _ h2, List.set_append_right _ _ h2,
      List.take_left, hc,
      List.getD_append_right _ _ _ _ (le_refl _),
      List.getD_append_right _ _ _ (body.length + 1) (by omega)]
    simp only [Nat.sub_self, Nat.add_sub_cancel_left]
    have hcl : c % 256 < 256 := by omega
    rcases (show i - body.length = 0 ∨ i - body.length = 1 by omega) with h3 | h3
    · left
      rw [h3]
      simp only [List.getD_cons_zero, List.set_cons_zero]
      exact xor_pow_ne _ _
    · right
      rw [h3]
      simp only [List.getD_cons_zero, List.getD_cons_succ, List.set_cons_succ, List.set_cons_zero]
      exact xor_pow_ne _ _
/-! ## C1: read round trip -/

/-- C1. Read round trip: in either mode, when the transport takes the whole read
request and then delivers the well-formed normal response carrying the 16-bit
value `V` (header bytes first, then the rest), `MiniModbus_ReadHoldingRegister`
returns Success and stores exactly `V`. -/
theorem read_round_trip {σ : Type} (ctx : MiniModbusContext σ) (w : World σ)
    (reg V out : Nat) (s1 s2 s3 : σ)
    (hu : ctx.config.slave_address < 256) (hreg : reg < 65536) (hV : V < 65536)
    (hsend : Accepts ctx.config w.user_data
      (wire_frame ctx.config.mode (next_transaction_identifier ctx) ctx.config.slave_address
        (Operation.request_pdu (Operation.read reg))) s1)
    (hhdr : Delivers ctx.config s1
      ((wire_frame ctx.config.mode (next_transaction_identifier ctx) ctx.config.slave_address
        [0x03, 0x02, V / 256, V % 256]).take (header_length ctx.config.mode)) s2)
    (hbody : Delivers ctx.config s2
      ((wire_frame ctx.config.mode (next_transaction_identifier ctx) ctx.config.slave_address
        [0x03, 0x02, V / 256, V % 256]).drop (header_length ctx.config.mode)) s3) :
    ∃ r, MiniModbus_ReadHoldingRegister (some ctx) w reg (some out) = some r ∧
      r.error = MiniModbusError_Success ∧ r.value = some V := by
  refine ⟨_, read_eq ctx w reg out, ?_⟩
  have hr1 : reg / 256 % 256 = reg / 256 := by omega
  have hV1 : V / 256 % 256 = V / 256 := by omega
  have hVV : V / 256 * 256 + V % 256 = V := by omega
  have hu1 := Nat.mod_eq_of_lt hu
  cases hm : ctx.config.mode
  · have hc1 := MiniModbus_Crc16_lt [ctx.config.slave_address, 3, 2, V / 256, V % 256]
    have hc2 : MiniModbus_Crc16 [ctx.config.slave_address, 3, 2, V / 256, V % 256] / 256 % 256 =
      MiniModbus_Crc16 [ctx.config.slave_address, 3, 2, V / 256, V % 256] / 256 := by omega
    simp only [hm, wire_frame, rtu_frame, header_length, Accepts, Delivers, Operation.request_pdu,
      List.cons_append, List.nil_append, List.take, List.drop, List.length_cons, List.length_nil,
      Nat.reduceAdd, Nat.cast_ofNat] at hsend hhdr hbody
    simp only [transaction, transaction_rtu, request_data, request_tid, hm, hu1, hr1,
      List.cons_append, List.nil_append, List.length_cons, List.length_nil, Nat.reduceAdd,
      Nat.reduceMod, Nat.reduceDiv, Nat.cast_ofNat, hsend, ne_eq, not_true_eq_false, if_false]
    simp only [await_rtu, hhdr, hbody, List.take, buffer_blit_apply, Nat.reduceSub, Nat.cast_ofNat,
      List.length_cons, List.length_nil, Nat.reduceAdd, buffer_bytes, read_decode, read_u16]
    simp [buffer_blit_apply, hu1, hV1, hc2, hVV, be16 (V / 256) (V % 256) (by omega) (by omega),
      show (3 &&& 128 : Nat) = 0 from by decide]
  · have ht := next_transaction_identifier_lt ctx
    rw [request_tid_tcp ctx hm]
    generalize next_transaction_identifier ctx = t at *
    have ht1 : t / 256 % 256 = t / 256 := by omega
    have htt : t / 256 * 256 + t % 256 = t := by omega
    simp only [hm, wire_frame, tcp_frame, header_length, Accepts, Delivers, Operation.request_pdu,
      List.cons_append, List.nil_append, List.take, List.drop, List.length_cons, List.length_nil,
      Nat.reduceAdd, Nat.cast_ofNat, Nat.reduceMod, Nat.reduceDiv] at hsend hhdr hbody
    simp only [transaction, transaction_tcp, request_data, hm, hu1, hr1, ht1,
      List.cons_append, List.nil_append, List.length_cons, List.length_nil, Nat.reduceAdd,
      Nat.reduceMod, Nat.reduceDiv, Nat.cast_ofNat, Nat.reduceSub, List.set_cons_succ,
      List.set_cons_zero, hsend, ne_eq, not_true_eq_false, if_false]
    simp only [await_tcp, hhdr, hbody, List.take, buffer_blit_apply, Nat.reduceSub, Nat.cast_ofNat,
      List.length_cons, List.length_nil, Nat.reduceAdd, read_decode, read_u16]
    simp [buffer_blit_apply, hu1, hV1, ht1, htt, hVV, be16 (V / 256) (V % 256) (by omega) (by omega),
      be16 (t / 256) (t % 256) (by omega) (by omega), show (3 &&& 128 : Nat) = 0 from by decide]

/-- Witness of C1: unit 1 in RTU mode, register 0, the stream transport holding
the response that carries `0x1234`. -/
theorem read_round_trip_witness :
    ∃ r, MiniModbus_ReadHoldingRegister
        (some (fresh_context (stream_config MiniModbusMode.RTU 1) 0))
        ⟨rtu_frame 1 [0x03, 0x02, 0x12, 0x34], []⟩ 0 (some 0) = some r ∧
      r.error = MiniModbusError_Success ∧ r.value = some 0x1234 :=
  read_round_trip (fresh_context (stream_config MiniModbusMode.RTU 1) 0)
    ⟨rtu_frame 1 [0x03, 0x02, 0x12, 0x34], []⟩ 0 0x1234 0
    (rtu_frame 1 [0x03, 0x02, 0x12, 0x34]) ((rtu_frame 1 [0x03, 0x02, 0x12, 0x34]).drop 5) []
    (by decide) (by decide) (by decide) rfl rfl rfl

/-! ## C2: write echo check -/

/-- C2. Write echo check: in either mode, when the transport takes the whole
write request for `(reg, value)` and delivers a well-formed response with
function code 0x06 echoing `(A, V)`, `MiniModbus_WriteSingleRegister` returns
Success if and only if `A = reg` and `V = value`, and ResponseInvalid otherwise. -/
theorem write_echo_check {σ : Type} (ctx : MiniModbusContext σ) (w : World σ)
    (reg value A V : Nat) (s1 s2 s3 : σ)
    (hu : ctx.config.slave_address < 256) (hreg : reg < 65536) (hvalue : value < 65536)
    (hA : A < 65536) (hV : V < 65536)
    (hsend : Accepts ctx.config w.user_data
      (wire_frame ctx.config.mode (next_transaction_identifier ctx) ctx.config.slave_address
        (Operation.request_pdu (Operation.write reg value))) s1)
    (hhdr : Delivers ctx.config s1
      ((wire_frame ctx.config.mode (next_transaction_identifier ctx) ctx.config.slave_address
        [0x06, A / 256, A % 256, V / 256, V % 256]).take (header_length ctx.config.mode)) s2)
    (hbody : Delivers ctx.config s2
      ((wire_frame ctx.config.mode (next_transaction_identifier ctx) ctx.config.slave_address
        [0x06, A / 256, A % 256, V / 256, V % 256]).drop (header_length ctx.config.mode)) s3) :
    ∃ r, MiniModbus_WriteSingleRegister (some ctx) w reg value = some r ∧
      (r.error = MiniModbusError_Success ↔ (A = reg ∧ V = value)) ∧
      (¬ (A = reg ∧ V = value) → r.error = MiniModbusError_ResponseInvalid) := by
  refine ⟨_, write_eq ctx w reg value, ?_⟩
  have hr1 : reg / 256 % 256 = reg / 256 := by omega
  have hv1 : value / 256 % 256 = value / 256 := by omega
  have hA1 : A / 256 % 256 = A / 256 := by omega
  have hV1 : V / 256 % 256 = V / 256 := by omega
  have hAA : A / 256 * 256 + A % 256 = A := by omega
  have hVV : V / 256 * 256 + V % 256 = V := by omega
  have hu1 := Nat.mod_eq_of_lt hu
  cases hm : ctx.config.mode
  · have hc1 := MiniModbus_Crc16_lt
      [ctx.config.slave_address, 6, A / 256, A % 256, V / 256, V % 256]
    have hc2 : MiniModbus_Crc16
        [ctx.config.slave_address, 6, A / 256, A % 256, V / 256, V % 256] / 256 % 256 =
      MiniModbus_Crc16 [ctx.config.slave_address, 6, A / 256, A % 256, V / 256, V % 256] / 256 := by
      omega
    simp only [hm, wire_frame, rtu_frame, header_length, Accepts, Delivers, Operation.request_pdu,
      List.cons_append, List.nil_append, List.take, List.drop, List.length_cons, List.length_nil,
      Nat.reduceAdd, Nat.cast_ofNat] at hsend hhdr hbody
    simp only [transaction, transaction_rtu, request_data, request_tid, hm, hu1, hr1, hv1,
      List.cons_append, List.nil_append, List.length_cons, List.length_nil, Nat.reduceAdd,
      Nat.reduceMod, Nat.reduceDiv, Nat.cast_ofNat, hsend, ne_eq, not_true_eq_false, if_false]
    simp only [await_rtu, hhdr, hbody, List.take, buffer_blit_apply, Nat.reduceSub, Nat.cast_ofNat,
      List.length_cons, List.length_nil, Nat.reduceAdd, buffer_bytes, write_decode, read_u16]
    by_cases hAe : A = reg
    · by_cases hVe : V = value
      · subst hAe
        subst hVe
        simp [buffer_blit_apply, hu1, hV1, hA1, hVV, hAA, hc2, be16 (V / 256) (V % 256) (by omega) (by omega),
          be16 (A / 256) (A % 256) (by omega) (by omega), show (6 &&& 128 : Nat) = 0 from by decide]
      · subst hAe
        simp [buffer_blit_apply, hu1, hV1, hA1, hVV, hAA, hc2, hVe, be16 (V / 256) (V % 256) (by omega) (by omega),
          be16 (A / 256) (A % 256) (by omega) (by omega), show (6 &&& 128 : Nat) = 0 from by decide]
    · by_cases hVe : V = value
      · subst hVe
        simp [buffer_blit_apply, hu1, hV1, hA1, hVV, hAA, hc2, hAe, be16 (V / 256) (V % 256) (by omega) (by omega),
          be16 (A / 256) (A % 256) (by omega) (by omega), show (6 &&& 128 : Nat) = 0 from by decide]
      · simp [buffer_blit_apply, hu1, hV1, hA1, hVV, hAA, hc2, hAe, hVe, be16 (V / 256) (V % 256) (by omega) (by omega),
          be16 (A / 256) (A % 256) (by omega) (by omega), show (6 &&& 128 : Nat) = 0 from by decide]
  · have ht := next_transaction_identifier_lt ctx
    rw [request_tid_tcp ctx hm]
    generalize next_transaction_identifier ctx = t at *
    have ht1 : t / 256 % 256 = t / 256 := by omega
    have htt : t / 256 * 256 + t % 256 = t := by omega
    simp only [hm, wire_frame, tcp_frame, header_length, Accepts, Delivers, Operation.request_pdu,
      List.cons_append, List.nil_append, List.take, List.drop, List.length_cons, List.length_nil,
      Nat.reduceAdd, Nat.cast_ofNat, Nat.reduceMod, Nat.reduceDiv] at hsend hhdr hbody
    simp only [transaction, transaction_tcp, request_data, hm, hu1, hr1, hv1, ht1,
      List.cons_append, List.nil_append, List.length_cons, List.length_nil, Nat.reduceAdd,
      Nat.reduceMod, Nat.reduceDiv, Nat.cast_ofNat, Nat.reduceSub, List.set_cons_succ,
      List.set_cons_zero, hsend, ne_eq, not_true_eq_false, if_false]
    simp only [await_tcp, hhdr, hbody, List.take, buffer_blit_apply, Nat.reduceSub, Nat.cast_ofNat,
      List.length_cons, List.length_nil, Nat.reduceAdd, write_decode, read_u16]
    by_cases hAe : A = reg
    · by_cases hVe : V = value
      · subst hAe
        subst hVe
        simp [buffer_blit_apply, hu1, hV1, hA1, hVV, hAA, ht1, htt, be16 (t / 256) (t % 256) (by omega) (by omega), be16 (V / 256) (V % 256) (by omega) (by omega),
          be16 (A / 256) (A % 256) (by omega) (by omega), show (6 &&& 128 : Nat) = 0 from by decide]
      · subst hAe
        simp [buffer_blit_apply, hu1, hV1, hA1, hVV, hAA, ht1, htt, be16 (t / 256) (t % 256) (by omega) (by omega), hVe, be16 (V / 256) (V % 256) (by omega) (by omega),
          be16 (A / 256) (A % 256) (by omega) (by omega), show (6 &&& 128 : Nat) = 0 from by decide]
    · by_cases hVe : V = value
      · subst hVe
        simp [buffer_blit_apply, hu1, hV1, hA1, hVV, hAA, ht1, htt, be16 (t / 256) (t % 256) (by omega) (by omega), hAe, be16 (V / 256) (V % 256) (by omega) (by omega),
          be16 (A / 256) (A % 256) (by omega) (by omega), show (6 &&& 128 : Nat) = 0 from by decide]
      · simp [buffer_blit_apply, hu1, hV1, hA1, hVV, hAA, ht1, htt, be16 (t / 256) (t % 256) (by omega) (by omega), hAe, hVe, be16 (V / 256) (V % 256) (by omega) (by omega),
          be16 (A / 256) (A % 256) (by omega) (by omega), show (6 &&& 128 : Nat) = 0 from by decide]
/-- Witness of C2: unit 1 in RTU mode writes `0x1234` to register 5 and the
stream transport holds the echo. -/
theorem write_echo_check_witness :
    ∃ r, MiniModbus_WriteSingleRegister
        (some (fresh_context (stream_config MiniModbusMode.RTU 1) 0))
        ⟨rtu_frame 1 [0x06, 0x00, 0x05, 0x12, 0x34], []⟩ 5 0x1234 = some r ∧
      (r.error = MiniModbusError_Success ↔ ((5 : Nat) = 5 ∧ (0x1234 : Nat) = 0x1234)) ∧
      (¬ ((5 : Nat) = 5 ∧ (0x1234 : Nat) = 0x1234) → r.error = MiniModbusError_ResponseInvalid) :=
  write_echo_check (fresh_context (stream_config MiniModbusMode.RTU 1) 0)
    ⟨rtu_frame 1 [0x06, 0x00, 0x05, 0x12, 0x34], []⟩ 5 0x1234 5 0x1234
    (rtu_frame 1 [0x06, 0x00, 0x05, 0x12, 0x34])
    ((rtu_frame 1 [0x06, 0x00, 0x05, 0x12, 0x34]).drop 5) []
    (by decide) (by decide) (by decide) (by decide) (by decide) rfl rfl rfl

/-! ## C3: the checksum table against the bit-by-bit reference -/

/-- C3. On every sequence of bytes the table-driven `MiniModbus_Crc16` equals the
bit-by-bit reference CRC-16/MODBUS; each of the 256 table entries `i` is the
result of the eight shift/XOR steps applied to `i`; the checksum of the empty
sequence is `0xFFFF` and that of `01 03 00 00 00 01` is `0x0A84`. -/
theorem crc16_table_refines_reference (data : List Nat) (h : ∀ b ∈ data, b < 256) :
    MiniModbus_Crc16 data = crc16_reference data ∧
    MiniModbus_Crc16Table.length = 256 ∧
    (∀ i, i < 256 → MiniModbus_Crc16Table.getD i 0 = Nat.iterate crc16_reference_bit 8 i) ∧
    MiniModbus_Crc16 [] = 0xFFFF ∧
    MiniModbus_Crc16 [0x01, 0x03, 0x00, 0x00, 0x00, 0x01] = 0x0A84 :=
  ⟨crc16_foldl_refines data h 0xFFFF, crc16_table_length, crc16_table_entry, by decide, by decide⟩

/-- Witness of C3: the request body `01 03 00 00 00 01`. -/
theorem crc16_table_refines_reference_witness :
    (∀ b ∈ [0x01, 0x03, 0x00, 0x00, 0x00, 0x01], b < 256) ∧
    MiniModbus_Crc16 [0x01, 0x03, 0x00, 0x00, 0x00, 0x01] =
      crc16_reference [0x01, 0x03, 0x00, 0x00, 0x00, 0x01] :=
  ⟨by decide, (crc16_table_refines_reference [0x01, 0x03, 0x00, 0x00, 0x00, 0x01] (by decide)).1⟩

/-! ## C4, C5: the request on the wire -/

/-- C4. TCP-style request wire format: in TCP mode, with `t` the incremented
transaction counter, a read of `reg` hands to send exactly the 12 bytes
`[t_hi, t_lo, 0, 0, 0, 6, u, 0x03, reg_hi, reg_lo, 0, 1]` and a write of
`(reg, value)` exactly
`[t_hi, t_lo, 0, 0, 0, 6, u, 0x06, reg_hi, reg_lo, value_hi, value_lo]`; nothing
else is sent, and the length field of the frame equals the number of bytes from
the unit address to the end of the frame. -/
theorem tcp_request_wire_format {σ : Type} (ctx : MiniModbusContext σ) (w : World σ)
    (reg value out : Nat) (hm : ctx.config.mode = MiniModbusMode.TCP)
    (hu : ctx.config.slave_address < 256) (hreg : reg < 65536) (hvalue : value < 65536) :
    (∃ r frame, MiniModbus_ReadHoldingRegister (some ctx) w reg (some out) = some r ∧
      sent_frames r.world.calls = sent_frames w.calls ++ [frame] ∧
      frame = [next_transaction_identifier ctx / 256, next_transaction_identifier ctx % 256,
        0x00, 0x00, 0x00, 0x06, ctx.config.slave_address, 0x03, reg / 256, reg % 256,
        0x00, 0x01] ∧
      frame_u16 frame 4 = (frame.drop 6).length) ∧
    (∃ r frame, MiniModbus_WriteSingleRegister (some ctx) w reg value = some r ∧
      sent_frames r.world.calls = sent_frames w.calls ++ [frame] ∧
      frame = [next_transaction_identifier ctx / 256, next_transaction_identifier ctx % 256,
        0x00, 0x00, 0x00, 0x06, ctx.config.slave_address, 0x06, reg / 256, reg % 256,
        value / 256, value % 256] ∧
      frame_u16 frame 4 = (frame.drop 6).length) := by
  have ht := next_transaction_identifier_lt ctx
  have ht1 : next_transaction_identifier ctx / 256 % 256 = next_transaction_identifier ctx / 256 := by
    omega
  have hr1 : reg / 256 % 256 = reg / 256 := by omega
  have hv1 : value / 256 % 256 = value / 256 := by omega
  have hu1 := Nat.mod_eq_of_lt hu
  refine ⟨⟨_, _, read_eq ctx w reg out, ?_, rfl, by simp [frame_u16]⟩,
    ⟨_, _, write_eq ctx w reg value, ?_, rfl, by simp [frame_u16]⟩⟩
  · rw [read_decode_world]
    simp only [transaction_sent, hm, request_tid_tcp ctx hm]
    simp [request_data, ht1, hr1, hu1]
  · rw [write_decode_world]
    simp only [transaction_sent, hm, request_tid_tcp ctx hm]
    simp [request_data, ht1, hr1, hv1, hu1]

/-- Witness of C4: unit 1 in TCP mode with the counter at 7, register 2, value
`0x1234`, a transport with nothing to deliver. -/
theorem tcp_request_wire_format_witness :
    (∃ r frame, MiniModbus_ReadHoldingRegister
        (some (fresh_context (stream_config MiniModbusMode.TCP 1) 7)) ⟨[], []⟩ 2 (some 0) = some r ∧
      sent_frames r.world.calls = sent_frames [] ++ [frame] ∧
      frame = [0x00, 0x08, 0x00, 0x00, 0x00, 0x06, 0x01, 0x03, 0x00, 0x02, 0x00, 0x01] ∧
      frame_u16 frame 4 = (frame.drop 6).length) ∧
    (∃ r frame, MiniModbus_WriteSingleRegister
        (some (fresh_context (stream_config MiniModbusMode.TCP 1) 7)) ⟨[], []⟩ 2 0x1234 = some r ∧
      sent_frames r.world.calls = sent_frames [] ++ [frame] ∧
      frame = [0x00, 0x08, 0x00, 0x00, 0x00, 0x06, 0x01, 0x06, 0x00, 0x02, 0x12, 0x34] ∧
      frame_u16 frame 4 = (frame.drop 6).length) :=
  tcp_request_wire_format (fresh_context (stream_config MiniModbusMode.TCP 1) 7) ⟨[], []⟩
    2 0x1234 0 rfl (by decide) (by decide) (by decide)

/-- C5. RTU-style request wire format: in RTU mode a read of `reg` hands to send
exactly the 8 bytes `[u, 0x03, reg_hi, reg_lo, 0, 1, c_lo, c_hi]` and a write of
`(reg, value)` exactly `[u, 0x06, reg_hi, reg_lo, value_hi, value_lo, c_lo, c_hi]`,
where `c` is the checksum of the first 6 bytes; nothing else is sent; for unit 1
and register 0 the two checksum bytes of the read request are `84 0A`. -/
theorem rtu_request_wire_format {σ : Type} (ctx : MiniModbusContext σ) (w : World σ)
    (reg value out : Nat) (hm : ctx.config.mode = MiniModbusMode.RTU)
    (hu : ctx.config.slave_address < 256) (hreg : reg < 65536) (hvalue : value < 65536) :
    (∃ r, MiniModbus_ReadHoldingRegister (some ctx) w reg (some out) = some r ∧
      sent_frames r.world.calls = sent_frames w.calls ++
        [[ctx.config.slave_address, 0x03, reg / 256, reg % 256, 0x00, 0x01,
          MiniModbus_Crc16 [ctx.config.slave_address, 0x03, reg / 256, reg % 256, 0x00, 0x01] % 256,
          MiniModbus_Crc16 [ctx.config.slave_address, 0x03, reg / 256, reg % 256, 0x00, 0x01]
            / 256]]) ∧
    (∃ r, MiniModbus_WriteSingleRegister (some ctx) w reg value = some r ∧
      sent_frames r.world.calls = sent_frames w.calls ++
        [[ctx.config.slave_address, 0x06, reg / 256, reg % 256, value / 256, value % 256,
          MiniModbus_Crc16
            [ctx.config.slave_address, 0x06, reg / 256, reg % 256, value / 256, value % 256] % 256,
          MiniModbus_Crc16
            [ctx.config.slave_address, 0x06, reg / 256, reg % 256, value / 256, value % 256]
            / 256]]) ∧
    MiniModbus_Crc16 [0x01, 0x03, 0x00, 0x00, 0x00, 0x01] % 256 = 0x84 ∧
    MiniModbus_Crc16 [0x01, 0x03, 0x00, 0x00, 0x00, 0x01] / 256 = 0x0A := by
  have hr1 : reg / 256 % 256 = reg / 256 := by omega
  have hv1 : value / 256 % 256 = value / 256 := by omega
  have hu1 := Nat.mod_eq_of_lt hu
  refine ⟨⟨_, read_eq ctx w reg out, ?_⟩, ⟨_, write_eq ctx w reg value, ?_⟩, by decide, by decide⟩
  · rw [read_decode_world]
    simp only [transaction_sent, hm]
    simp [request_data, hr1, hu1]
  · rw [write_decode_world]
    simp only [transaction_sent, hm]
    simp [request_data, hr1, hv1, hu1]

/-- Witness of C5: unit 1 in RTU mode reads register 0 and sends
`01 03 00 00 00 01 84 0A`. -/
theorem rtu_request_wire_format_witness :
    ∃ r, MiniModbus_ReadHoldingRegister
        (some (fresh_context (stream_config MiniModbusMode.RTU 1) 0)) ⟨[], []⟩ 0 (some 0) = some r ∧
      sent_frames r.world.calls = [[0x01, 0x03, 0x00, 0x00, 0x00, 0x01, 0x84, 0x0A]] := by
  obtain ⟨⟨r, h1, h2⟩, _, h3, h4⟩ :=
    rtu_request_wire_format (fresh_context (stream_config MiniModbusMode.RTU 1) 0) ⟨[], []⟩
      0 0 0 rfl (by decide) (by decide) (by decide)
  refine ⟨r, h1, ?_⟩
  rw [h2]
  simp only [fresh_context, stream_config, Nat.zero_div, Nat.zero_mod, h3, h4]
  rfl
/-! ## C6: the transaction identifier -/

/-- C6, counterexample: on a TCP context whose counter is 65534, two successive
reads send requests carrying the identifiers 65535 and 0: the second is not the
first plus 1. -/
theorem transaction_identifier_counterexample :
    ((MiniModbus_ReadHoldingRegister
        (some (fresh_context (stream_config MiniModbusMode.TCP 1) 65534)) ⟨[], []⟩ 0 (some 0)).bind
      (fun r => MiniModbus_ReadHoldingRegister r.ctx r.world 0 (some 0))).map
      (fun r => (sent_frames r.world.calls).map (fun frame => frame_u16 frame 0)) =
        some [65535, 0] ∧
    (0 : Nat) ≠ 65535 + 1 := by
  constructor
  · rfl
  · decide

/-- C6, amended. In TCP mode, for every context, world and operation with
present arguments, whatever the transport does: the operation returns, the
context's transaction counter is the old one plus 1 modulo 2^16, exactly one
frame is sent and it carries that new counter; and any operation run next on
the resulting context sends a frame whose identifier is the previous one plus 1
modulo 2^16. -/
theorem transaction_identifier_increments_mod {σ : Type} (op : Operation)
    (ctx : MiniModbusContext σ) (w : World σ) (out : Nat)
    (hm : ctx.config.mode = MiniModbusMode.TCP) :
    ∃ r c frame, op.run ctx w out = some r ∧ r.ctx = some c ∧
      c.current_tcp_transaction_identifier =
        (ctx.current_tcp_transaction_identifier + 1) % 65536 ∧
      sent_frames r.world.calls = sent_frames w.calls ++ [frame] ∧
      frame_u16 frame 0 = (ctx.current_tcp_transaction_identifier + 1) % 65536 ∧
      ∀ (op2 : Operation) (w2 : World σ) (out2 : Nat),
        ∃ r2 frame2, op2.run c w2 out2 = some r2 ∧
          sent_frames r2.world.calls = sent_frames w2.calls ++ [frame2] ∧
          frame_u16 frame2 0 = (frame_u16 frame 0 + 1) % 65536 := by
  obtain ⟨r, c, frame, hr, hc, hcfg, htid, hsent, hframe⟩ := run_tcp_identifier op ctx w out hm
  refine ⟨r, c, frame, hr, hc, htid, hsent, hframe, ?_⟩
  intro op2 w2 out2
  obtain ⟨r2, c2, frame2, hr2, _, _, _, hsent2, hframe2⟩ :=
    run_tcp_identifier op2 c w2 out2 (by rw [hcfg]; exact hm)
  refine ⟨r2, frame2, hr2, hsent2, ?_⟩
  rw [hframe2, hframe]
  unfold next_transaction_identifier
  rw [htid]
  rfl

/-- Witness of C6 as amended: a read on a TCP context whose counter is 65535. -/
theorem transaction_identifier_increments_mod_witness :
    ∃ r c frame, (Operation.read 0).run
        (fresh_context (stream_config MiniModbusMode.TCP 1) 65535) ⟨[], []⟩ 0 = some r ∧
      r.ctx = some c ∧
      c.current_tcp_transaction_identifier = (65535 + 1) % 65536 ∧
      sent_frames r.world.calls = sent_frames [] ++ [frame] ∧
      frame_u16 frame 0 = (65535 + 1) % 65536 ∧
      ∀ (op2 : Operation) (w2 : World (List Nat)) (out2 : Nat),
        ∃ r2 frame2, op2.run c w2 out2 = some r2 ∧
          sent_frames r2.world.calls = sent_frames w2.calls ++ [frame2] ∧
          frame_u16 frame2 0 = (frame_u16 frame 0 + 1) % 65536 :=
  transaction_identifier_increments_mod (Operation.read 0)
    (fresh_context (stream_config MiniModbusMode.TCP 1) 65535) ⟨[], []⟩ 0 rfl

/-! ## C7: the exception path -/

theorem or_mask_and_mask (f : Nat) : (f ||| 128) &&& 128 = 128 := by
  apply Nat.eq_of_testBit_eq
  intro i
  rw [Nat.testBit_and, Nat.testBit_or]
  cases Nat.testBit f i <;> simp

theorem or_mask_lt (f : Nat) (h : f < 256) : f ||| 128 < 256 := by
  have h1 : f < 2 ^ 8 := by norm_num; exact h
  have h2 : (128 : Nat) < 2 ^ 8 := by norm_num
  have := Nat.or_lt_two_pow h1 h2
  norm_num at this
  exact this

/-- C7. Exception path: in either mode and for either operation, when the
transport takes the whole request and delivers the exception response
(RTU: `[u, f|0x80, e, crc_lo, crc_hi]` with the correct checksum; TCP:
`[tid, 0x0000, 0x0003, u, f|0x80, e]`) with `e` in `0x01..0x0B`, the operation
returns the error whose numeric code is `e`. -/
theorem exception_path {σ : Type} (op : Operation) (ctx : MiniModbusContext σ) (w : World σ)
    (out f e : Nat) (s1 s2 : σ)
    (hu : ctx.config.slave_address < 256)
    (h1 : op.first_field < 65536) (h2 : op.second_field < 65536)
    (hf : f < 256) (he1 : 0x01 ≤ e) (he2 : e ≤ 0x0B)
    (hsend : Accepts ctx.config w.user_data
      (wire_frame ctx.config.mode (next_transaction_identifier ctx) ctx.config.slave_address
        op.request_pdu) s1)
    (hhdr : Delivers ctx.config s1
      (wire_frame ctx.config.mode (next_transaction_identifier ctx) ctx.config.slave_address
        [f ||| 0x80, e]) s2) :
    ∃ r, op.run ctx w out = some r ∧ r.error = (e : Int) := by
  refine ⟨_, run_eq op ctx w out, ?_⟩
  have hu1 := Nat.mod_eq_of_lt hu
  have hfb := or_mask_lt f hf
  have hfb1 := Nat.mod_eq_of_lt hfb
  have hfb2 := or_mask_and_mask f
  have he3 : e % 256 = e := by omega
  have he4 : ¬ ((e : Int) = 0) := by omega
  generalize f ||| 128 = fb at *
  cases hm : ctx.config.mode
  · have hc1 := MiniModbus_Crc16_lt [ctx.config.slave_address, fb, e]
    have hc2 : MiniModbus_Crc16 [ctx.config.slave_address, fb, e] / 256 % 256 =
      MiniModbus_Crc16 [ctx.config.slave_address, fb, e] / 256 := by omega
    cases op with
    | read reg =>
      have hr1 : reg / 256 % 256 = reg / 256 := by
        simp only [Operation.first_field] at h1; omega
      simp only [hm, wire_frame, rtu_frame, Accepts, Delivers, Operation.request_pdu,
        List.cons_append, List.nil_append, List.length_cons, List.length_nil,
        Nat.reduceAdd, Nat.cast_ofNat] at hsend hhdr
      simp only [transaction, transaction_rtu, request_data, request_tid, hm, hu1, hr1,
        Operation.function_code, Operation.first_field, Operation.second_field,
        List.cons_append, List.nil_append, List.length_cons, List.length_nil, Nat.reduceAdd,
        Nat.reduceMod, Nat.reduceDiv, Nat.cast_ofNat, hsend, ne_eq, not_true_eq_false, if_false]
      simp only [await_rtu, hhdr, List.take, buffer_blit_apply, Nat.reduceSub, Nat.cast_ofNat,
        List.length_cons, List.length_nil, Nat.reduceAdd, buffer_bytes, Operation.decode,
        read_decode]
      simp [hu1, hfb1, hfb2, he3, he4, hc2]
    | write reg value =>
      have hr1 : reg / 256 % 256 = reg / 256 := by
        simp only [Operation.first_field] at h1; omega
      have hv1 : value / 256 % 256 = value / 256 := by
        simp only [Operation.second_field] at h2; omega
      simp only [hm, wire_frame, rtu_frame, Accepts, Delivers, Operation.request_pdu,
        List.cons_append, List.nil_append, List.length_cons, List.length_nil,
        Nat.reduceAdd, Nat.cast_ofNat] at hsend hhdr
      simp only [transaction, transaction_rtu, request_data, request_tid, hm, hu1, hr1, hv1,
        Operation.function_code, Operation.first_field, Operation.second_field,
        List.cons_append, List.nil_append, List.length_cons, List.length_nil, Nat.reduceAdd,
        Nat.reduceMod, Nat.reduceDiv, Nat.cast_ofNat, hsend, ne_eq, not_true_eq_false, if_false]
      simp only [await_rtu, hhdr, List.take, buffer_blit_apply, Nat.reduceSub, Nat.cast_ofNat,
        List.length_cons, List.length_nil, Nat.reduceAdd, buffer_bytes, Operation.decode,
        write_decode]
      simp [hu1, hfb1, hfb2, he3, he4, hc2]
  · have ht := next_transaction_identifier_lt ctx
    rw [request_tid_tcp ctx hm]
    generalize next_transaction_identifier ctx = t at *
    have ht1 : t / 256 % 256 = t / 256 := by omega
    have htt : t / 256 * 256 + t % 256 = t := by omega
    cases op with
    | read reg =>
      have hr1 : reg / 256 % 256 = reg / 256 := by
        simp only [Operation.first_field] at h1; omega
      simp only [hm, wire_frame, tcp_frame, Accepts, Delivers, Operation.request_pdu,
        List.cons_append, List.nil_append, List.length_cons, List.length_nil,
        Nat.reduceAdd, Nat.cast_ofNat, Nat.reduceMod, Nat.reduceDiv] at hsend hhdr
      simp only [transaction, transaction_tcp, request_data, hm, hu1, hr1, ht1,
        Operation.function_code, Operation.first_field, Operation.second_field,
        List.cons_append, List.nil_append, List.length_cons, List.length_nil, Nat.reduceAdd,
        Nat.reduceMod, Nat.reduceDiv, Nat.cast_ofNat, Nat.reduceSub, List.set_cons_succ,
        List.set_cons_zero, hsend, ne_eq, not_true_eq_false, if_false]
      simp only [await_tcp, hhdr, List.take, buffer_blit_apply, Nat.reduceSub, Nat.cast_ofNat,
        List.length_cons, List.length_nil, Nat.reduceAdd, Operation.decode, read_decode, read_u16]
      simp [hu1, hfb1, hfb2, he3, he4, ht1, htt, be16 (t / 256) (t % 256) (by omega) (by omega)]
    | write reg value =>
      have hr1 : reg / 256 % 256 = reg / 256 := by
        simp only [Operation.first_field] at h1; omega
      have hv1 : value / 256 % 256 = value / 256 := by
        simp only [Operation.second_field] at h2; omega
      simp only [hm, wire_frame, tcp_frame, Accepts, Delivers, Operation.request_pdu,
        List.cons_append, List.nil_append, List.length_cons, List.length_nil,
        Nat.reduceAdd, Nat.cast_ofNat, Nat.reduceMod, Nat.reduceDiv] at hsend hhdr
      simp only [transaction, transaction_tcp, request_data, hm, hu1, hr1, hv1, ht1,
        Operation.function_code, Operation.first_field, Operation.second_field,
        List.cons_append, List.nil_append, List.length_cons, List.length_nil, Nat.reduceAdd,
        Nat.reduceMod, Nat.reduceDiv, Nat.cast_ofNat, Nat.reduceSub, List.set_cons_succ,
        List.set_cons_zero, hsend, ne_eq, not_true_eq_false, if_false]
      simp only [await_tcp, hhdr, List.take, buffer_blit_apply, Nat.reduceSub, Nat.cast_ofNat,
        List.length_cons, List.length_nil, Nat.reduceAdd, Operation.decode, write_decode, read_u16]
      simp [hu1, hfb1, hfb2, he3, he4, ht1, htt, be16 (t / 256) (t % 256) (by omega) (by omega)]

/-- Witness of C7: unit 1 in RTU mode reads register 0 and the device answers
with function byte `0x83` and exception byte `0x02`: IllegalDataAddress. -/
theorem exception_path_witness :
    ∃ r, (Operation.read 0).run (fresh_context (stream_config MiniModbusMode.RTU 1) 0)
        ⟨rtu_frame 1 [0x83, 0x02], []⟩ 0 = some r ∧
      r.error = MiniModbusError_IllegalDataAddress :=
  exception_path (Operation.read 0) (fresh_context (stream_config MiniModbusMode.RTU 1) 0)
    ⟨rtu_frame 1 [0x83, 0x02], []⟩ 0 0x03 0x02 (rtu_frame 1 [0x83, 0x02]) []
    (by decide) (by decide) (by decide) (by decide) (by decide) (by decide) rfl rfl

theorem decode_error_of_ne {σ : Type} (op : Operation) (out : Nat)
    (t : MiniModbusContext σ × World σ × MiniModbusError_t)
    (h : t.2.2 ≠ MiniModbusError_Success) : (op.decode out t).error = t.2.2 := by
  cases op <;> simp only [Operation.decode, read_decode, write_decode, if_pos h]

theorem request_data_rtu (op : Operation) (tid u : Nat) (hu : u < 256)
    (h1 : op.first_field < 65536) (h2 : op.second_field < 65536) :
    request_data MiniModbusMode.RTU tid u op.function_code op.first_field op.second_field =
      u :: op.request_pdu := by
  cases op with
  | read reg =>
    simp only [Operation.first_field] at h1
    simp only [request_data, Operation.function_code, Operation.first_field,
      Operation.second_field, Operation.request_pdu, Nat.mod_eq_of_lt hu]
    rw [show reg / 256 % 256 = reg / 256 from by omega]
  | write reg value =>
    simp only [Operation.first_field] at h1
    simp only [Operation.second_field] at h2
    simp only [request_data, Operation.function_code, Operation.first_field,
      Operation.second_field, Operation.request_pdu, Nat.mod_eq_of_lt hu]
    rw [show reg / 256 % 256 = reg / 256 from by omega,
      show value / 256 % 256 = value / 256 from by omega]

theorem response_pdu_bytes (op : Operation) (V : Nat)
    (h1 : op.first_field < 65536) (h2 : op.second_field < 65536) (hV : V < 65536) :
    ∀ b ∈ op.response_pdu V, b < 256 := by
  intro b hb
  cases op with
  | read reg =>
    simp [Operation.response_pdu] at hb
    omega
  | write reg value =>
    simp only [Operation.first_field] at h1
    simp only [Operation.second_field] at h2
    simp [Operation.response_pdu] at hb
    omega

theorem response_pdu_shape (op : Operation) (V : Nat) :
    ∃ fc rest, op.response_pdu V = fc :: rest ∧ fc = op.function_code ∧ fc &&& 128 = 0 ∧
      rest.length = op.response_payload_length := by
  cases op with
  | read reg => exact ⟨3, _, rfl, rfl, by decide, rfl⟩
  | write reg value => exact ⟨6, _, rfl, rfl, by decide, rfl⟩

/-! ## C8: corruption sensitivity in RTU mode -/

/-- C8. Corruption sensitivity: in RTU mode, for the well-formed normal response
to a read (7 bytes) or to a write (8 bytes) and every single bit `k` of every
byte `i` after the unit address and the function code (payload and checksum),
if the transport takes the request and delivers the response with that one bit
flipped, the operation returns InvalidCrc. -/
theorem rtu_corruption_sensitivity {σ : Type} (op : Operation) (ctx : MiniModbusContext σ)
    (w : World σ) (out V i k : Nat) (s1 s2 s3 : σ)
    (hm : ctx.config.mode = MiniModbusMode.RTU)
    (hu : ctx.config.slave_address < 256)
    (h1 : op.first_field < 65536) (h2 : op.second_field < 65536) (hV : V < 65536)
    (hi : 2 ≤ i) (hi2 : i < (rtu_frame ctx.config.slave_address (op.response_pdu V)).length)
    (hk : k < 8)
    (hsend : Accepts ctx.config w.user_data
      (rtu_frame ctx.config.slave_address op.request_pdu) s1)
    (hhdr : Delivers ctx.config s1
      ((flip_bit (rtu_frame ctx.config.slave_address (op.response_pdu V)) i k).take 5) s2)
    (hbody : Delivers ctx.config s2
      ((flip_bit (rtu_frame ctx.config.slave_address (op.response_pdu V)) i k).drop 5) s3) :
    ∃ r, op.run ctx w out = some r ∧ r.error = MiniModbusError_InvalidCrc := by
  refine ⟨_, run_eq op ctx w out, ?_⟩
  obtain ⟨fc, rest, hpdu, hfc, hfc2, hrest⟩ := response_pdu_shape op V
  have hpb := response_pdu_bytes op V h1 h2 hV
  have hrl : 3 ≤ op.response_payload_length := by cases op <;> simp [Operation.response_payload_length]
  have hrl2 : op.response_payload_length ≤ 4 := by
    cases op <;> simp [Operation.response_payload_length]
  generalize hresp : flip_bit (rtu_frame ctx.config.slave_address (op.response_pdu V)) i k = resp
    at hhdr hbody
  have hframe : rtu_frame ctx.config.slave_address (op.response_pdu V) =
      (ctx.config.slave_address :: fc :: rest) ++
        [MiniModbus_Crc16 (ctx.config.slave_address :: fc :: rest) % 256,
          MiniModbus_Crc16 (ctx.config.slave_address :: fc :: rest) / 256] := by
    simp only [rtu_frame, hpdu]
  have hbl : (ctx.config.slave_address :: fc :: rest).length =
      5 + (op.response_payload_length - 1) - 2 := by
    simp only [List.length_cons, hrest]; omega
  have hcl := MiniModbus_Crc16_lt (ctx.config.slave_address :: fc :: rest)
  have hfb : ∀ b ∈ rtu_frame ctx.config.slave_address (op.response_pdu V), b < 256 := by
    intro b hb
    rw [hframe] at hb
    rw [hpdu] at hpb
    rcases List.mem_append.mp hb with h | h
    · rcases List.mem_cons.mp h with h | h
      · rw [h]; exact hu
      · exact hpb b h
    · simp at h
      omega
  have hlen : resp.length = 5 + (op.response_payload_length - 1) := by
    rw [← hresp, flip_bit, List.length_set, hframe]
    simp only [List.length_append, List.length_cons, List.length_nil, hrest]
    omega
  have hbytes : ∀ b ∈ resp, b < 256 := by
    intro b hb
    rw [← hresp, flip_bit] at hb
    rcases List.mem_or_eq_of_mem_set hb with h | h
    · exact hfb b h
    · rw [h]
      exact xor_byte_lt _ _ (getD_lt_of_bytes _ hfb i) hk
  obtain ⟨j, rfl⟩ : ∃ j, i = j + 2 := ⟨i - 2, by omega⟩
  obtain ⟨y, hresp2⟩ : ∃ y, resp = ctx.config.slave_address :: fc ::
      (rest ++ [MiniModbus_Crc16 (ctx.config.slave_address :: fc :: rest) % 256,
        MiniModbus_Crc16 (ctx.config.slave_address :: fc :: rest) / 256]).set j y := by
    refine ⟨(rtu_frame ctx.config.slave_address (op.response_pdu V)).getD (j + 2) 0 ^^^ 2 ^ k, ?_⟩
    rw [← hresp, flip_bit]
    conv_lhs =>
      arg 1
      rw [hframe]
    simp only [List.cons_append, List.set_cons_succ]
  have haddr : resp.getD 0 0 = ctx.config.slave_address := by rw [hresp2]; rfl
  have hfcb : resp.getD 1 0 &&& 128 = 0 := by rw [hresp2]; exact hfc2
  have hcrc := flipped_frame_checksum_mismatch (ctx.config.slave_address :: fc :: rest) (j + 2) k hk
    (by rw [hframe] at hi2; simpa using hi2)
    (by simp only [List.length_cons, hrest]; omega)
  rw [← hframe, hresp, hbl] at hcrc
  rw [show 5 + (op.response_payload_length - 1) - 2 + 1 =
    5 + (op.response_payload_length - 1) - 1 from by omega] at hcrc
  have hD1 : ctx.config.receive s1 5 = (s2, resp.take 5, 5) := by
    have := hhdr
    simp only [Delivers, List.length_take, hlen] at this
    rw [show min 5 (5 + (op.response_payload_length - 1)) = 5 from by omega] at this
    exact this
  have hD2 : ctx.config.receive s2 (op.response_payload_length - 1) =
      (s3, resp.drop 5, ((op.response_payload_length - 1 : Nat) : Int)) := by
    have := hbody
    simp only [Delivers, List.length_drop, hlen] at this
    rw [show 5 + (op.response_payload_length - 1) - 5 = op.response_payload_length - 1 from by
      omega] at this
    exact this
  have hS : ctx.config.send w.user_data
      (rtu_frame ctx.config.slave_address op.request_pdu) =
        (s1, ((rtu_frame ctx.config.slave_address op.request_pdu).length : Int)) := hsend
  rw [decode_error_of_ne]
  · unfold transaction
    simp only [hm, transaction_rtu, request_data_rtu op _ _ hu h1 h2]
    simp only [rtu_frame] at hS
    rw [hS]
    simp only [List.length_append, List.length_cons, List.length_nil, ne_eq, not_true_eq_false,
      if_false, Nat.zero_add, Nat.reduceAdd]
    exact await_rtu_checksum_mismatch _ _ _ _ _ _ _ _ resp s2 s3 (by omega) hlen hbytes hD1 hD2
      haddr hfcb hcrc
  · unfold transaction
    simp only [hm, transaction_rtu, request_data_rtu op _ _ hu h1 h2]
    simp only [rtu_frame] at hS
    rw [hS]
    simp only [List.length_append, List.length_cons, List.length_nil, ne_eq, not_true_eq_false,
      if_false, Nat.zero_add, Nat.reduceAdd]
    rw [await_rtu_checksum_mismatch _ _ _ _ _ _ _ _ resp s2 s3 (by omega) hlen hbytes hD1 hD2
      haddr hfcb hcrc]
    decide

/-- Witness of C8: unit 1 reads register 0; the response carrying `0x1234`
arrives with bit 0 of its byte 3 flipped. -/
theorem rtu_corruption_sensitivity_witness :
    ∃ r, (Operation.read 0).run (fresh_context (stream_config MiniModbusMode.RTU 1) 0)
        ⟨flip_bit (rtu_frame 1 [0x03, 0x02, 0x12, 0x34]) 3 0, []⟩ 0 = some r ∧
      r.error = MiniModbusError_InvalidCrc :=
  rtu_corruption_sensitivity (Operation.read 0)
    (fresh_context (stream_config MiniModbusMode.RTU 1) 0)
    ⟨flip_bit (rtu_frame 1 [0x03, 0x02, 0x12, 0x34]) 3 0, []⟩ 0 0x1234 3 0
    (flip_bit (rtu_frame 1 [0x03, 0x02, 0x12, 0x34]) 3 0)
    ((flip_bit (rtu_frame 1 [0x03, 0x02, 0x12, 0x34]) 3 0).drop 5) []
    rfl (by decide) (by decide) (by decide) (by decide) (by decide) (by decide) (by decide)
    rfl rfl rfl
/-! ## C9: a tampered TCP length field -/

/-- C9. TCP length-field tampering: in TCP mode, for either operation, when the
request is taken and the response `[tid_hi, tid_lo, 0, 0, L_hi, L_lo, u, fb] ++
payload` is fully received (valid transaction identifier, protocol identifier
and unit address; `payload` of the size the engine reads: 1 byte after an
exception function byte, otherwise 3 for a read and 4 for a write), a declared
length `L` different from the true number of bytes from the unit address to the
end makes the operation return ResponseInvalidLength. -/
theorem tcp_length_tampering {σ : Type} (op : Operation) (ctx : MiniModbusContext σ)
    (w : World σ) (out L fb : Nat) (payload : List Nat) (s1 s2 s3 : σ)
    (hm : ctx.config.mode = MiniModbusMode.TCP)
    (hu : ctx.config.slave_address < 256)
    (h1 : op.first_field < 65536) (h2 : op.second_field < 65536)
    (hL : L < 65536) (hfb : fb < 256)
    (hpayload : payload.length =
      if fb &&& ERROR_CODE_BITMASK = 0 then op.response_payload_length else 1)
    (hsend : Accepts ctx.config w.user_data
      (tcp_frame (next_transaction_identifier ctx) ctx.config.slave_address op.request_pdu) s1)
    (hhdr : Delivers ctx.config s1
      (([next_transaction_identifier ctx / 256, next_transaction_identifier ctx % 256,
        0x00, 0x00, L / 256, L % 256, ctx.config.slave_address, fb] ++ payload).take 9) s2)
    (hbody : fb &&& ERROR_CODE_BITMASK = 0 → Delivers ctx.config s2
      (([next_transaction_identifier ctx / 256, next_transaction_identifier ctx % 256,
        0x00, 0x00, L / 256, L % 256, ctx.config.slave_address, fb] ++ payload).drop 9) s3)
    (htamper : L ≠ (([ctx.config.slave_address, fb] ++ payload).length)) :
    ∃ r, op.run ctx w out = some r ∧ r.error = MiniModbusError_ResponseInvalidLength := by
  refine ⟨_, run_eq op ctx w out, ?_⟩
  have hu1 := Nat.mod_eq_of_lt hu
  have hfb1 := Nat.mod_eq_of_lt hfb
  have hL1 : L / 256 % 256 = L / 256 := by omega
  have hLL : L / 256 * 256 + L % 256 = L := by omega
  have ht := next_transaction_identifier_lt ctx
  rw [request_tid_tcp ctx hm]
  generalize next_transaction_identifier ctx = t at *
  have ht1 : t / 256 % 256 = t / 256 := by omega
  have htt : t / 256 * 256 + t % 256 = t := by omega
  simp only [ERROR_CODE_BITMASK] at hpayload hbody
  by_cases hx : fb &&& 128 = 0
  · have hbody := hbody hx
    simp only [hx, if_true] at hpayload
    cases op with
    | read reg =>
      have hr1 : reg / 256 % 256 = reg / 256 := by
        simp only [Operation.first_field] at h1; omega
      simp only [Operation.response_payload_length] at hpayload
      obtain ⟨p0, p1, p2, rfl⟩ := List.length_eq_three.mp hpayload
      have hL3 : ¬ (5 = L) := by
        simp at htamper; omega
      simp only [tcp_frame, Accepts, Delivers, Operation.request_pdu,
        List.cons_append, List.nil_append, List.take, List.drop, List.length_cons,
        List.length_nil, Nat.reduceAdd, Nat.cast_ofNat, Nat.reduceMod, Nat.reduceDiv]
        at hsend hhdr hbody
      simp only [transaction, transaction_tcp, request_data, hm, hu1, hr1, ht1,
        Operation.function_code, Operation.first_field, Operation.second_field,
        Operation.response_payload_length,
        List.cons_append, List.nil_append, List.length_cons, List.length_nil, Nat.reduceAdd,
        Nat.reduceMod, Nat.reduceDiv, Nat.cast_ofNat, Nat.reduceSub, List.set_cons_succ,
        List.set_cons_zero, hsend, ne_eq, not_true_eq_false, if_false]
      simp only [await_tcp, hhdr, hbody, List.take, buffer_blit_apply, Nat.reduceSub,
        Nat.cast_ofNat, List.length_cons, List.length_nil, Nat.reduceAdd, Operation.decode,
        read_decode, read_u16]
      simp [hu1, hfb1, hx, ht1, htt, hL1, hLL, hL3,
        be16 (t / 256) (t % 256) (by omega) (by omega),
        be16 (L / 256) (L % 256) (by omega) (by omega)]
    | write reg value =>
      have hr1 : reg / 256 % 256 = reg / 256 := by
        simp only [Operation.first_field] at h1; omega
      have hv1 : value / 256 % 256 = value / 256 := by
        simp only [Operation.second_field] at h2; omega
      simp only [Operation.response_payload_length] at hpayload
      obtain ⟨p0, p1, p2, p3, rfl⟩ : ∃ p0 p1 p2 p3, payload = [p0, p1, p2, p3] := by
        rcases payload with _ | ⟨p0, _ | ⟨p1, _ | ⟨p2, _ | ⟨p3, _ | ⟨p4, rest⟩⟩⟩⟩⟩ <;>
          simp at hpayload
        exact ⟨p0, p1, p2, p3, rfl⟩
      have hL3 : ¬ (6 = L) := by
        simp at htamper; omega
      simp only [tcp_frame, Accepts, Delivers, Operation.request_pdu,
        List.cons_append, List.nil_append, List.take, List.drop, List.length_cons,
        List.length_nil, Nat.reduceAdd, Nat.cast_ofNat, Nat.reduceMod, Nat.reduceDiv]
        at hsend hhdr hbody
      simp only [transaction, transaction_tcp, request_data, hm, hu1, hr1, hv1, ht1,
        Operation.function_code, Operation.first_field, Operation.second_field,
        Operation.response_payload_length,
        List.cons_append, List.nil_append, List.length_cons, List.length_nil, Nat.reduceAdd,
        Nat.reduceMod, Nat.reduceDiv, Nat.cast_ofNat, Nat.reduceSub, List.set_cons_succ,
        List.set_cons_zero, hsend, ne_eq, not_true_eq_false, if_false]
      simp only [await_tcp, hhdr, hbody, List.take, buffer_blit_apply, Nat.reduceSub,
        Nat.cast_ofNat, List.length_cons, List.length_nil, Nat.reduceAdd, Operation.decode,
        write_decode, read_u16]
      simp [hu1, hfb1, hx, ht1, htt, hL1, hLL, hL3,
        be16 (t / 256) (t % 256) (by omega) (by omega),
        be16 (L / 256) (L % 256) (by omega) (by omega)]
  · simp only [hx, if_false] at hpayload
    obtain ⟨p0, rfl⟩ := List.length_eq_one.mp hpayload
    have hL3 : ¬ (3 = L) := by
      simp at htamper; omega
    cases op with
    | read reg =>
      have hr1 : reg / 256 % 256 = reg / 256 := by
        simp only [Operation.first_field] at h1; omega
      simp only [tcp_frame, Accepts, Delivers, Operation.request_pdu,
        List.cons_append, List.nil_append, List.take, List.drop, List.length_cons,
        List.length_nil, Nat.reduceAdd, Nat.cast_ofNat, Nat.reduceMod, Nat.reduceDiv]
        at hsend hhdr
      simp only [transaction, transaction_tcp, request_data, hm, hu1, hr1, ht1,
        Operation.function_code, Operation.first_field, Operation.second_field,
        Operation.response_payload_length,
        List.cons_append, List.nil_append, List.length_cons, List.length_nil, Nat.reduceAdd,
        Nat.reduceMod, Nat.reduceDiv, Nat.cast_ofNat, Nat.reduceSub, List.set_cons_succ,
        List.set_cons_zero, hsend, ne_eq, not_true_eq_false, if_false]
      simp only [await_tcp, hhdr, List.take, buffer_blit_apply, Nat.reduceSub,
        Nat.cast_ofNat, List.length_cons, List.length_nil, Nat.reduceAdd, Operation.decode,
        read_decode, read_u16]
      simp [hu1, hfb1, hx, ht1, htt, hL1, hLL, hL3,
        be16 (t / 256) (t % 256) (by omega) (by omega),
        be16 (L / 256) (L % 256) (by omega) (by omega)]
    | write reg value =>
      have hr1 : reg / 256 % 256 = reg / 256 := by
        simp only [Operation.first_field] at h1; omega
      have hv1 : value / 256 % 256 = value / 256 := by
        simp only [Operation.second_field] at h2; omega
      simp only [tcp_frame, Accepts, Delivers, Operation.request_pdu,
        List.cons_append, List.nil_append, List.take, List.drop, List.length_cons,
        List.length_nil, Nat.reduceAdd, Nat.cast_ofNat, Nat.reduceMod, Nat.reduceDiv]
        at hsend hhdr
      simp only [transaction, transaction_tcp, request_data, hm, hu1, hr1, hv1, ht1,
        Operation.function_code, Operation.first_field, Operation.second_field,
        Operation.response_payload_length,
        List.cons_append, List.nil_append, List.length_cons, List.length_nil, Nat.reduceAdd,
        Nat.reduceMod, Nat.reduceDiv, Nat.cast_ofNat, Nat.reduceSub, List.set_cons_succ,
        List.set_cons_zero, hsend, ne_eq, not_true_eq_false, if_false]
      simp only [await_tcp, hhdr, List.take, buffer_blit_apply, Nat.reduceSub,
        Nat.cast_ofNat, List.length_cons, List.length_nil, Nat.reduceAdd, Operation.decode,
        write_decode, read_u16]
      simp [hu1, hfb1, hx, ht1, htt, hL1, hLL, hL3,
        be16 (t / 256) (t % 256) (by omega) (by omega),
        be16 (L / 256) (L % 256) (by omega) (by omega)]

/-- Witness of C9: unit 1 in TCP mode with the counter at 7 reads register 0;
the response carries the value `0x1234` but declares length 6 instead of 5. -/
theorem tcp_length_tampering_witness :
    ∃ r, (Operation.read 0).run (fresh_context (stream_config MiniModbusMode.TCP 1) 7)
        ⟨[0x00, 0x08, 0x00, 0x00, 0x00, 0x06, 0x01, 0x03, 0x02, 0x12, 0x34], []⟩ 0 = some r ∧
      r.error = MiniModbusError_ResponseInvalidLength :=
  tcp_length_tampering (Operation.read 0) (fresh_context (stream_config MiniModbusMode.TCP 1) 7)
    ⟨[0x00, 0x08, 0x00, 0x00, 0x00, 0x06, 0x01, 0x03, 0x02, 0x12, 0x34], []⟩ 0 6 0x03
    [0x02, 0x12, 0x34] [0x00, 0x08, 0x00, 0x00, 0x00, 0x06, 0x01, 0x03, 0x02, 0x12, 0x34]
    [0x12, 0x34] [] rfl (by decide) (by decide) (by decide) (by decide) (by decide) rfl rfl rfl
    (fun _ => rfl) (by decide)
/-! ## C10: success on an exception response -/

/-- C10, the code at the failing input: in TCP mode with the counter at 7, a read
of register 2 answered by the exception response `00 08 00 00 00 03 01 83 00`
(function byte `0x83`, exception code 0) returns Success and stores 1, the
quantity field of the request still lying in the buffer. -/
theorem read_succeeds_on_exception_code_zero :
    (MiniModbus_ReadHoldingRegister
        (some (fresh_context (stream_config MiniModbusMode.TCP 1) 7))
        ⟨[0x00, 0x08, 0x00, 0x00, 0x00, 0x03, 0x01, 0x83, 0x00], []⟩ 2 (some 0)).map
      (fun r => (r.error, r.value, r.world.calls)) =
        some (MiniModbusError_Success, some 1,
          [TransportCall.send [0x00, 0x08, 0x00, 0x00, 0x00, 0x06, 0x01, 0x03, 0x00, 0x02, 0x00, 0x01],
            TransportCall.receive 0 9]) ∧
    (0x83 : Nat) &&& ERROR_CODE_BITMASK ≠ 0 := by
  constructor
  · rfl
  · decide

/-! ## An operation after its request has been handed to the transport -/

/-- Under the ranges of the argument types the frame the engine seals is the
wire frame of the specification. -/
theorem sealed_request_eq {σ : Type} (ctx : MiniModbusContext σ) (op : Operation)
    (hu : ctx.config.slave_address < 256)
    (h1 : op.first_field < 65536) (h2 : op.second_field < 65536) :
    (match ctx.config.mode with
      | MiniModbusMode.RTU =>
        request_data ctx.config.mode (request_tid ctx) ctx.config.slave_address
            op.function_code op.first_field op.second_field ++
          [MiniModbus_Crc16 (request_data ctx.config.mode (request_tid ctx)
              ctx.config.slave_address op.function_code op.first_field op.second_field) % 256,
            MiniModbus_Crc16 (request_data ctx.config.mode (request_tid ctx)
              ctx.config.slave_address op.function_code op.first_field op.second_field) / 256]
      | MiniModbusMode.TCP =>
        ((request_data ctx.config.mode (request_tid ctx) ctx.config.slave_address
            op.function_code op.first_field op.second_field).set 4
          (((request_data ctx.config.mode (request_tid ctx) ctx.config.slave_address
            op.function_code op.first_field op.second_field).length - 6) / 256)).set 5
          (((request_data ctx.config.mode (request_tid ctx) ctx.config.slave_address
            op.function_code op.first_field op.second_field).length - 6) % 256)) =
      request_frame ctx op := by
  have ht := next_transaction_identifier_lt ctx
  have ht1 : next_transaction_identifier ctx / 256 % 256 = next_transaction_identifier ctx / 256 := by
    omega
  have hu1 := Nat.mod_eq_of_lt hu
  unfold request_frame
  cases hm : ctx.config.mode
  · simp only [request_data_rtu op _ _ hu h1 h2, wire_frame, rtu_frame]
  · cases op with
    | read reg =>
      simp only [Operation.first_field] at h1
      have hr1 : reg / 256 % 256 = reg / 256 := by omega
      simp [request_data, request_tid, hm, wire_frame, tcp_frame, Operation.request_pdu,
        Operation.function_code, Operation.first_field, Operation.second_field, ht1, hu1, hr1]
    | write reg value =>
      simp only [Operation.first_field] at h1
      simp only [Operation.second_field] at h2
      have hr1 : reg / 256 % 256 = reg / 256 := by omega
      have hv1 : value / 256 % 256 = value / 256 := by omega
      simp [request_data, request_tid, hm, wire_frame, tcp_frame, Operation.request_pdu,
        Operation.function_code, Operation.first_field, Operation.second_field, ht1, hu1, hr1,
        hv1]

theorem request_frame_length {σ : Type} (ctx : MiniModbusContext σ) (op : Operation) :
    (request_frame ctx op).length = (match ctx.config.mode with
      | MiniModbusMode.RTU => 8
      | MiniModbusMode.TCP => 12) := by
  unfold request_frame
  cases ctx.config.mode <;> cases op <;> rfl

/-- The engine on the stored request bytes, in terms of the frame it sends. -/
theorem transaction_eq {σ : Type} (config : MiniModbusConfig σ) (tid rc rl : Nat)
    (base : Nat → Nat) (data frame : List Nat) (w : World σ)
    (hframe : (match config.mode with
      | MiniModbusMode.RTU => data ++ [MiniModbus_Crc16 data % 256, MiniModbus_Crc16 data / 256]
      | MiniModbusMode.TCP =>
        (data.set 4 ((data.length - 6) / 256)).set 5 ((data.length - 6) % 256)) = frame) :
    transaction config tid rc rl base data w =
      if (config.send w.user_data frame).2 ≠ (frame.length : Int) then
        (⟨config, frame.length, tid, rc, rl, buffer_blit base 0 frame⟩,
          ⟨(config.send w.user_data frame).1, w.calls ++ [TransportCall.send frame]⟩,
          MiniModbusError_Send)
      else
        await config frame.length tid rc rl (buffer_blit base 0 frame)
          (config.send w.user_data frame).1 (w.calls ++ [TransportCall.send frame]) := by
  unfold transaction await
  cases hm : config.mode
  · simp only [hm] at hframe
    subst hframe
    simp only [transaction_rtu, List.length_append, List.length_cons, List.length_nil,
      Nat.zero_add, Nat.reduceAdd]
  · simp only [hm] at hframe
    subst hframe
    simp only [transaction_tcp, List.length_set]

/-- An operation, in terms of its request frame and what the transport answers
to the send. -/
theorem run_frame_eq {σ : Type} (op : Operation) (ctx : MiniModbusContext σ) (w : World σ)
    (out : Nat) (hu : ctx.config.slave_address < 256)
    (h1 : op.first_field < 65536) (h2 : op.second_field < 65536) :
    op.run ctx w out = some (op.decode out
      (if (ctx.config.send w.user_data (request_frame ctx op)).2 ≠
          ((request_frame ctx op).length : Int) then
        (⟨ctx.config, (request_frame ctx op).length, request_tid ctx, op.function_code,
            op.response_payload_length, buffer_blit ctx.buffer 0 (request_frame ctx op)⟩,
          ⟨(ctx.config.send w.user_data (request_frame ctx op)).1,
            w.calls ++ [TransportCall.send (request_frame ctx op)]⟩,
          MiniModbusError_Send)
      else
        await ctx.config (request_frame ctx op).length (request_tid ctx) op.function_code
          op.response_payload_length (buffer_blit ctx.buffer 0 (request_frame ctx op))
          (ctx.config.send w.user_data (request_frame ctx op)).1
          (w.calls ++ [TransportCall.send (request_frame ctx op)]))) := by
  rw [run_eq, transaction_eq _ _ _ _ _ _ _ _ (sealed_request_eq ctx op hu h1 h2)]

/-- An operation whose request the transport takes whole. -/
theorem run_of_accepts {σ : Type} (op : Operation) (ctx : MiniModbusContext σ) (w : World σ)
    (out : Nat) (s1 : σ) (hu : ctx.config.slave_address < 256)
    (h1 : op.first_field < 65536) (h2 : op.second_field < 65536)
    (hsend : Accepts ctx.config w.user_data (request_frame ctx op) s1) :
    op.run ctx w out = some (op.decode out
      (await ctx.config (request_frame ctx op).length (request_tid ctx) op.function_code
        op.response_payload_length (buffer_blit ctx.buffer 0 (request_frame ctx op)) s1
        (w.calls ++ [TransportCall.send (request_frame ctx op)]))) := by
  rw [run_frame_eq op ctx w out hu h1 h2]
  have hs : ctx.config.send w.user_data (request_frame ctx op) =
      (s1, ((request_frame ctx op).length : Int)) := hsend
  rw [hs]
  simp only [ne_eq, not_true_eq_false, if_false]

theorem response_payload_length_bounds (op : Operation) :
    3 ≤ op.response_payload_length ∧ op.response_payload_length ≤ 4 := by
  cases op <;> simp [Operation.response_payload_length]

theorem receive_requests_append (a b : List TransportCall) :
    receive_requests (a ++ b) = receive_requests a ++ receive_requests b := by
  simp [receive_requests, List.filterMap_append]

theorem length_eq_five (l : List Nat) (h : l.length = 5) :
    ∃ a b c d e, l = [a, b, c, d, e] := by
  rcases l with _ | ⟨a, _ | ⟨b, _ | ⟨c, _ | ⟨d, _ | ⟨e, _ | ⟨f, rest⟩⟩⟩⟩⟩⟩ <;> simp at h
  exact ⟨a, b, c, d, e, rfl⟩

theorem length_eq_nine (l : List Nat) (h : l.length = 9) :
    ∃ a b c d e f g x y, l = [a, b, c, d, e, f, g, x, y] := by
  rcases l with _ | ⟨a, _ | ⟨b, _ | ⟨c, _ | ⟨d, _ | ⟨e, _ | ⟨f, _ | ⟨g, _ | ⟨x, _ | ⟨y, _ |
    ⟨z, rest⟩⟩⟩⟩⟩⟩⟩⟩⟩⟩ <;> simp at h
  exact ⟨a, b, c, d, e, f, g, x, y, rfl⟩

/-! ## The engine on a fully received response -/

theorem buffer_blit_getD (buffer : Nat → Nat) (resp : List Nat) (hbytes : ∀ b ∈ resp, b < 256)
    (j : Nat) (hj : j < resp.length) : buffer_blit buffer 0 resp j = resp.getD j 0 := by
  simp only [buffer_blit, Nat.zero_le, true_and, Nat.zero_add, hj, if_true, Nat.sub_zero]
  exact Nat.mod_eq_of_lt (getD_lt_of_bytes resp hbytes j)

theorem buffer_blit_take_getD (buffer : Nat → Nat) (resp : List Nat)
    (hbytes : ∀ b ∈ resp, b < 256) (n j : Nat) (hj : j < n) (hn : n ≤ resp.length) :
    buffer_blit buffer 0 (resp.take n) j = resp.getD j 0 := by
  have h5 : j < (resp.take n).length := by simp; omega
  simp only [buffer_blit, Nat.zero_le, true_and, Nat.zero_add, h5, if_true, Nat.sub_zero,
    List.getD_eq_getElem?_getD, List.getElem?_take, hj]
  rw [← List.getD_eq_getElem?_getD]
  exact Nat.mod_eq_of_lt (getD_lt_of_bytes resp hbytes j)

theorem read_u16_blit (buffer : Nat → Nat) (resp : List Nat) (hbytes : ∀ b ∈ resp, b < 256)
    (j : Nat) (hj : j + 1 < resp.length) :
    read_u16 (buffer_blit buffer 0 resp) j = frame_u16 resp j := by
  rw [read_u16, buffer_blit_getD buffer resp hbytes j (by omega),
    buffer_blit_getD buffer resp hbytes (j + 1) hj, frame_u16]
  exact be16 _ _ (getD_lt_of_bytes resp hbytes j) (getD_lt_of_bytes resp hbytes (j + 1))

theorem read_u16_blit_take (buffer : Nat → Nat) (resp : List Nat) (hbytes : ∀ b ∈ resp, b < 256)
    (n j : Nat) (hj : j + 1 < n) (hn : n ≤ resp.length) :
    read_u16 (buffer_blit buffer 0 (resp.take n)) j = frame_u16 resp j := by
  rw [read_u16, buffer_blit_take_getD buffer resp hbytes n j (by omega) hn,
    buffer_blit_take_getD buffer resp hbytes n (j + 1) hj hn, frame_u16]
  exact be16 _ _ (getD_lt_of_bytes resp hbytes j) (getD_lt_of_bytes resp hbytes (j + 1))

/-- RTU mode: the engine after the send, when a complete non-exception response
`resp` with the right unit address is delivered in the two receive calls. -/
theorem await_rtu_received {σ : Type} (config : MiniModbusConfig σ) (pos tid rc rl : Nat)
    (buffer : Nat → Nat) (s : σ) (calls : List TransportCall) (resp : List Nat) (s2 s3 : σ)
    (hrl : 1 ≤ rl) (hlen : resp.length = 5 + (rl - 1)) (hbytes : ∀ b ∈ resp, b < 256)
    (hhdr : config.receive s 5 = (s2, resp.take 5, 5))
    (hbody : config.receive s2 (rl - 1) = (s3, resp.drop 5, ((rl - 1 : Nat) : Int)))
    (haddr : resp.getD 0 0 = config.slave_address) (hfc : resp.getD 1 0 &&& 128 = 0) :
    await_rtu config pos tid rc rl buffer s calls =
      (⟨config, 2, tid, rc, rl, buffer_blit buffer 0 resp⟩,
        ⟨s3, calls ++ [TransportCall.receive 0 5] ++ [TransportCall.receive 5 (rl - 1)]⟩,
        if resp.getD (5 + (rl - 1) - 2) 0 ≠
              MiniModbus_Crc16 (resp.take (5 + (rl - 1) - 2)) % 256 ∨
            resp.getD (5 + (rl - 1) - 1) 0 ≠
              MiniModbus_Crc16 (resp.take (5 + (rl - 1) - 2)) / 256 then
          MiniModbusError_InvalidCrc
        else if resp.getD 1 0 ≠ rc then MiniModbusError_ResponseInvalidCode
        else MiniModbusError_Success) := by
  have htake : (resp.take 5).take 5 = resp.take 5 := by simp
  have hdrop : (resp.drop 5).take (rl - 1) = resp.drop 5 := by
    apply List.take_of_length_le
    simp [hlen]
  have hr : ((rl - 1 : Nat) : Int) = (rl : Int) - 1 := by omega
  have hbb : buffer_bytes (buffer_blit buffer 0 resp) 0 (5 + (rl - 1) - 2) =
      resp.take (5 + (rl - 1) - 2) := by
    rw [buffer_bytes_blit buffer resp 0 _ (by omega), List.drop_zero]
    apply map_mod_of_bytes
    intro b hb
    exact hbytes b (List.mem_of_mem_take hb)
  unfold await_rtu
  simp only [hhdr, hbody, htake, hdrop, hr, ne_eq, not_true_eq_false, if_false,
    buffer_blit_split buffer resp 5 (by omega),
    buffer_blit_take_getD buffer resp hbytes 5 0 (by norm_num) (by omega),
    buffer_blit_take_getD buffer resp hbytes 5 1 (by norm_num) (by omega), haddr,
    hfc, if_true, hbb, buffer_blit_getD buffer resp hbytes _
      (show 5 + (rl - 1) - 2 < resp.length by omega),
    buffer_blit_getD buffer resp hbytes _ (show 5 + (rl - 1) - 1 < resp.length by omega)]
  split_ifs <;> rfl

/-- RTU mode: the engine after the send, when a complete exception response
`resp` (five bytes) with the right unit address is delivered. -/
theorem await_rtu_exception {σ : Type} (config : MiniModbusConfig σ) (pos tid rc rl : Nat)
    (buffer : Nat → Nat) (s : σ) (calls : List TransportCall) (resp : List Nat) (s2 : σ)
    (hlen : resp.length = 5) (hbytes : ∀ b ∈ resp, b < 256)
    (hhdr : config.receive s 5 = (s2, resp, 5))
    (haddr : resp.getD 0 0 = config.slave_address) (hfc : resp.getD 1 0 &&& 128 ≠ 0) :
    await_rtu config pos tid rc rl buffer s calls =
      (⟨config, 3, tid, rc, rl, buffer_blit buffer 0 resp⟩,
        ⟨s2, calls ++ [TransportCall.receive 0 5]⟩,
        if resp.getD 3 0 ≠ MiniModbus_Crc16 (resp.take 3) % 256 ∨
            resp.getD 4 0 ≠ MiniModbus_Crc16 (resp.take 3) / 256 then
          MiniModbusError_InvalidCrc
        else ((resp.getD 2 0 : Nat) : Int)) := by
  have htake : resp.take 5 = resp := List.take_of_length_le (by omega)
  have hbb : buffer_bytes (buffer_blit buffer 0 resp) 0 3 = resp.take 3 := by
    rw [buffer_bytes_blit buffer resp 0 _ (by omega), List.drop_zero]
    apply map_mod_of_bytes
    intro b hb
    exact hbytes b (List.mem_of_mem_take hb)
  unfold await_rtu
  simp only [hhdr, htake, ne_eq, not_true_eq_false, if_false,
    buffer_blit_getD buffer resp hbytes 0 (by omega),
    buffer_blit_getD buffer resp hbytes 1 (by omega),
    buffer_blit_getD buffer resp hbytes 2 (by omega),
    buffer_blit_getD buffer resp hbytes 3 (by omega),
    buffer_blit_getD buffer resp hbytes 4 (by omega), haddr, hfc, hbb]
  split_ifs <;> rfl

/-- TCP mode: the engine after the send, when a complete non-exception response
`resp` whose transaction identifier, protocol identifier and unit address pass
the header checks is delivered in the two receive calls. -/
theorem await_tcp_received {σ : Type} (config : MiniModbusConfig σ) (pos tid rc rl : Nat)
    (buffer : Nat → Nat) (s : σ) (calls : List TransportCall) (resp : List Nat) (s2 s3 : σ)
    (hrl : 1 ≤ rl) (hlen : resp.length = 9 + (rl - 1)) (hbytes : ∀ b ∈ resp, b < 256)
    (hhdr : config.receive s 9 = (s2, resp.take 9, 9))
    (hbody : config.receive s2 (rl - 1) = (s3, resp.drop 9, ((rl - 1 : Nat) : Int)))
    (htid : frame_u16 resp 0 = tid) (hproto : frame_u16 resp 2 = 0)
    (haddr : resp.getD 6 0 = config.slave_address) (hfc : resp.getD 7 0 &&& 128 = 0) :
    await_tcp config pos tid rc rl buffer s calls =
      (⟨config, 8, tid, rc, rl, buffer_blit buffer 0 resp⟩,
        ⟨s3, calls ++ [TransportCall.receive 0 9] ++ [TransportCall.receive 9 (rl - 1)]⟩,
        if 9 + (rl - 1) - 6 ≠ frame_u16 resp 4 then MiniModbusError_ResponseInvalidLength
        else if resp.getD 7 0 ≠ rc then MiniModbusError_ResponseInvalidCode
        else MiniModbusError_Success) := by
  have htake : (resp.take 9).take 9 = resp.take 9 := by simp
  have hdrop : (resp.drop 9).take (rl - 1) = resp.drop 9 := by
    apply List.take_of_length_le
    simp [hlen]
  have hr : ((rl - 1 : Nat) : Int) = (rl : Int) - 1 := by omega
  unfold await_tcp
  simp only [hhdr, hbody, htake, hdrop, hr, ne_eq, not_true_eq_false, if_false,
    buffer_blit_split buffer resp 9 (by omega),
    read_u16_blit_take buffer resp hbytes 9 0 (by norm_num) (by omega),
    read_u16_blit_take buffer resp hbytes 9 2 (by norm_num) (by omega),
    read_u16_blit_take buffer resp hbytes 9 4 (by norm_num) (by omega),
    buffer_blit_take_getD buffer resp hbytes 9 6 (by norm_num) (by omega),
    buffer_blit_take_getD buffer resp hbytes 9 7 (by norm_num) (by omega), htid, hproto, haddr,
    hfc, if_true]
  split_ifs <;> rfl

/-! ## The engine on a well-formed normal response -/

theorem rtu_frame_length (u : Nat) (pdu : List Nat) : (rtu_frame u pdu).length = pdu.length + 3 := by
  simp [rtu_frame]

theorem rtu_frame_bytes (u : Nat) (pdu : List Nat) (hu : u < 256) (hpdu : ∀ b ∈ pdu, b < 256) :
    ∀ b ∈ rtu_frame u pdu, b < 256 := by
  intro b hb
  have hc := MiniModbus_Crc16_lt (u :: pdu)
  simp only [rtu_frame, List.cons_append, List.mem_cons, List.mem_append, List.mem_singleton,
    List.mem_nil_iff, or_false] at hb
  rcases hb with h | h | h | h
  · omega
  · exact hpdu b h
  · omega
  · omega

theorem tcp_frame_bytes (t u : Nat) (pdu : List Nat) (ht : t < 65536) (hu : u < 256)
    (hlen : pdu.length < 65535) (hpdu : ∀ b ∈ pdu, b < 256) :
    ∀ b ∈ tcp_frame t u pdu, b < 256 := by
  intro b hb
  simp only [tcp_frame, List.cons_append, List.nil_append, List.mem_cons] at hb
  rcases hb with h | h | h | h | h | h | h | h
  · omega
  · omega
  · omega
  · omega
  · omega
  · omega
  · omega
  · exact hpdu b h

theorem rtu_frame_take (u : Nat) (pdu : List Nat) (n : Nat) (hn : n = pdu.length + 1) :
    (rtu_frame u pdu).take n = u :: pdu := by
  subst hn
  simp [rtu_frame]

theorem rtu_frame_crc_lo (u : Nat) (pdu : List Nat) (n : Nat) (hn : n = pdu.length + 1) :
    (rtu_frame u pdu).getD n 0 = MiniModbus_Crc16 (u :: pdu) % 256 := by
  subst hn
  simp only [rtu_frame, List.getD_eq_getElem?_getD]
  rw [List.getElem?_append_right (by simp)]
  simp

theorem rtu_frame_crc_hi (u : Nat) (pdu : List Nat) (n : Nat) (hn : n = pdu.length + 2) :
    (rtu_frame u pdu).getD n 0 = MiniModbus_Crc16 (u :: pdu) / 256 := by
  subst hn
  simp only [rtu_frame, List.getD_eq_getElem?_getD]
  rw [List.getElem?_append_right (by simp)]
  simp

/-- The engine after the send, in either mode, when the transport delivers the
well-formed normal response with function byte `fb` and payload `payload`:
the cursor is left on the payload, which lies in the buffer, and the result is
ResponseInvalidCode when `fb` is not the request's function code, otherwise
Success. -/
theorem await_wire_response {σ : Type} (config : MiniModbusConfig σ) (pos tid rc rl : Nat)
    (buffer : Nat → Nat) (s : σ) (calls : List TransportCall) (t fb : Nat) (payload : List Nat)
    (s2 s3 : σ) (hu : config.slave_address < 256) (ht : t < 65536)
    (htid : config.mode = MiniModbusMode.TCP → tid = t) (hfb : fb < 256)
    (hrl : 1 ≤ rl) (hrl2 : rl ≤ 4) (hpl : payload.length = rl) (hbytes : ∀ b ∈ payload, b < 256)
    (hclear : fb &&& 128 = 0)
    (hhdr : Delivers config s
      ((wire_frame config.mode t config.slave_address (fb :: payload)).take
        (header_length config.mode)) s2)
    (hbody : Delivers config s2
      ((wire_frame config.mode t config.slave_address (fb :: payload)).drop
        (header_length config.mode)) s3) :
    (await config pos tid rc rl buffer s calls).2.2 =
        (if fb ≠ rc then MiniModbusError_ResponseInvalidCode else MiniModbusError_Success) ∧
      (∀ j, j < payload.length →
        (await config pos tid rc rl buffer s calls).1.buffer
          ((await config pos tid rc rl buffer s calls).1.buffer_position + j) =
            payload.getD j 0) ∧
      (await config pos tid rc rl buffer s calls).2.1.user_data = s3 ∧
      (await config pos tid rc rl buffer s calls).1.config = config ∧
      (await config pos tid rc rl buffer s calls).1.current_tcp_transaction_identifier = tid ∧
      (await config pos tid rc rl buffer s calls).2.1.calls =
        calls ++ [TransportCall.receive 0 (header_length config.mode)] ++
          [TransportCall.receive (header_length config.mode) (rl - 1)] := by
  have hpdu : ∀ b ∈ fb :: payload, b < 256 := by
    intro b hb
    rcases List.mem_cons.mp hb with h | h
    · omega
    · exact hbytes b h
  cases hm : config.mode
  · simp only [hm, wire_frame, header_length] at hhdr hbody
    have hlen : (rtu_frame config.slave_address (fb :: payload)).length = 5 + (rl - 1) := by
      rw [rtu_frame_length, List.length_cons]; omega
    have hfbytes := rtu_frame_bytes config.slave_address (fb :: payload) hu hpdu
    have h5 : ((rtu_frame config.slave_address (fb :: payload)).take 5).length = 5 := by
      rw [List.length_take, hlen]; omega
    have hd : ((rtu_frame config.slave_address (fb :: payload)).drop 5).length = rl - 1 := by
      rw [List.length_drop, hlen]; omega
    simp only [Delivers, h5, hd, Nat.cast_ofNat] at hhdr hbody
    have h0 : (rtu_frame config.slave_address (fb :: payload)).getD 0 0 = config.slave_address := by
      simp [rtu_frame]
    have h1 : (rtu_frame config.slave_address (fb :: payload)).getD 1 0 = fb := by
      simp [rtu_frame]
    have hE := await_rtu_received config pos tid rc rl buffer s calls _ s2 s3 hrl hlen hfbytes
      hhdr hbody h0 (by rw [h1]; exact hclear)
    rw [rtu_frame_take _ _ _ (by rw [List.length_cons]; omega),
      rtu_frame_crc_lo _ _ _ (by rw [List.length_cons]; omega),
      rtu_frame_crc_hi _ _ _ (by rw [List.length_cons]; omega), h1] at hE
    simp only [ne_eq, not_true_eq_false, or_self, if_false] at hE
    simp only [await, hm, hE, ne_eq, true_and]
    refine ⟨?_, rfl⟩
    intro j hj
    rw [buffer_blit_getD buffer _ hfbytes _ (by rw [hlen]; omega)]
    rw [Nat.add_comm 2 j]
    simp only [rtu_frame, List.cons_append, List.getD_cons_succ]
    rw [List.getD_append _ _ _ _ hj]
  · simp only [hm, wire_frame, header_length] at hhdr hbody
    have htid := htid hm
    subst htid
    have hlen : (tcp_frame tid config.slave_address (fb :: payload)).length = 9 + (rl - 1) := by
      simp only [tcp_frame, List.cons_append, List.nil_append, List.length_cons]; omega
    have hfbytes := tcp_frame_bytes tid config.slave_address (fb :: payload) ht hu
      (by rw [List.length_cons]; omega) hpdu
    have h5 : ((tcp_frame tid config.slave_address (fb :: payload)).take 9).length = 9 := by
      rw [List.length_take, hlen]; omega
    have hd : ((tcp_frame tid config.slave_address (fb :: payload)).drop 9).length = rl - 1 := by
      rw [List.length_drop, hlen]; omega
    simp only [Delivers, h5, hd, Nat.cast_ofNat] at hhdr hbody
    have hE := await_tcp_received config pos tid rc rl buffer s calls _ s2 s3 hrl hlen hfbytes
      hhdr hbody (by simp only [frame_u16, tcp_frame, List.cons_append, List.nil_append,
        List.getD_cons_zero, List.getD_cons_succ]; omega)
      (by simp [frame_u16, tcp_frame]) (by simp [tcp_frame])
      (by simp only [tcp_frame, List.cons_append, List.nil_append, List.getD_cons_zero,
        List.getD_cons_succ]; exact hclear)
    have h4 : frame_u16 (tcp_frame tid config.slave_address (fb :: payload)) 4 =
        9 + (rl - 1) - 6 := by
      simp only [frame_u16, tcp_frame, List.cons_append, List.nil_append,
        List.getD_cons_zero, List.getD_cons_succ, List.length_cons]
      omega
    have h7 : (tcp_frame tid config.slave_address (fb :: payload)).getD 7 0 = fb := by
      simp [tcp_frame]
    rw [h4, h7] at hE
    simp only [ne_eq, not_true_eq_false, if_false] at hE
    simp only [await, hm, hE, ne_eq, true_and]
    refine ⟨?_, rfl⟩
    intro j hj
    rw [buffer_blit_getD buffer _ hfbytes _ (by rw [hlen]; omega)]
    rw [Nat.add_comm 8 j]
    simp only [tcp_frame, List.cons_append, List.nil_append, List.getD_cons_succ]

/-! ## Cursor and receive regions, whatever the transport does -/

theorem receive_requests_one (calls : List TransportCall) (o n : Nat) (h : o + n ≤ 12) :
    ∀ p ∈ receive_requests (calls ++ [TransportCall.receive o n]),
      p ∈ receive_requests calls ∨ p.1 + p.2 ≤ 12 := by
  intro p hp
  simp only [receive_requests, List.filterMap_append, List.filterMap_cons, List.filterMap_nil,
    List.mem_append, List.mem_singleton] at hp
  rcases hp with hp | hp
  · exact Or.inl hp
  · right
    rw [hp]
    exact h

theorem receive_requests_two (calls : List TransportCall) (o n o2 n2 : Nat) (h : o + n ≤ 12)
    (h2 : o2 + n2 ≤ 12) :
    ∀ p ∈ receive_requests (calls ++ [TransportCall.receive o n] ++ [TransportCall.receive o2 n2]),
      p ∈ receive_requests calls ∨ p.1 + p.2 ≤ 12 := by
  intro p hp
  rcases receive_requests_one _ o2 n2 h2 p hp with h3 | h3
  · exact receive_requests_one calls o n h p h3
  · exact Or.inr h3

theorem receive_ne_success : MiniModbusError_Receive ≠ MiniModbusError_Success := by decide

theorem engine_bounds_ite {σ : Type} (pos : Nat) (calls : List TransportCall) (c : Prop)
    [Decidable c] (a b : MiniModbusContext σ × World σ × MiniModbusError_t)
    (ha : engine_bounds pos calls a) (hb : engine_bounds pos calls b) :
    engine_bounds pos calls (if c then a else b) := by
  split_ifs
  · exact ha
  · exact hb

theorem engine_bounds_mk {σ : Type} (pos : Nat) (calls : List TransportCall)
    (ctx : MiniModbusContext σ) (w : World σ) (e : MiniModbusError_t)
    (h1 : ctx.buffer_position ≤ 9)
    (h2 : ∀ p ∈ receive_requests w.calls, p ∈ receive_requests calls ∨ p.1 + p.2 ≤ 12) :
    engine_bounds pos calls (ctx, w, e) :=
  ⟨fun _ => h1, le_max_of_le_left h1, h2⟩

theorem engine_bounds_receive {σ : Type} (pos : Nat) (calls : List TransportCall)
    (ctx : MiniModbusContext σ) (w : World σ) (hpos : ctx.buffer_position = pos)
    (h2 : ∀ p ∈ receive_requests w.calls, p ∈ receive_requests calls ∨ p.1 + p.2 ≤ 12) :
    engine_bounds pos calls (ctx, w, MiniModbusError_Receive) :=
  ⟨fun h => absurd h receive_ne_success, by rw [hpos]; exact le_max_right _ _, h2⟩

/-- RTU mode, after the send: the cursor is at most 9 when the engine reports
Success and at most `max 9 pos` otherwise, and every region handed to `receive`
ends at or before index 12. -/
theorem await_rtu_bounds {σ : Type} (config : MiniModbusConfig σ) (pos tid rc rl : Nat)
    (buffer : Nat → Nat) (s : σ) (calls : List TransportCall) (hrl : rl ≤ 4) :
    engine_bounds pos calls (await_rtu config pos tid rc rl buffer s calls) := by
  have hone := receive_requests_one calls 0 5 (by omega)
  have htwo := receive_requests_two calls 0 5 5 (rl - 1) (by omega) (by omega)
  unfold await_rtu
  simp only []
  refine engine_bounds_ite _ _ _ _ _ (engine_bounds_receive _ _ _ _ rfl hone) ?_
  refine engine_bounds_ite _ _ _ _ _ (engine_bounds_mk _ _ _ _ _ (Nat.le_of_ble_eq_true rfl) hone) ?_
  refine engine_bounds_ite _ _ _ _ _ ?_ ?_
  · refine engine_bounds_ite _ _ _ _ _ (engine_bounds_mk _ _ _ _ _ (Nat.le_of_ble_eq_true rfl) htwo) ?_
    refine engine_bounds_ite _ _ _ _ _ (engine_bounds_mk _ _ _ _ _ (Nat.le_of_ble_eq_true rfl) htwo) ?_
    refine engine_bounds_ite _ _ _ _ _ (engine_bounds_mk _ _ _ _ _ (Nat.le_of_ble_eq_true rfl) htwo) ?_
    exact engine_bounds_mk _ _ _ _ _ (Nat.le_of_ble_eq_true rfl) htwo
  · refine engine_bounds_ite _ _ _ _ _ (engine_bounds_mk _ _ _ _ _ (Nat.le_of_ble_eq_true rfl) hone) ?_
    exact engine_bounds_mk _ _ _ _ _ (Nat.le_of_ble_eq_true rfl) hone

/-- TCP mode, after the send: the same bounds. -/
theorem await_tcp_bounds {σ : Type} (config : MiniModbusConfig σ) (pos tid rc rl : Nat)
    (buffer : Nat → Nat) (s : σ) (calls : List TransportCall) (hrl : rl ≤ 4) :
    engine_bounds pos calls (await_tcp config pos tid rc rl buffer s calls) := by
  have hone := receive_requests_one calls 0 9 (by omega)
  have htwo := receive_requests_two calls 0 9 9 (rl - 1) (by omega) (by omega)
  unfold await_tcp
  simp only []
  refine engine_bounds_ite _ _ _ _ _ (engine_bounds_receive _ _ _ _ rfl hone) ?_
  refine engine_bounds_ite _ _ _ _ _ (engine_bounds_mk _ _ _ _ _ (Nat.le_of_ble_eq_true rfl) hone) ?_
  refine engine_bounds_ite _ _ _ _ _ (engine_bounds_mk _ _ _ _ _ (Nat.le_of_ble_eq_true rfl) hone) ?_
  refine engine_bounds_ite _ _ _ _ _ (engine_bounds_mk _ _ _ _ _ (Nat.le_of_ble_eq_true rfl) hone) ?_
  refine engine_bounds_ite _ _ _ _ _ ?_ ?_
  · refine engine_bounds_ite _ _ _ _ _ (engine_bounds_mk _ _ _ _ _ (Nat.le_of_ble_eq_true rfl) htwo) ?_
    refine engine_bounds_ite _ _ _ _ _ (engine_bounds_mk _ _ _ _ _ (Nat.le_of_ble_eq_true rfl) htwo) ?_
    refine engine_bounds_ite _ _ _ _ _ (engine_bounds_mk _ _ _ _ _ (Nat.le_of_ble_eq_true rfl) htwo) ?_
    exact engine_bounds_mk _ _ _ _ _ (Nat.le_of_ble_eq_true rfl) htwo
  · refine engine_bounds_ite _ _ _ _ _ (engine_bounds_mk _ _ _ _ _ (Nat.le_of_ble_eq_true rfl) hone) ?_
    exact engine_bounds_mk _ _ _ _ _ (Nat.le_of_ble_eq_true rfl) hone

theorem engine_bounds_mono {σ : Type} (pos pos2 : Nat) (calls calls2 : List TransportCall)
    (t : MiniModbusContext σ × World σ × MiniModbusError_t) (h : engine_bounds pos calls t)
    (hpos : pos ≤ pos2) (hpos2 : 9 ≤ pos2)
    (hcalls : ∀ p ∈ receive_requests calls, p ∈ receive_requests calls2) :
    engine_bounds pos2 calls2 t := by
  refine ⟨h.1, le_trans h.2.1 (by simp only [max_le_iff]; omega), ?_⟩
  intro p hp
  rcases h.2.2 p hp with h3 | h3
  · exact Or.inl (hcalls p h3)
  · exact Or.inr h3

theorem send_ne_success : MiniModbusError_Send ≠ MiniModbusError_Success := by decide

/-- The engine as a whole, on the request bytes the public operations store:
the cursor is at most 9 on Success and at most 12 anyway, and every region
handed to `receive` ends at or before index 12. -/
theorem transaction_bounds {σ : Type} (config : MiniModbusConfig σ) (tid rc rl : Nat)
    (base : Nat → Nat) (data : List Nat) (w : World σ) (hrl : rl ≤ 4)
    (hlen : data.length = match config.mode with
      | MiniModbusMode.RTU => 6
      | MiniModbusMode.TCP => 12) :
    engine_bounds 12 w.calls (transaction config tid rc rl base data w) := by
  have hsend : ∀ frame : List Nat, ∀ p ∈ receive_requests (w.calls ++ [TransportCall.send frame]),
      p ∈ receive_requests w.calls := by
    intro frame p hp
    simpa [receive_requests, List.filterMap_append] using hp
  unfold transaction
  cases hm : config.mode
  · simp only [hm] at hlen
    simp only [transaction_rtu]
    split_ifs
    · exact ⟨fun h => absurd h send_ne_success, by simp only [hlen]; decide,
        fun p hp => Or.inl (hsend _ p hp)⟩
    · exact engine_bounds_mono _ _ _ _ _ (await_rtu_bounds config _ tid rc rl _ _ _ hrl)
        (by omega) (by omega) (hsend _)
  · simp only [hm] at hlen
    simp only [transaction_tcp]
    split_ifs
    · exact ⟨fun h => absurd h send_ne_success, by simp only [hlen]; decide,
        fun p hp => Or.inl (hsend _ p hp)⟩
    · exact engine_bounds_mono _ _ _ _ _ (await_tcp_bounds config _ tid rc rl _ _ _ hrl)
        (by omega) (by omega) (hsend _)

theorem decode_bounds {σ : Type} (op : Operation) (out : Nat) (calls : List TransportCall)
    (t : MiniModbusContext σ × World σ × MiniModbusError_t) (h : engine_bounds 12 calls t) :
    ∃ c, (op.decode out t).ctx = some c ∧ c.config = t.1.config ∧ c.buffer_position ≤ 13 := by
  obtain ⟨h1, h2, -⟩ := h
  have h3 : t.1.buffer_position ≤ 12 := by
    simpa using h2
  cases op with
  | read reg =>
    simp only [Operation.decode, read_decode]
    split_ifs with he hb
    · exact ⟨_, rfl, rfl, by omega⟩
    · have := h1 (not_not.mp he)
      exact ⟨_, rfl, rfl, by simp only []; omega⟩
    · have := h1 (not_not.mp he)
      exact ⟨_, rfl, rfl, by simp only []; omega⟩
  | write reg value =>
    simp only [Operation.decode, write_decode]
    split_ifs with he hb
    · exact ⟨_, rfl, rfl, by omega⟩
    · have := h1 (not_not.mp he)
      exact ⟨_, rfl, rfl, by simp only []; omega⟩
    · have := h1 (not_not.mp he)
      exact ⟨_, rfl, rfl, by simp only []; omega⟩

/-- Every operation on every context, whatever the transport does: it is
defined (no buffer access out of bounds), keeps the configuration, leaves the
cursor at most 13 and hands to `receive` only regions that end at or before
index 12. -/
theorem run_bounds {σ : Type} (op : Operation) (ctx : MiniModbusContext σ) (w : World σ)
    (out : Nat) :
    ∃ r c, op.run ctx w out = some r ∧ r.ctx = some c ∧ c.config = ctx.config ∧
      c.buffer_position ≤ 13 ∧
      ∀ p ∈ receive_requests r.world.calls, p ∈ receive_requests w.calls ∨ p.1 + p.2 ≤ 12 := by
  have hT := transaction_bounds ctx.config (request_tid ctx) op.function_code
    op.response_payload_length ctx.buffer
    (request_data ctx.config.mode (request_tid ctx) ctx.config.slave_address
      op.function_code op.first_field op.second_field) w (response_payload_length_bounds op).2
    (request_data_length _ _ _ _ _ _)
  obtain ⟨c, hc, hcfg, hpos⟩ := decode_bounds op out w.calls _ hT
  refine ⟨_, c, run_eq op ctx w out, hc, ?_, hpos, ?_⟩
  · rw [hcfg, transaction_config]
  · rw [decode_world]
    exact hT.2.2

/-- A sequence of operations on any context, whatever the transport does. -/
theorem run_sequence_bounds {σ : Type} (ops : List (Operation × Nat)) :
    ∀ (ctx : MiniModbusContext σ) (w : World σ),
      ∃ rs, run_sequence ctx w ops = some rs ∧ rs.length = ops.length ∧
        (∀ r ∈ rs, ∃ c, r.ctx = some c ∧ c.buffer_position ≤ 13) ∧
        (∀ r ∈ rs, ∀ p ∈ receive_requests r.world.calls,
          p ∈ receive_requests w.calls ∨ p.1 + p.2 ≤ 12) := by
  induction ops with
  | nil =>
    intro ctx w
    exact ⟨[], rfl, rfl, by simp, by simp⟩
  | cons x rest ih =>
    intro ctx w
    obtain ⟨op, out⟩ := x
    obtain ⟨r, c, hr, hc, -, hpos, hreq⟩ := run_bounds op ctx w out
    obtain ⟨rs, hrs, hlen, hcur, hrecv⟩ := ih c r.world
    refine ⟨r :: rs, ?_, by simp [hlen], ?_, ?_⟩
    · simp only [run_sequence, hr, hc, hrs]
    · intro r2 hr2
      rcases List.mem_cons.mp hr2 with h | h
      · rw [h]
        exact ⟨c, hc, hpos⟩
      · exact hcur r2 h
    · intro r2 hr2 p hp
      rcases List.mem_cons.mp hr2 with h | h
      · rw [h] at hp
        exact hreq p hp
      · rcases hrecv r2 h p hp with h3 | h3
        · exact hreq p h3
        · exact Or.inr h3

/-! ## The simulated single-register device -/

theorem device_reply_write (st : DeviceState) (t u a b c d : Nat) :
    device_reply st (tcp_frame t u [0x06, a, b, c, d]) =
      ⟨c * 256 + d, tcp_frame t u [0x06, a, b, c, d]⟩ := by
  have h : t / 256 * 256 + t % 256 = t := by omega
  simp [device_reply, tcp_frame, frame_u16, h]

theorem device_reply_read (st : DeviceState) (t u a b c d : Nat) :
    device_reply st (tcp_frame t u [0x03, a, b, c, d]) =
      ⟨st.register, tcp_frame t u [0x03, 0x02, st.register / 256, st.register % 256]⟩ := by
  have h : t / 256 * 256 + t % 256 = t := by omega
  simp [device_reply, tcp_frame, frame_u16, h]

theorem device_delivers_take (u : Nat) (st : DeviceState) (n : Nat) (hn : n ≤ st.pending.length) :
    Delivers (device_config u) st (st.pending.take n) ⟨st.register, st.pending.drop n⟩ := by
  simp only [Delivers, device_config, List.length_take, Nat.min_eq_left hn]

theorem device_delivers_all (u : Nat) (st : DeviceState) :
    Delivers (device_config u) st st.pending ⟨st.register, []⟩ := by
  simp only [Delivers, device_config, List.take_length, List.drop_length]

theorem read_u16_of_bytes (buffer : Nat → Nat) (i v : Nat) (hv : v < 65536)
    (h0 : buffer i = v / 256) (h1 : buffer (i + 1) = v % 256) : read_u16 buffer i = v := by
  rw [read_u16, h0, h1, be16 _ _ (by omega) (by omega)]
  omega

/-- A write through the simulated device succeeds, stores the value in the
device and sends exactly the write request. -/
theorem device_write_step (u : Nat) (ctx : MiniModbusContext DeviceState) (w : World DeviceState)
    (reg value : Nat) (hcfg : ctx.config = device_config u) (hu : u < 256)
    (hreg : reg < 65536) (hvalue : value < 65536) :
    ∃ r c, MiniModbus_WriteSingleRegister (some ctx) w reg value = some r ∧
      r.error = MiniModbusError_Success ∧ r.ctx = some c ∧ c.config = device_config u ∧
      c.current_tcp_transaction_identifier = next_transaction_identifier ctx ∧
      r.world.user_data.register = value ∧
      sent_frames r.world.calls = sent_frames w.calls ++
        [tcp_frame (next_transaction_identifier ctx) u
          [0x06, reg / 256, reg % 256, value / 256, value % 256]] := by
  obtain ⟨config, pos, tid, rc, rl, buf⟩ := ctx
  simp only at hcfg
  subst hcfg
  have ht : (tid + 1) % 65536 < 65536 := Nat.mod_lt _ (by decide)
  have hF : request_frame (⟨device_config u, pos, tid, rc, rl, buf⟩ : MiniModbusContext DeviceState)
      (Operation.write reg value) =
      tcp_frame ((tid + 1) % 65536) u [0x06, reg / 256, reg % 256, value / 256, value % 256] := rfl
  have hrun := run_of_accepts (Operation.write reg value)
    (⟨device_config u, pos, tid, rc, rl, buf⟩ : MiniModbusContext DeviceState) w 0
    (device_reply w.user_data (tcp_frame ((tid + 1) % 65536) u
      [0x06, reg / 256, reg % 256, value / 256, value % 256])) hu hreg hvalue rfl
  rw [hF, device_reply_write] at hrun
  obtain ⟨hE, hP, hS, hC, hT, hcalls⟩ := await_wire_response (device_config u)
    (tcp_frame ((tid + 1) % 65536) u [0x06, reg / 256, reg % 256, value / 256, value % 256]).length
    ((tid + 1) % 65536) 0x06 4
    (buffer_blit buf 0
      (tcp_frame ((tid + 1) % 65536) u [0x06, reg / 256, reg % 256, value / 256, value % 256]))
    ⟨value / 256 * 256 + value % 256,
      tcp_frame ((tid + 1) % 65536) u [0x06, reg / 256, reg % 256, value / 256, value % 256]⟩
    (w.calls ++ [TransportCall.send
      (tcp_frame ((tid + 1) % 65536) u [0x06, reg / 256, reg % 256, value / 256, value % 256])])
    ((tid + 1) % 65536) 0x06 [reg / 256, reg % 256, value / 256, value % 256]
    _ _ hu ht (fun _ => rfl) (by decide) (by decide) (by decide) rfl
    (by
      intro b hb
      simp only [List.mem_cons, List.mem_singleton, List.mem_nil_iff, or_false] at hb
      rcases hb with h | h | h | h <;> omega)
    (by decide)
    (device_delivers_take u _ 9 (by simp [tcp_frame]))
    (device_delivers_all u _)
  have hrun2 : MiniModbus_WriteSingleRegister
      (some ⟨device_config u, pos, tid, rc, rl, buf⟩) w reg value = _ := hrun
  simp only [request_tid, Operation.function_code, Operation.response_payload_length,
    show (device_config u).mode = MiniModbusMode.TCP from rfl, next_transaction_identifier,
    FUNCTION_WRITE_SINGLE_REGISTER] at hrun2
  generalize await _ _ _ _ _ _ _ _ = A at hE hP hS hC hT hcalls hrun2
  have hp0 := hP 0 (by simp)
  have hp1 := hP 1 (by simp)
  have hp2 := hP 2 (by simp)
  have hp3 := hP 3 (by simp)
  simp only [Nat.add_zero, List.getD_cons_zero, List.getD_cons_succ] at hp0 hp1 hp2 hp3
  have hr1 := read_u16_of_bytes A.1.buffer A.1.buffer_position reg hreg hp0 hp1
  have hr2 := read_u16_of_bytes A.1.buffer (A.1.buffer_position + 2) value hvalue hp2 hp3
  simp only [ne_eq, not_true_eq_false, if_false] at hE
  have hD : (Operation.write reg value).decode 0 A =
      ⟨MiniModbusError_Success,
        some { A.1 with buffer_position := A.1.buffer_position + 2 + 2 }, A.2.1, none⟩ := by
    simp only [Operation.decode, write_decode, hE, hr1, hr2, ne_eq, not_true_eq_false,
      if_false, or_self]
  rw [hD] at hrun2
  refine ⟨_, _, hrun2, rfl, rfl, hC, hT, ?_, ?_⟩
  · simp only [hS]
    omega
  · simp only [hcalls]
    simp [sent_frames, List.filterMap_append]
    rfl

/-- A read through the simulated device succeeds, stores the device's register
in the output cell and sends exactly the read request. -/
theorem device_read_step (u : Nat) (ctx : MiniModbusContext DeviceState) (w : World DeviceState)
    (reg out : Nat) (hcfg : ctx.config = device_config u) (hu : u < 256)
    (hreg : reg < 65536) (hstored : w.user_data.register < 65536) :
    ∃ r c, MiniModbus_ReadHoldingRegister (some ctx) w reg (some out) = some r ∧
      r.error = MiniModbusError_Success ∧ r.value = some w.user_data.register ∧
      r.ctx = some c ∧ c.config = device_config u ∧
      c.current_tcp_transaction_identifier = next_transaction_identifier ctx ∧
      r.world.user_data.register = w.user_data.register ∧
      sent_frames r.world.calls = sent_frames w.calls ++
        [tcp_frame (next_transaction_identifier ctx) u
          [0x03, reg / 256, reg % 256, 0x00, 0x01]] := by
  obtain ⟨config, pos, tid, rc, rl, buf⟩ := ctx
  simp only at hcfg
  subst hcfg
  have ht : (tid + 1) % 65536 < 65536 := Nat.mod_lt _ (by decide)
  have hF : request_frame (⟨device_config u, pos, tid, rc, rl, buf⟩ : MiniModbusContext DeviceState)
      (Operation.read reg) =
      tcp_frame ((tid + 1) % 65536) u [0x03, reg / 256, reg % 256, 0x00, 0x01] := rfl
  have hrun := run_of_accepts (Operation.read reg)
    (⟨device_config u, pos, tid, rc, rl, buf⟩ : MiniModbusContext DeviceState) w out
    (device_reply w.user_data (tcp_frame ((tid + 1) % 65536) u
      [0x03, reg / 256, reg % 256, 0x00, 0x01])) hu hreg (by simp [Operation.second_field]) rfl
  rw [hF, device_reply_read] at hrun
  obtain ⟨hE, hP, hS, hC, hT, hcalls⟩ := await_wire_response (device_config u)
    (tcp_frame ((tid + 1) % 65536) u [0x03, reg / 256, reg % 256, 0x00, 0x01]).length
    ((tid + 1) % 65536) 0x03 3
    (buffer_blit buf 0 (tcp_frame ((tid + 1) % 65536) u [0x03, reg / 256, reg % 256, 0x00, 0x01]))
    ⟨w.user_data.register, tcp_frame ((tid + 1) % 65536) u
      [0x03, 0x02, w.user_data.register / 256, w.user_data.register % 256]⟩
    (w.calls ++ [TransportCall.send
      (tcp_frame ((tid + 1) % 65536) u [0x03, reg / 256, reg % 256, 0x00, 0x01])])
    ((tid + 1) % 65536) 0x03 [0x02, w.user_data.register / 256, w.user_data.register % 256]
    _ _ hu ht (fun _ => rfl) (by decide) (by decide) (by decide) rfl
    (by
      intro b hb
      simp only [List.mem_cons, List.mem_singleton, List.mem_nil_iff, or_false] at hb
      rcases hb with h | h | h <;> omega)
    (by decide)
    (device_delivers_take u _ 9 (by simp [tcp_frame]))
    (device_delivers_all u _)
  have hrun2 : MiniModbus_ReadHoldingRegister
      (some ⟨device_config u, pos, tid, rc, rl, buf⟩) w reg (some out) = _ := hrun
  simp only [request_tid, Operation.function_code, Operation.response_payload_length,
    show (device_config u).mode = MiniModbusMode.TCP from rfl, next_transaction_identifier,
    FUNCTION_READ_HOLDING_REGISTER] at hrun2
  generalize await _ _ _ _ _ _ _ _ = A at hE hP hS hC hT hcalls hrun2
  have hp0 := hP 0 (by simp)
  have hp1 := hP 1 (by simp)
  have hp2 := hP 2 (by simp)
  simp only [Nat.add_zero, List.getD_cons_zero, List.getD_cons_succ] at hp0 hp1 hp2
  have hr1 := read_u16_of_bytes A.1.buffer (A.1.buffer_position + 1) w.user_data.register
    hstored hp1 hp2
  simp only [ne_eq, not_true_eq_false, if_false] at hE
  have hD : (Operation.read reg).decode out A =
      ⟨MiniModbusError_Success,
        some { A.1 with buffer_position := A.1.buffer_position + 1 + 2 }, A.2.1,
        some w.user_data.register⟩ := by
    simp only [Operation.decode, read_decode, hE, hr1, hp0, ne_eq, not_true_eq_false, if_false]
  rw [hD] at hrun2
  refine ⟨_, _, hrun2, rfl, rfl, rfl, hC, hT, ?_, ?_⟩
  · simp only [hS]
  · simp only [hcalls]
    simp [sent_frames, List.filterMap_append]
    rfl

/-! ## C11: short-write detection -/

/-- C11. Short-write detection: in either mode and for either operation, if the
transport's send returns anything other than the full length of the request
frame (a negative value or a different count), the operation returns the Send
error and the record of receive calls is what it was before the operation. -/
theorem short_write_detection {σ : Type} (op : Operation) (ctx : MiniModbusContext σ)
    (w : World σ) (out : Nat) (hu : ctx.config.slave_address < 256)
    (h1 : op.first_field < 65536) (h2 : op.second_field < 65536)
    (hshort : (ctx.config.send w.user_data (request_frame ctx op)).2 ≠
      ((request_frame ctx op).length : Int)) :
    ∃ r, op.run ctx w out = some r ∧ r.error = MiniModbusError_Send ∧
      receive_requests r.world.calls = receive_requests w.calls ∧
      sent_frames r.world.calls = sent_frames w.calls ++ [request_frame ctx op] := by
  refine ⟨_, run_frame_eq op ctx w out hu h1 h2, ?_⟩
  rw [if_pos hshort]
  refine ⟨?_, ?_, ?_⟩
  · rw [decode_error_of_ne _ _ _ (by simp)]
  · rw [decode_world]
    simp [receive_requests]
  · rw [decode_world]
    simp [sent_frames]

/-- Witness of C11: unit 1 in RTU mode reads register 0 through a transport
whose send reports 3 bytes. -/
theorem short_write_detection_witness :
    ∃ r, (Operation.read 0).run
        (fresh_context
          { stream_config MiniModbusMode.RTU 1 with send := fun s _ => (s, 3) } 0)
        ⟨[], []⟩ 0 = some r ∧ r.error = MiniModbusError_Send ∧
      receive_requests r.world.calls = receive_requests [] ∧
      sent_frames r.world.calls = sent_frames [] ++ [request_frame
        (fresh_context
          { stream_config MiniModbusMode.RTU 1 with send := fun s _ => (s, 3) } 0)
        (Operation.read 0)] :=
  short_write_detection (Operation.read 0)
    (fresh_context { stream_config MiniModbusMode.RTU 1 with send := fun s _ => (s, 3) } 0)
    ⟨[], []⟩ 0 (by decide) (by decide) (by decide) (by decide)


/-! ## C12: short-read detection -/

theorem header_length_cast (mode : MiniModbusMode) :
    header_length mode = (match mode with
      | MiniModbusMode.RTU => 5
      | MiniModbusMode.TCP => 9) := by
  cases mode <;> rfl

/-- C12. Short-read detection: in either mode and for either operation, after
the transport has taken the request, (1) if the first receive call reports any
count other than the header size, the operation returns the Receive error after
that single receive call; (2) if the header is delivered, passes the header
checks and its function byte has the high bit clear, and the second receive call
reports any count other than the remaining length, the operation returns the
Receive error after exactly those two receive calls. -/
theorem short_read_detection {σ : Type} (op : Operation) (ctx : MiniModbusContext σ)
    (w : World σ) (out : Nat) (s1 : σ) (hu : ctx.config.slave_address < 256)
    (h1 : op.first_field < 65536) (h2 : op.second_field < 65536)
    (hsend : Accepts ctx.config w.user_data (request_frame ctx op) s1) :
    ((ctx.config.receive s1 (header_length ctx.config.mode)).2.2 ≠
        (header_length ctx.config.mode : Int) →
      ∃ r, op.run ctx w out = some r ∧ r.error = MiniModbusError_Receive ∧
        receive_requests r.world.calls =
          receive_requests w.calls ++ [(0, header_length ctx.config.mode)]) ∧
    (∀ (hdr : List Nat) (s2 : σ), hdr.length = header_length ctx.config.mode →
      (∀ b ∈ hdr, b < 256) → Delivers ctx.config s1 hdr s2 →
      header_checks_pass ctx.config.mode (next_transaction_identifier ctx)
        ctx.config.slave_address hdr →
      function_byte ctx.config.mode hdr &&& ERROR_CODE_BITMASK = 0 →
      (ctx.config.receive s2 (op.response_payload_length - 1)).2.2 ≠
        ((op.response_payload_length - 1 : Nat) : Int) →
      ∃ r, op.run ctx w out = some r ∧ r.error = MiniModbusError_Receive ∧
        receive_requests r.world.calls =
          receive_requests w.calls ++ [(0, header_length ctx.config.mode),
            (header_length ctx.config.mode, op.response_payload_length - 1)]) := by
  have hrun := run_of_accepts op ctx w out s1 hu h1 h2 hsend
  obtain ⟨hrl1, hrl2⟩ := response_payload_length_bounds op
  have hcast : ((op.response_payload_length - 1 : Nat) : Int) =
      (op.response_payload_length : Int) - 1 := by omega
  generalize buffer_blit ctx.buffer 0 (request_frame ctx op) = b0 at hrun
  generalize (request_frame ctx op).length = pos at hrun
  constructor
  · intro hshort
    refine ⟨_, hrun, ?_⟩
    rw [decode_world]
    cases hm : ctx.config.mode
    · simp only [hm, header_length, Nat.cast_ofNat] at hshort
      simp only [await, hm, await_rtu, hshort, ne_eq, not_false_eq_true, if_true]
      refine ⟨decode_error_of_ne _ _ _ (by simp), ?_⟩
      simp [receive_requests, header_length]
    · simp only [hm, header_length, Nat.cast_ofNat] at hshort
      simp only [await, hm, await_tcp, hshort, ne_eq, not_false_eq_true, if_true]
      refine ⟨decode_error_of_ne _ _ _ (by simp), ?_⟩
      simp [receive_requests, header_length]
  · intro hdr s2 hlen hbytes hhdr hchecks hfb hshort
    refine ⟨_, hrun, ?_⟩
    rw [decode_world]
    rw [hcast] at hshort
    simp only [ERROR_CODE_BITMASK] at hfb
    cases hm : ctx.config.mode
    · simp only [hm, header_length] at hlen
      obtain ⟨a0, a1, a2, a3, a4, rfl⟩ := length_eq_five hdr hlen
      have ha0 : a0 < 256 := hbytes a0 (by simp)
      have ha1 : a1 < 256 := hbytes a1 (by simp)
      simp only [hm, header_checks_pass, function_byte, List.getD_cons_zero,
        List.getD_cons_succ] at hchecks hfb
      subst hchecks
      simp only [Delivers, List.length_cons, List.length_nil, Nat.zero_add, Nat.reduceAdd,
        Nat.cast_ofNat] at hhdr
      simp only [await, hm, await_rtu, hhdr, List.take, buffer_blit_apply, ne_eq,
        not_true_eq_false, if_false, List.length_cons, List.length_nil, Nat.zero_add,
        Nat.reduceAdd, Nat.zero_le, true_and, Nat.sub_zero, Nat.reduceLT, if_true,
        List.getD_cons_zero, List.getD_cons_succ, Nat.lt_add_one, Nat.mod_eq_of_lt ha0,
        Nat.mod_eq_of_lt ha1, hfb, hshort, not_false_eq_true]
      refine ⟨decode_error_of_ne _ _ _ (by simp), ?_⟩
      simp [receive_requests, header_length]
    · simp only [hm, header_length] at hlen
      obtain ⟨a0, a1, a2, a3, a4, a5, a6, a7, a8, rfl⟩ := length_eq_nine hdr hlen
      have ha0 : a0 < 256 := hbytes a0 (by simp)
      have ha1 : a1 < 256 := hbytes a1 (by simp)
      have ha2 : a2 < 256 := hbytes a2 (by simp)
      have ha3 : a3 < 256 := hbytes a3 (by simp)
      have ha6 : a6 < 256 := hbytes a6 (by simp)
      have ha7 : a7 < 256 := hbytes a7 (by simp)
      simp only [hm, header_checks_pass, function_byte, frame_u16, List.getD_cons_zero,
        List.getD_cons_succ, Nat.zero_add, Nat.reduceAdd] at hchecks hfb
      obtain ⟨hc1, hc2, hc3⟩ := hchecks
      subst hc3
      simp only [Delivers, List.length_cons, List.length_nil, Nat.zero_add, Nat.reduceAdd,
        Nat.cast_ofNat] at hhdr
      simp only [await, hm, await_tcp, hhdr, List.take, buffer_blit_apply, read_u16, ne_eq,
        not_true_eq_false, if_false, List.length_cons, List.length_nil, Nat.zero_add,
        Nat.reduceAdd, Nat.zero_le, true_and, Nat.sub_zero, Nat.reduceLT, if_true,
        List.getD_cons_zero, List.getD_cons_succ, Nat.lt_add_one, Nat.mod_eq_of_lt ha0,
        Nat.mod_eq_of_lt ha1, Nat.mod_eq_of_lt ha2, Nat.mod_eq_of_lt ha3, Nat.mod_eq_of_lt ha6,
        Nat.mod_eq_of_lt ha7, be16 a0 a1 ha0 ha1, be16 a2 a3 ha2 ha3, hc1, hc2, hfb, hshort,
        request_tid_tcp ctx hm, not_false_eq_true]
      refine ⟨decode_error_of_ne _ _ _ (by simp), ?_⟩
      simp [receive_requests, header_length]

/-- Witness of C12: unit 1 in RTU mode reads register 0; the stream transport
has nothing to deliver (first part), or only the five header bytes (second
part). -/
theorem short_read_detection_witness :
    (∃ r, (Operation.read 0).run (fresh_context (stream_config MiniModbusMode.RTU 1) 0)
        ⟨[], []⟩ 0 = some r ∧ r.error = MiniModbusError_Receive ∧
      receive_requests r.world.calls = receive_requests [] ++ [(0, 5)]) ∧
    (∃ r, (Operation.read 0).run (fresh_context (stream_config MiniModbusMode.RTU 1) 0)
        ⟨[0x01, 0x03, 0x02, 0x12, 0x34], []⟩ 0 = some r ∧
      r.error = MiniModbusError_Receive ∧
      receive_requests r.world.calls = receive_requests [] ++ [(0, 5), (5, 2)]) :=
  ⟨(short_read_detection (Operation.read 0)
      (fresh_context (stream_config MiniModbusMode.RTU 1) 0) ⟨[], []⟩ 0 []
      (by decide) (by decide) (by decide) rfl).1 (by decide),
    (short_read_detection (Operation.read 0)
      (fresh_context (stream_config MiniModbusMode.RTU 1) 0)
      ⟨[0x01, 0x03, 0x02, 0x12, 0x34], []⟩ 0 [0x01, 0x03, 0x02, 0x12, 0x34]
      (by decide) (by decide) (by decide) rfl).2 [0x01, 0x03, 0x02, 0x12, 0x34] [] rfl
      (by decide) rfl rfl (by decide) (by decide)⟩

/-! ## C13: the order of the header checks -/

/-- C13. Header validation order: in either mode and for either operation,
after the transport has taken the request and delivered a header of the
requested size, in TCP mode the operation returns
ResponseInvalidTransactionIdentifier if the header's transaction identifier is
not the one just sent, otherwise ResponseInvalidProtocolIdentifier if its
protocol identifier is not 0, otherwise ResponseInvalidSlaveAddress if its unit
address is not the configured one; in RTU mode it returns
ResponseInvalidSlaveAddress if the unit address is not the configured one. The
other bytes of the header are arbitrary. -/
theorem header_validation_order {σ : Type} (op : Operation) (ctx : MiniModbusContext σ)
    (w : World σ) (out : Nat) (s1 s2 : σ) (hdr : List Nat)
    (hu : ctx.config.slave_address < 256)
    (h1 : op.first_field < 65536) (h2 : op.second_field < 65536)
    (hsend : Accepts ctx.config w.user_data (request_frame ctx op) s1)
    (hlen : hdr.length = header_length ctx.config.mode) (hbytes : ∀ b ∈ hdr, b < 256)
    (hhdr : Delivers ctx.config s1 hdr s2) :
    ∃ r, op.run ctx w out = some r ∧
      match ctx.config.mode with
      | MiniModbusMode.TCP =>
        (frame_u16 hdr 0 ≠ next_transaction_identifier ctx →
          r.error = MiniModbusError_ResponseInvalidTransactionIdentifier) ∧
        (frame_u16 hdr 0 = next_transaction_identifier ctx → frame_u16 hdr 2 ≠ 0 →
          r.error = MiniModbusError_ResponseInvalidProtocolIdentifier) ∧
        (frame_u16 hdr 0 = next_transaction_identifier ctx → frame_u16 hdr 2 = 0 →
          hdr.getD 6 0 ≠ ctx.config.slave_address →
          r.error = MiniModbusError_ResponseInvalidSlaveAddress)
      | MiniModbusMode.RTU =>
        (hdr.getD 0 0 ≠ ctx.config.slave_address →
          r.error = MiniModbusError_ResponseInvalidSlaveAddress) := by
  have hrun := run_of_accepts op ctx w out s1 hu h1 h2 hsend
  generalize buffer_blit ctx.buffer 0 (request_frame ctx op) = b0 at hrun
  generalize (request_frame ctx op).length = pos at hrun
  refine ⟨_, hrun, ?_⟩
  cases hm : ctx.config.mode
  · simp only [hm, header_length] at hlen
    obtain ⟨a0, a1, a2, a3, a4, rfl⟩ := length_eq_five hdr hlen
    have ha0 : a0 < 256 := hbytes a0 (by simp)
    simp only [Delivers, List.length_cons, List.length_nil, Nat.zero_add, Nat.reduceAdd,
      Nat.cast_ofNat] at hhdr
    simp only [List.getD_cons_zero]
    intro hne
    rw [decode_error_of_ne]
    · simp only [await, hm, await_rtu, hhdr, List.take, buffer_blit_apply, ne_eq,
        not_true_eq_false, if_false, List.length_cons, List.length_nil, Nat.zero_add,
        Nat.reduceAdd, Nat.zero_le, true_and, Nat.sub_zero, Nat.reduceLT, if_true,
        List.getD_cons_zero, Nat.mod_eq_of_lt ha0, hne, not_false_eq_true]
    · simp only [await, hm, await_rtu, hhdr, List.take, buffer_blit_apply, ne_eq,
        not_true_eq_false, if_false, List.length_cons, List.length_nil, Nat.zero_add,
        Nat.reduceAdd, Nat.zero_le, true_and, Nat.sub_zero, Nat.reduceLT, if_true,
        List.getD_cons_zero, Nat.mod_eq_of_lt ha0, hne, not_false_eq_true]
      decide
  · simp only [hm, header_length] at hlen
    obtain ⟨a0, a1, a2, a3, a4, a5, a6, a7, a8, rfl⟩ := length_eq_nine hdr hlen
    have ha0 : a0 < 256 := hbytes a0 (by simp)
    have ha1 : a1 < 256 := hbytes a1 (by simp)
    have ha2 : a2 < 256 := hbytes a2 (by simp)
    have ha3 : a3 < 256 := hbytes a3 (by simp)
    have ha6 : a6 < 256 := hbytes a6 (by simp)
    simp only [Delivers, List.length_cons, List.length_nil, Nat.zero_add, Nat.reduceAdd,
      Nat.cast_ofNat] at hhdr
    simp only [frame_u16, List.getD_cons_zero, List.getD_cons_succ, Nat.zero_add, Nat.reduceAdd]
    refine ⟨?_, ?_, ?_⟩
    · intro hne
      rw [decode_error_of_ne]
      · simp only [await, hm, await_tcp, hhdr, List.take, buffer_blit_apply, read_u16, ne_eq,
          not_true_eq_false, if_false, List.length_cons, List.length_nil, Nat.zero_add,
          Nat.reduceAdd, Nat.zero_le, true_and, Nat.sub_zero, Nat.reduceLT, if_true,
          List.getD_cons_zero, List.getD_cons_succ, Nat.lt_add_one, Nat.mod_eq_of_lt ha0,
          Nat.mod_eq_of_lt ha1, be16 a0 a1 ha0 ha1, request_tid_tcp ctx hm, hne,
          not_false_eq_true]
      · simp only [await, hm, await_tcp, hhdr, List.take, buffer_blit_apply, read_u16, ne_eq,
          not_true_eq_false, if_false, List.length_cons, List.length_nil, Nat.zero_add,
          Nat.reduceAdd, Nat.zero_le, true_and, Nat.sub_zero, Nat.reduceLT, if_true,
          List.getD_cons_zero, List.getD_cons_succ, Nat.lt_add_one, Nat.mod_eq_of_lt ha0,
          Nat.mod_eq_of_lt ha1, be16 a0 a1 ha0 ha1, request_tid_tcp ctx hm, hne,
          not_false_eq_true]
        decide
    · intro he hne
      rw [decode_error_of_ne]
      · simp only [await, hm, await_tcp, hhdr, List.take, buffer_blit_apply, read_u16, ne_eq,
          not_true_eq_false, if_false, List.length_cons, List.length_nil, Nat.zero_add,
          Nat.reduceAdd, Nat.zero_le, true_and, Nat.sub_zero, Nat.reduceLT, if_true,
          List.getD_cons_zero, List.getD_cons_succ, Nat.lt_add_one, Nat.mod_eq_of_lt ha0,
          Nat.mod_eq_of_lt ha1, Nat.mod_eq_of_lt ha2, Nat.mod_eq_of_lt ha3, be16 a0 a1 ha0 ha1,
          be16 a2 a3 ha2 ha3, request_tid_tcp ctx hm, he, hne, not_false_eq_true]
      · simp only [await, hm, await_tcp, hhdr, List.take, buffer_blit_apply, read_u16, ne_eq,
          not_true_eq_false, if_false, List.length_cons, List.length_nil, Nat.zero_add,
          Nat.reduceAdd, Nat.zero_le, true_and, Nat.sub_zero, Nat.reduceLT, if_true,
          List.getD_cons_zero, List.getD_cons_succ, Nat.lt_add_one, Nat.mod_eq_of_lt ha0,
          Nat.mod_eq_of_lt ha1, Nat.mod_eq_of_lt ha2, Nat.mod_eq_of_lt ha3, be16 a0 a1 ha0 ha1,
          be16 a2 a3 ha2 ha3, request_tid_tcp ctx hm, he, hne, not_false_eq_true]
        decide
    · intro he hz hne
      rw [decode_error_of_ne]
      · simp only [await, hm, await_tcp, hhdr, List.take, buffer_blit_apply, read_u16, ne_eq,
          not_true_eq_false, if_false, List.length_cons, List.length_nil, Nat.zero_add,
          Nat.reduceAdd, Nat.zero_le, true_and, Nat.sub_zero, Nat.reduceLT, if_true,
          List.getD_cons_zero, List.getD_cons_succ, Nat.lt_add_one, Nat.mod_eq_of_lt ha0,
          Nat.mod_eq_of_lt ha1, Nat.mod_eq_of_lt ha2, Nat.mod_eq_of_lt ha3, Nat.mod_eq_of_lt ha6,
          be16 a0 a1 ha0 ha1, be16 a2 a3 ha2 ha3, request_tid_tcp ctx hm, he, hz, hne,
          not_false_eq_true]
      · simp only [await, hm, await_tcp, hhdr, List.take, buffer_blit_apply, read_u16, ne_eq,
          not_true_eq_false, if_false, List.length_cons, List.length_nil, Nat.zero_add,
          Nat.reduceAdd, Nat.zero_le, true_and, Nat.sub_zero, Nat.reduceLT, if_true,
          List.getD_cons_zero, List.getD_cons_succ, Nat.lt_add_one, Nat.mod_eq_of_lt ha0,
          Nat.mod_eq_of_lt ha1, Nat.mod_eq_of_lt ha2, Nat.mod_eq_of_lt ha3, Nat.mod_eq_of_lt ha6,
          be16 a0 a1 ha0 ha1, be16 a2 a3 ha2 ha3, request_tid_tcp ctx hm, he, hz, hne,
          not_false_eq_true]
        decide

/-- Witness of C13: unit 1 in TCP mode with the counter at 7 reads register 2;
the header delivered has transaction identifier 9 instead of 8 (and a wrong
protocol identifier and unit address as well). -/
theorem header_validation_order_witness :
    ∃ r, (Operation.read 2).run (fresh_context (stream_config MiniModbusMode.TCP 1) 7)
        ⟨[0x00, 0x09, 0x00, 0x01, 0x00, 0x05, 0x02, 0x03, 0x02], []⟩ 0 = some r ∧
      r.error = MiniModbusError_ResponseInvalidTransactionIdentifier := by
  obtain ⟨r, hr, h⟩ := header_validation_order (Operation.read 2)
    (fresh_context (stream_config MiniModbusMode.TCP 1) 7)
    ⟨[0x00, 0x09, 0x00, 0x01, 0x00, 0x05, 0x02, 0x03, 0x02], []⟩ 0
    [0x00, 0x09, 0x00, 0x01, 0x00, 0x05, 0x02, 0x03, 0x02] []
    [0x00, 0x09, 0x00, 0x01, 0x00, 0x05, 0x02, 0x03, 0x02]
    (by decide) (by decide) (by decide) rfl rfl (by decide) rfl
  exact ⟨r, hr, h.1 (by decide)⟩

/-! ## C14: function-code mismatch -/

/-- C14. Function-code mismatch: in either mode and for either operation, when
the transport takes the request and delivers a well-formed response (valid
header, checksum in RTU, declared length in TCP) whose function byte `fb` has
the high bit clear and differs from the function code of the request, the
operation returns ResponseInvalidCode. -/
theorem function_code_mismatch {σ : Type} (op : Operation) (ctx : MiniModbusContext σ)
    (w : World σ) (out fb : Nat) (payload : List Nat) (s1 s2 s3 : σ)
    (hu : ctx.config.slave_address < 256)
    (h1 : op.first_field < 65536) (h2 : op.second_field < 65536)
    (hfb : fb < 256) (hpl : payload.length = op.response_payload_length)
    (hbytes : ∀ b ∈ payload, b < 256)
    (hsend : Accepts ctx.config w.user_data (request_frame ctx op) s1)
    (hhdr : Delivers ctx.config s1
      ((wire_frame ctx.config.mode (next_transaction_identifier ctx) ctx.config.slave_address
        (fb :: payload)).take (header_length ctx.config.mode)) s2)
    (hbody : Delivers ctx.config s2
      ((wire_frame ctx.config.mode (next_transaction_identifier ctx) ctx.config.slave_address
        (fb :: payload)).drop (header_length ctx.config.mode)) s3)
    (hclear : fb &&& ERROR_CODE_BITMASK = 0) (hne : fb ≠ op.function_code) :
    ∃ r, op.run ctx w out = some r ∧ r.error = MiniModbusError_ResponseInvalidCode := by
  refine ⟨_, run_of_accepts op ctx w out s1 hu h1 h2 hsend, ?_⟩
  have hb := response_payload_length_bounds op
  have hE := (await_wire_response ctx.config (request_frame ctx op).length (request_tid ctx)
    op.function_code op.response_payload_length
    (buffer_blit ctx.buffer 0 (request_frame ctx op)) s1
    (w.calls ++ [TransportCall.send (request_frame ctx op)])
    (next_transaction_identifier ctx) fb payload s2 s3 hu (next_transaction_identifier_lt ctx)
    (request_tid_tcp ctx) hfb (by omega) hb.2 hpl hbytes hclear hhdr hbody).1
  rw [if_pos hne] at hE
  rw [decode_error_of_ne _ _ _ (by rw [hE]; decide), hE]

/-- Witness of C14: unit 1 in RTU mode reads register 0 and the device answers
with a well-formed frame whose function byte is 0x04. -/
theorem function_code_mismatch_witness :
    ∃ r, (Operation.read 0).run (fresh_context (stream_config MiniModbusMode.RTU 1) 0)
        ⟨rtu_frame 1 [0x04, 0x02, 0x12, 0x34], []⟩ 0 = some r ∧
      r.error = MiniModbusError_ResponseInvalidCode :=
  function_code_mismatch (Operation.read 0)
    (fresh_context (stream_config MiniModbusMode.RTU 1) 0)
    ⟨rtu_frame 1 [0x04, 0x02, 0x12, 0x34], []⟩ 0 0x04 [0x02, 0x12, 0x34]
    (rtu_frame 1 [0x04, 0x02, 0x12, 0x34]) ((rtu_frame 1 [0x04, 0x02, 0x12, 0x34]).drop 5) []
    (by decide) (by decide) (by decide) (by decide) rfl (by decide) rfl rfl rfl (by decide)
    (by decide)

/-! ## C15: the byte count of a read response -/

/-- C15. Read byte-count check: in either mode, when the transport takes the read
request and delivers a well-formed response with function code 0x03 whose
byte-count field `b` (any byte) is not 2, `MiniModbus_ReadHoldingRegister`
returns ResponseInvalidLength and leaves the output cell as it was. -/
theorem read_byte_count_check {σ : Type} (ctx : MiniModbusContext σ) (w : World σ)
    (reg out b x y : Nat) (s1 s2 s3 : σ)
    (hu : ctx.config.slave_address < 256) (hreg : reg < 65536)
    (hb : b < 256) (hx : x < 256) (hy : y < 256)
    (hsend : Accepts ctx.config w.user_data (request_frame ctx (Operation.read reg)) s1)
    (hhdr : Delivers ctx.config s1
      ((wire_frame ctx.config.mode (next_transaction_identifier ctx) ctx.config.slave_address
        [0x03, b, x, y]).take (header_length ctx.config.mode)) s2)
    (hbody : Delivers ctx.config s2
      ((wire_frame ctx.config.mode (next_transaction_identifier ctx) ctx.config.slave_address
        [0x03, b, x, y]).drop (header_length ctx.config.mode)) s3)
    (hne : b ≠ 2) :
    ∃ r, MiniModbus_ReadHoldingRegister (some ctx) w reg (some out) = some r ∧
      r.error = MiniModbusError_ResponseInvalidLength ∧ r.value = some out := by
  refine ⟨_, run_of_accepts (Operation.read reg) ctx w out s1 hu hreg (by simp [Operation.second_field]) hsend, ?_⟩
  obtain ⟨hE, hP, -⟩ := await_wire_response ctx.config
    (request_frame ctx (Operation.read reg)).length (request_tid ctx)
    (Operation.read reg).function_code (Operation.read reg).response_payload_length
    (buffer_blit ctx.buffer 0 (request_frame ctx (Operation.read reg))) s1
    (w.calls ++ [TransportCall.send (request_frame ctx (Operation.read reg))])
    (next_transaction_identifier ctx) 0x03 [b, x, y] s2 s3 hu
    (next_transaction_identifier_lt ctx) (request_tid_tcp ctx) (by decide)
    (by simp [Operation.response_payload_length]) (by simp [Operation.response_payload_length])
    rfl
    (by
      intro c hc
      simp only [List.mem_cons, List.mem_singleton, List.mem_nil_iff, or_false] at hc
      rcases hc with h | h | h <;> omega)
    (by decide) hhdr hbody
  have hP0 := hP 0 (by simp)
  generalize await _ _ _ _ _ _ _ _ = A at hE hP0 ⊢
  simp only [Nat.add_zero, List.getD_cons_zero] at hP0
  simp only [Operation.function_code, ne_eq, not_true_eq_false, if_false] at hE
  simp only [Operation.decode, read_decode, hE, ne_eq, not_true_eq_false, if_false, hP0, hne,
    not_false_eq_true, if_true, and_self]

/-- Witness of C15: unit 1 in TCP mode with the counter at 7 reads register 2
and the device answers with byte count 4. -/
theorem read_byte_count_check_witness :
    ∃ r, MiniModbus_ReadHoldingRegister
        (some (fresh_context (stream_config MiniModbusMode.TCP 1) 7))
        ⟨tcp_frame 8 1 [0x03, 0x04, 0x12, 0x34], []⟩ 2 (some 0) = some r ∧
      r.error = MiniModbusError_ResponseInvalidLength ∧ r.value = some 0 :=
  read_byte_count_check (fresh_context (stream_config MiniModbusMode.TCP 1) 7)
    ⟨tcp_frame 8 1 [0x03, 0x04, 0x12, 0x34], []⟩ 2 0 0x04 0x12 0x34
    (tcp_frame 8 1 [0x03, 0x04, 0x12, 0x34]) ((tcp_frame 8 1 [0x03, 0x04, 0x12, 0x34]).drop 9) []
    (by decide) (by decide) (by decide) (by decide) (by decide) rfl rfl rfl (by decide)

/-! ## C16: absent arguments -/

/-- C16. Absent arguments: `MiniModbus_Init` returns InvalidArgument and leaves
the context alone when the context or the configuration is absent, and returns
Success when both are present; `MiniModbus_ReadHoldingRegister` returns
InvalidArgument when the context or the output cell is absent and
`MiniModbus_WriteSingleRegister` when the context is absent, and then the
context, the world (no transport call) and the output cell are unchanged. -/
theorem absent_arguments {σ : Type} :
    (∀ config : Option (MiniModbusConfig σ),
      MiniModbus_Init none config = (MiniModbusError_InvalidArgument, none)) ∧
    (∀ ctx : Option (MiniModbusContext σ),
      MiniModbus_Init ctx none = (MiniModbusError_InvalidArgument, ctx)) ∧
    (∀ (ctx : MiniModbusContext σ) (config : MiniModbusConfig σ),
      (MiniModbus_Init (some ctx) (some config)).1 = MiniModbusError_Success) ∧
    (∀ (w : World σ) (reg : Nat) (value : Option Nat),
      MiniModbus_ReadHoldingRegister none w reg value =
        some ⟨MiniModbusError_InvalidArgument, none, w, value⟩) ∧
    (∀ (ctx : Option (MiniModbusContext σ)) (w : World σ) (reg : Nat),
      MiniModbus_ReadHoldingRegister ctx w reg none =
        some ⟨MiniModbusError_InvalidArgument, ctx, w, none⟩) ∧
    (∀ (w : World σ) (reg value : Nat),
      MiniModbus_WriteSingleRegister none w reg value =
        some ⟨MiniModbusError_InvalidArgument, none, w, none⟩) := by
  refine ⟨?_, ?_, ?_, ?_, ?_, ?_⟩
  · intro config
    rfl
  · intro ctx
    cases ctx <;> rfl
  · intro ctx config
    rfl
  · intro w reg value
    rfl
  · intro ctx w reg
    cases ctx <;> rfl
  · intro w reg value
    rfl

/-! ## C17: no partial success on a read -/

/-- C17. No partial success on read: for every context and output cell, present
or absent, and every transport, `MiniModbus_ReadHoldingRegister` returns, and
whenever the code it returns is not Success the output cell holds what it held
before the call. -/
theorem read_failure_keeps_output {σ : Type} (ctx : Option (MiniModbusContext σ))
    (w : World σ) (reg : Nat) (value : Option Nat) :
    ∃ r, MiniModbus_ReadHoldingRegister ctx w reg value = some r ∧
      (r.error ≠ MiniModbusError_Success → r.value = value) := by
  cases ctx with
  | none => exact ⟨_, rfl, fun _ => rfl⟩
  | some ctx =>
    cases value with
    | none => exact ⟨_, rfl, fun _ => rfl⟩
    | some out =>
      refine ⟨_, read_eq ctx w reg out, ?_⟩
      unfold read_decode
      split_ifs with ha hb
      · exact fun _ => rfl
      · exact fun _ => rfl
      · intro h
        exact absurd rfl h

/-! ## C18: the end-to-end scenario of example_tcp.c -/

/-- C18, counterexample: against the simulated device, on a TCP context whose
counter is 65534, the write of 42 to register 0 and the read of register 0 both
return Success and the read stores 42, but the two requests carry the
identifiers 65535 and 0: the second is not the first plus 1. -/
theorem end_to_end_counterexample :
    (MiniModbus_WriteSingleRegister (some (fresh_context (device_config 1) 65534))
        ⟨⟨0, []⟩, []⟩ 0 42).bind
      (fun r1 => (MiniModbus_ReadHoldingRegister r1.ctx r1.world 0 (some 0)).map
        (fun r2 => (r1.error, r2.error, r2.value,
          (sent_frames r2.world.calls).map (fun frame => frame_u16 frame 0)))) =
        some (MiniModbusError_Success, MiniModbusError_Success, some 42, [65535, 0]) ∧
    (0 : Nat) ≠ 65535 + 1 := by
  constructor
  · rfl
  · decide

/-- C18, amended. In TCP mode, on a context whose transaction counter holds any
16-bit value, against the simulated single-register device (a write request is
answered with its echo, a read request with the stored value, the transaction
identifier copied from the request): `MiniModbus_WriteSingleRegister(0, 42)`
followed by `MiniModbus_ReadHoldingRegister(0)` both return Success, the read
stores 42, exactly two requests are sent, and the transaction identifier of the
second request is the first request's identifier plus 1 modulo 2^16: plus 1
exactly unless the counter was 65534, where the identifiers are 65535 and 0. -/
theorem end_to_end_scenario (u : Nat) (ctx : MiniModbusContext DeviceState)
    (w : World DeviceState) (out : Nat) (hcfg : ctx.config = device_config u) (hu : u < 256)
    (hc : ctx.current_tcp_transaction_identifier < 65536) :
    ∃ r1 c1 r2 f1 f2, MiniModbus_WriteSingleRegister (some ctx) w 0 42 = some r1 ∧
      r1.error = MiniModbusError_Success ∧ r1.ctx = some c1 ∧
      MiniModbus_ReadHoldingRegister (some c1) r1.world 0 (some out) = some r2 ∧
      r2.error = MiniModbusError_Success ∧ r2.value = some 42 ∧
      sent_frames r2.world.calls = sent_frames w.calls ++ [f1, f2] ∧
      frame_u16 f1 0 = (ctx.current_tcp_transaction_identifier + 1) % 65536 ∧
      frame_u16 f2 0 = (frame_u16 f1 0 + 1) % 65536 ∧
      (ctx.current_tcp_transaction_identifier ≠ 65534 → frame_u16 f2 0 = frame_u16 f1 0 + 1) := by
  obtain ⟨r1, c1, hr1, he1, hc1, hcfg1, htid1, hreg1, hsent1⟩ :=
    device_write_step u ctx w 0 42 hcfg hu (by decide) (by decide)
  obtain ⟨r2, c2, hr2, he2, hv2, -, -, -, -, hsent2⟩ :=
    device_read_step u c1 r1.world 0 out hcfg1 hu (by decide) (by rw [hreg1]; decide)
  have hf1 : frame_u16 (tcp_frame (next_transaction_identifier ctx) u
      [0x06, 0 / 256, 0 % 256, 42 / 256, 42 % 256]) 0 = next_transaction_identifier ctx :=
    frame_u16_tcp _ _ _ _ _ _
  have hf2 : frame_u16 (tcp_frame (next_transaction_identifier c1) u
      [0x03, 0 / 256, 0 % 256, 0x00, 0x01]) 0 = next_transaction_identifier c1 :=
    frame_u16_tcp _ _ _ _ _ _
  have hn1 : next_transaction_identifier ctx =
      (ctx.current_tcp_transaction_identifier + 1) % 65536 := rfl
  have hn2 : next_transaction_identifier c1 =
      ((ctx.current_tcp_transaction_identifier + 1) % 65536 + 1) % 65536 := by
    rw [next_transaction_identifier, htid1, hn1]
  refine ⟨r1, c1, r2,
    tcp_frame (next_transaction_identifier ctx) u [0x06, 0 / 256, 0 % 256, 42 / 256, 42 % 256],
    tcp_frame (next_transaction_identifier c1) u [0x03, 0 / 256, 0 % 256, 0x00, 0x01],
    hr1, he1, hc1, hr2, he2, by rw [hv2, hreg1], ?_, hf1.trans hn1, ?_, ?_⟩
  · rw [hsent2, hsent1, List.append_assoc]
    rfl
  · rw [hf2, hf1, hn2, hn1]
  · intro hne
    rw [hf2, hf1, hn2, hn1]
    omega

/-- Witness of C18 as amended: unit 1, a freshly initialised context with the
counter at 7, the device's register holding 0. -/
theorem end_to_end_scenario_witness :
    ∃ r1 c1 r2 f1 f2, MiniModbus_WriteSingleRegister
        (some (fresh_context (device_config 1) 7)) ⟨⟨0, []⟩, []⟩ 0 42 = some r1 ∧
      r1.error = MiniModbusError_Success ∧ r1.ctx = some c1 ∧
      MiniModbus_ReadHoldingRegister (some c1) r1.world 0 (some 0) = some r2 ∧
      r2.error = MiniModbusError_Success ∧ r2.value = some 42 ∧
      sent_frames r2.world.calls = sent_frames [] ++ [f1, f2] ∧
      frame_u16 f1 0 = (7 + 1) % 65536 ∧
      frame_u16 f2 0 = (frame_u16 f1 0 + 1) % 65536 ∧
      ((7 : Nat) ≠ 65534 → frame_u16 f2 0 = frame_u16 f1 0 + 1) :=
  end_to_end_scenario 1 (fresh_context (device_config 1) 7) ⟨⟨0, []⟩, []⟩ 0 rfl (by decide)
    (by decide)

/-! ## C19: buffer bounds -/

/-- C19. Buffer bounds: for every configuration (either mode, any transport
callbacks), on the context `MiniModbus_Init` produces, every sequence of read and
write operations is defined, whatever the transport answers: every buffer access
of the operations is checked against the capacity of 256 and an access outside
it would make the run undefined. After each operation the cursor is at most 13,
below the capacity, and every region a receive call hands to the transport ends
inside the buffer. -/
theorem buffer_bounds {σ : Type} (seed : MiniModbusContext σ) (config : MiniModbusConfig σ)
    (w : World σ) (ops : List (Operation × Nat)) :
    ∃ ctx rs, MiniModbus_Init (some seed) (some config) = (MiniModbusError_Success, some ctx) ∧
      run_sequence ctx w ops = some rs ∧ rs.length = ops.length ∧
      (∀ r ∈ rs, ∃ c, r.ctx = some c ∧ c.buffer_position ≤ 13 ∧
        c.buffer_position < MINIMODBUS_BUFFER_SIZE) ∧
      (∀ r ∈ rs, ∀ p ∈ receive_requests r.world.calls,
        p ∈ receive_requests w.calls ∨ p.1 + p.2 ≤ MINIMODBUS_BUFFER_SIZE) := by
  obtain ⟨rs, hrs, hlen, hcur, hrecv⟩ := run_sequence_bounds ops
    (⟨config, 0, 0, 0, 0, fun _ => 0⟩ : MiniModbusContext σ) w
  refine ⟨_, rs, rfl, hrs, hlen, ?_, ?_⟩
  · intro r hr
    obtain ⟨c, hc, hpos⟩ := hcur r hr
    exact ⟨c, hc, hpos, by simp only [MINIMODBUS_BUFFER_SIZE]; omega⟩
  · intro r hr p hp
    rcases hrecv r hr p hp with h | h
    · exact Or.inl h
    · exact Or.inr (by simp only [MINIMODBUS_BUFFER_SIZE]; omega)

/-! ## C20: an RTU response whose checksum does not match -/

/-- C20. RTU checksum mismatch whatever the content: in RTU mode, for either
operation, when the transport takes the request and delivers a complete response
`resp` (five bytes when its function byte has the high bit set, otherwise the
size of the normal response) whose unit address is the configured one and whose
two trailing bytes are not the checksum, low byte first, of the bytes before
them, the operation returns InvalidCrc: the function byte and the payload are
arbitrary, so this covers exception responses (whose exception code is then not
returned) and function bytes that do not match the request. -/
theorem rtu_checksum_mismatch {σ : Type} (op : Operation) (ctx : MiniModbusContext σ)
    (w : World σ) (out : Nat) (resp : List Nat) (s1 s2 s3 : σ)
    (hm : ctx.config.mode = MiniModbusMode.RTU)
    (hu : ctx.config.slave_address < 256)
    (h1 : op.first_field < 65536) (h2 : op.second_field < 65536)
    (hlen : resp.length =
      if resp.getD 1 0 &&& ERROR_CODE_BITMASK = 0 then 4 + op.response_payload_length else 5)
    (hbytes : ∀ b ∈ resp, b < 256)
    (hsend : Accepts ctx.config w.user_data (request_frame ctx op) s1)
    (hhdr : Delivers ctx.config s1 (resp.take 5) s2)
    (hbody : resp.getD 1 0 &&& ERROR_CODE_BITMASK = 0 → Delivers ctx.config s2 (resp.drop 5) s3)
    (haddr : resp.getD 0 0 = ctx.config.slave_address)
    (hcrc : ¬ (resp.getD (resp.length - 2) 0 =
          MiniModbus_Crc16 (resp.take (resp.length - 2)) % 256 ∧
        resp.getD (resp.length - 1) 0 =
          MiniModbus_Crc16 (resp.take (resp.length - 2)) / 256)) :
    ∃ r, op.run ctx w out = some r ∧ r.error = MiniModbusError_InvalidCrc := by
  refine ⟨_, run_of_accepts op ctx w out s1 hu h1 h2 hsend, ?_⟩
  have hb := response_payload_length_bounds op
  have hcrc2 := not_and_or.mp hcrc
  simp only [ERROR_CODE_BITMASK] at hlen hbody
  have hE : (await ctx.config (request_frame ctx op).length (request_tid ctx) op.function_code
      op.response_payload_length (buffer_blit ctx.buffer 0 (request_frame ctx op)) s1
      (w.calls ++ [TransportCall.send (request_frame ctx op)])).2.2 =
      MiniModbusError_InvalidCrc := by
    by_cases hx : resp.getD 1 0 &&& 128 = 0
    · rw [if_pos hx] at hlen
      have hlen2 : resp.length = 5 + (op.response_payload_length - 1) := by omega
      have hbody := hbody hx
      have h5 : (resp.take 5).length = 5 := by rw [List.length_take, hlen]; omega
      have hd : (resp.drop 5).length = op.response_payload_length - 1 := by
        rw [List.length_drop, hlen]; omega
      simp only [Delivers, h5, hd, Nat.cast_ofNat] at hhdr hbody
      rw [hlen2] at hcrc2
      simp only [await, hm]
      rw [await_rtu_received ctx.config _ _ _ _ _ s1 _ resp s2 s3 (by omega) hlen2 hbytes hhdr
        hbody haddr hx, if_pos hcrc2]
    · rw [if_neg hx] at hlen
      have h5 : resp.take 5 = resp := List.take_of_length_le (by omega)
      rw [h5] at hhdr
      simp only [Delivers, hlen, Nat.cast_ofNat] at hhdr
      rw [hlen] at hcrc2
      simp only [await, hm]
      rw [await_rtu_exception ctx.config _ _ _ _ _ s1 _ resp s2 hlen hbytes hhdr haddr hx,
        if_pos hcrc2]
  rw [decode_error_of_ne _ _ _ (by rw [hE]; decide), hE]

/-- Witness of C20: unit 1 in RTU mode reads register 0 and the device answers
with the exception frame for code 2 whose checksum bytes are zero. -/
theorem rtu_checksum_mismatch_witness :
    ∃ r, (Operation.read 0).run (fresh_context (stream_config MiniModbusMode.RTU 1) 0)
        ⟨[0x01, 0x83, 0x02, 0x00, 0x00], []⟩ 0 = some r ∧
      r.error = MiniModbusError_InvalidCrc :=
  rtu_checksum_mismatch (Operation.read 0)
    (fresh_context (stream_config MiniModbusMode.RTU 1) 0)
    ⟨[0x01, 0x83, 0x02, 0x00, 0x00], []⟩ 0 [0x01, 0x83, 0x02, 0x00, 0x00]
    [0x01, 0x83, 0x02, 0x00, 0x00] [] []
    rfl (by decide) (by decide) (by decide) (by decide) (by decide) rfl rfl
    (fun h => absurd h (by decide)) rfl (by decide)

/-! ## The checksum of a sealed frame -/

theorem xor_low_byte_and (c : Nat) : (c ^^^ (c &&& 0xFF)) &&& 0xFF = 0 := by
  apply Nat.eq_of_testBit_eq
  intro i
  simp only [Nat.testBit_and, Nat.testBit_xor, Nat.zero_testBit]
  cases c.testBit i <;> cases (0xFF : Nat).testBit i <;> rfl

theorem crc16_table_zero : MiniModbus_Crc16Table.getD 0 0 = 0 := by decide

/-- Appending the checksum of `m`, low byte first, to `m` gives a sequence whose
checksum is 0. -/
theorem crc16_residue (m : List Nat) :
    MiniModbus_Crc16 (m ++ [MiniModbus_Crc16 m &&& 0xFF, MiniModbus_Crc16 m >>> 8]) = 0 := by
  have hc := MiniModbus_Crc16_lt m
  unfold MiniModbus_Crc16 at hc ⊢
  rw [List.foldl_append]
  generalize List.foldl _ 0xFFFF m = c at hc ⊢
  simp only [List.foldl_cons, List.foldl_nil, xor_low_byte_and, crc16_table_zero, Nat.xor_zero,
    Nat.xor_self, Nat.zero_and]
  rw [shiftRight_eight, shiftRight_eight]
  omega

/-! ## What an operation's outcome depends on in the context it is given -/

theorem buffer_blit_agree (k : Nat) (B1 B2 : Nat → Nat) (offset : Nat) (data : List Nat)
    (h : ∀ j, j < k → B1 j = B2 j) :
    ∀ j, j < k → buffer_blit B1 offset data j = buffer_blit B2 offset data j := by
  intro j hj
  simp only [buffer_blit]
  split_ifs
  · rfl
  · exact h j hj

theorem buffer_blit_cover (k : Nat) (B1 B2 : Nat → Nat) (data : List Nat)
    (h : ∀ j, j < k → data.length ≤ j → B1 j = B2 j) :
    ∀ j, j < k → buffer_blit B1 0 data j = buffer_blit B2 0 data j := by
  intro j hj
  simp only [buffer_blit, Nat.zero_le, true_and, Nat.zero_add]
  split_ifs with hc
  · rfl
  · exact h j hj (by omega)

theorem buffer_bytes_agree (k : Nat) (B1 B2 : Nat → Nat) (h : ∀ j, j < k → B1 j = B2 j) :
    ∀ (n offset : Nat), offset + n ≤ k → buffer_bytes B1 offset n = buffer_bytes B2 offset n := by
  intro n
  induction n with
  | zero =>
    intro offset _
    rfl
  | succ n ih =>
    intro offset ho
    rw [buffer_bytes, buffer_bytes, h offset (by omega), ih (offset + 1) (by omega)]

theorem same_outcome_ite {σ : Type} (k : Nat) (c : Prop) [Decidable c]
    (a1 b1 a2 b2 : MiniModbusContext σ × World σ × MiniModbusError_t)
    (ha : same_outcome k a1 a2) (hb : same_outcome k b1 b2) :
    same_outcome k (if c then a1 else b1) (if c then a2 else b2) := by
  split_ifs
  · exact ha
  · exact hb

theorem same_outcome_mk {σ : Type} (k : Nat) (c1 c2 : MiniModbusContext σ) (w : World σ)
    (e : MiniModbusError_t) (hpos : c1.buffer_position = c2.buffer_position)
    (hbuf : ∀ j, j < k → c1.buffer j = c2.buffer j)
    (hk : e = MiniModbusError_Success → c1.buffer_position + 4 ≤ k) :
    same_outcome k (c1, w, e) (c2, w, e) :=
  ⟨rfl, rfl, hpos, hbuf, hk⟩

/-- RTU mode, after the send: two buffers that agree below index 8 give results
that agree there, with the same code, world and cursor. -/
theorem await_rtu_same {σ : Type} (config : MiniModbusConfig σ) (pos tid rc rl : Nat)
    (B1 B2 : Nat → Nat) (s : σ) (calls : List TransportCall) (hrl : rl ≤ 4)
    (h : ∀ j, j < 8 → B1 j = B2 j) :
    same_outcome 8 (await_rtu config pos tid rc rl B1 s calls)
      (await_rtu config pos tid rc rl B2 s calls) := by
  unfold await_rtu
  simp only []
  generalize config.receive s 5 = r1
  have hb1 := buffer_blit_agree 8 B1 B2 0 (r1.2.1.take 5) h
  generalize buffer_blit B1 0 (r1.2.1.take 5) = b1 at hb1 ⊢
  generalize buffer_blit B2 0 (r1.2.1.take 5) = b1' at hb1 ⊢
  generalize config.receive r1.1 (rl - 1) = r2
  have hb2 := buffer_blit_agree 8 b1 b1' 5 (r2.2.1.take (rl - 1)) hb1
  generalize buffer_blit b1 5 (r2.2.1.take (rl - 1)) = b2 at hb2 ⊢
  generalize buffer_blit b1' 5 (r2.2.1.take (rl - 1)) = b2' at hb2 ⊢
  have hbb := buffer_bytes_agree 8 b2 b2' hb2 (5 + (rl - 1) - 2) 0 (by omega)
  have hbb1 := buffer_bytes_agree 8 b1 b1' hb1 3 0 (by omega)
  simp only [hb1 0 (by norm_num), hb1 1 (by norm_num), hb1 2 (by norm_num),
    hb1 3 (by norm_num), hb1 4 (by norm_num), hb2 (5 + (rl - 1) - 2) (by omega),
    hb2 (5 + (rl - 1) - 1) (by omega), hbb, hbb1]
  refine same_outcome_ite _ _ _ _ _ _
    (same_outcome_mk _ _ _ _ _ rfl hb1 (fun e => absurd e receive_ne_success)) ?_
  refine same_outcome_ite _ _ _ _ _ _
    (same_outcome_mk _ _ _ _ _ rfl hb1 (fun _ => Nat.le_of_ble_eq_true rfl)) ?_
  refine same_outcome_ite _ _ _ _ _ _ ?_ ?_
  · refine same_outcome_ite _ _ _ _ _ _
      (same_outcome_mk _ _ _ _ _ rfl hb2 (fun _ => Nat.le_of_ble_eq_true rfl)) ?_
    refine same_outcome_ite _ _ _ _ _ _
      (same_outcome_mk _ _ _ _ _ rfl hb2 (fun _ => Nat.le_of_ble_eq_true rfl)) ?_
    refine same_outcome_ite _ _ _ _ _ _
      (same_outcome_mk _ _ _ _ _ rfl hb2 (fun _ => Nat.le_of_ble_eq_true rfl)) ?_
    exact same_outcome_mk _ _ _ _ _ rfl hb2 (fun _ => Nat.le_of_ble_eq_true rfl)
  · refine same_outcome_ite _ _ _ _ _ _
      (same_outcome_mk _ _ _ _ _ rfl hb1 (fun _ => Nat.le_of_ble_eq_true rfl)) ?_
    exact same_outcome_mk _ _ _ _ _ rfl hb1 (fun _ => Nat.le_of_ble_eq_true rfl)

/-- TCP mode, after the send: two buffers that agree below index 13 give results
that agree there, with the same code, world and cursor. -/
theorem await_tcp_same {σ : Type} (config : MiniModbusConfig σ) (pos tid rc rl : Nat)
    (B1 B2 : Nat → Nat) (s : σ) (calls : List TransportCall)
    (h : ∀ j, j < 13 → B1 j = B2 j) :
    same_outcome 13 (await_tcp config pos tid rc rl B1 s calls)
      (await_tcp config pos tid rc rl B2 s calls) := by
  unfold await_tcp
  simp only []
  generalize config.receive s 9 = r1
  have hb1 := buffer_blit_agree 13 B1 B2 0 (r1.2.1.take 9) h
  generalize buffer_blit B1 0 (r1.2.1.take 9) = b1 at hb1 ⊢
  generalize buffer_blit B2 0 (r1.2.1.take 9) = b1' at hb1 ⊢
  generalize config.receive r1.1 (rl - 1) = r2
  have hb2 := buffer_blit_agree 13 b1 b1' 9 (r2.2.1.take (rl - 1)) hb1
  generalize buffer_blit b1 9 (r2.2.1.take (rl - 1)) = b2 at hb2 ⊢
  generalize buffer_blit b1' 9 (r2.2.1.take (rl - 1)) = b2' at hb2 ⊢
  simp only [read_u16, hb1 0 (by norm_num), hb1 1 (by norm_num), hb1 2 (by norm_num),
    hb1 3 (by norm_num), hb1 4 (by norm_num), hb1 5 (by norm_num), hb1 6 (by norm_num),
    hb1 7 (by norm_num), hb1 8 (by norm_num)]
  refine same_outcome_ite _ _ _ _ _ _
    (same_outcome_mk _ _ _ _ _ rfl hb1 (fun e => absurd e receive_ne_success)) ?_
  refine same_outcome_ite _ _ _ _ _ _
    (same_outcome_mk _ _ _ _ _ rfl hb1 (fun _ => Nat.le_of_ble_eq_true rfl)) ?_
  refine same_outcome_ite _ _ _ _ _ _
    (same_outcome_mk _ _ _ _ _ rfl hb1 (fun _ => Nat.le_of_ble_eq_true rfl)) ?_
  refine same_outcome_ite _ _ _ _ _ _
    (same_outcome_mk _ _ _ _ _ rfl hb1 (fun _ => Nat.le_of_ble_eq_true rfl)) ?_
  refine same_outcome_ite _ _ _ _ _ _ ?_ ?_
  · refine same_outcome_ite _ _ _ _ _ _
      (same_outcome_mk _ _ _ _ _ rfl hb2 (fun _ => Nat.le_of_ble_eq_true rfl)) ?_
    refine same_outcome_ite _ _ _ _ _ _
      (same_outcome_mk _ _ _ _ _ rfl hb2 (fun _ => Nat.le_of_ble_eq_true rfl)) ?_
    refine same_outcome_ite _ _ _ _ _ _
      (same_outcome_mk _ _ _ _ _ rfl hb2 (fun _ => Nat.le_of_ble_eq_true rfl)) ?_
    exact same_outcome_mk _ _ _ _ _ rfl hb2 (fun _ => Nat.le_of_ble_eq_true rfl)
  · refine same_outcome_ite _ _ _ _ _ _
      (same_outcome_mk _ _ _ _ _ rfl hb1 (fun _ => Nat.le_of_ble_eq_true rfl)) ?_
    exact same_outcome_mk _ _ _ _ _ rfl hb1 (fun _ => Nat.le_of_ble_eq_true rfl)

/-- The engine as a whole, on the request bytes the public operations store:
two buffers that agree at index 12 give the same code, world and cursor, and
buffers that agree wherever the decoding of the operation reads. -/
theorem transaction_same {σ : Type} (config : MiniModbusConfig σ) (tid rc rl : Nat)
    (B1 B2 : Nat → Nat) (data : List Nat) (w : World σ) (hrl : rl ≤ 4)
    (hlen : data.length = match config.mode with
      | MiniModbusMode.RTU => 6
      | MiniModbusMode.TCP => 12)
    (hB : B1 12 = B2 12) :
    same_outcome (match config.mode with
        | MiniModbusMode.RTU => 8
        | MiniModbusMode.TCP => 13)
      (transaction config tid rc rl B1 data w) (transaction config tid rc rl B2 data w) := by
  unfold transaction
  cases hm : config.mode
  · simp only [hm] at hlen
    simp only [transaction_rtu]
    have hcov := buffer_blit_cover 8 B1 B2
      (data ++ [MiniModbus_Crc16 data % 256, MiniModbus_Crc16 data / 256])
      (by
        intro j hj hle
        simp only [List.length_append, List.length_cons, List.length_nil, hlen] at hle
        omega)
    exact same_outcome_ite _ _ _ _ _ _
      (same_outcome_mk _ _ _ _ _ rfl hcov (fun e => absurd e send_ne_success))
      (await_rtu_same config _ tid rc rl _ _ _ _ hrl hcov)
  · simp only [hm] at hlen
    simp only [transaction_tcp]
    have hcov := buffer_blit_cover 13 B1 B2
      ((data.set 4 ((data.length - 6) / 256)).set 5 ((data.length - 6) % 256))
      (by
        intro j hj hle
        simp only [List.length_set, hlen] at hle
        have h12 : j = 12 := by omega
        rw [h12]
        exact hB)
    exact same_outcome_ite _ _ _ _ _ _
      (same_outcome_mk _ _ _ _ _ rfl hcov (fun e => absurd e send_ne_success))
      (await_tcp_same config _ tid rc rl _ _ _ _ hcov)

theorem read_u16_agree (k : Nat) (B1 B2 : Nat → Nat) (h : ∀ j, j < k → B1 j = B2 j) (i : Nat)
    (hi : i + 1 < k) : read_u16 B1 i = read_u16 B2 i := by
  rw [read_u16, read_u16, h i (by omega), h (i + 1) hi]

/-- Results of the engine that agree in the sense of `same_outcome` are decoded
to the same code, value and world. -/
theorem decode_same {σ : Type} (op : Operation) (out k : Nat)
    (t1 t2 : MiniModbusContext σ × World σ × MiniModbusError_t) (h : same_outcome k t1 t2) :
    (op.decode out t1).error = (op.decode out t2).error ∧
      (op.decode out t1).value = (op.decode out t2).value ∧
      (op.decode out t1).world = (op.decode out t2).world := by
  obtain ⟨c1, w1, e1⟩ := t1
  obtain ⟨c2, w2, e2⟩ := t2
  obtain ⟨he, hw, hp, hb, hk⟩ := h
  simp only at he hw hp hb hk
  subst he
  subst hw
  by_cases hs : e1 = MiniModbusError_Success
  · have hk := hk hs
    have h0 : c1.buffer c1.buffer_position = c2.buffer c2.buffer_position := by
      rw [← hp]; exact hb _ (by omega)
    have h1 : read_u16 c1.buffer (c1.buffer_position + 1) =
        read_u16 c2.buffer (c2.buffer_position + 1) := by
      rw [← hp]; exact read_u16_agree k _ _ hb _ (by omega)
    have h2 : read_u16 c1.buffer c1.buffer_position =
        read_u16 c2.buffer c2.buffer_position := by
      rw [← hp]; exact read_u16_agree k _ _ hb _ (by omega)
    have h3 : read_u16 c1.buffer (c1.buffer_position + 2) =
        read_u16 c2.buffer (c2.buffer_position + 2) := by
      rw [← hp]; exact read_u16_agree k _ _ hb _ (by omega)
    cases op with
    | read reg =>
      simp only [Operation.decode, read_decode, h0, h1]
      split_ifs <;> exact ⟨rfl, rfl, rfl⟩
    | write reg value =>
      simp only [Operation.decode, write_decode, h2, h3]
      split_ifs <;> exact ⟨rfl, rfl, rfl⟩
  · cases op with
    | read reg =>
      simp only [Operation.decode, read_decode, ne_eq, hs, not_false_eq_true, if_true, and_self]
    | write reg value =>
      simp only [Operation.decode, write_decode, ne_eq, hs, not_false_eq_true, if_true, and_self]

/-- Of the state an earlier transaction leaves in a context, an operation's
outcome can depend only on the buffer byte at index 12: two contexts with the
same configuration, the same transaction counter and the same byte there give
the same returned code, decoded value and world (the frames sent and the
transport state included), whatever their cursor, stored request code, stored
response length and the rest of their buffers. -/
theorem run_same_of_agree {σ : Type} (op : Operation) (ctx1 ctx2 : MiniModbusContext σ)
    (w : World σ) (out : Nat) (hcfg : ctx1.config = ctx2.config)
    (htid : ctx1.current_tcp_transaction_identifier = ctx2.current_tcp_transaction_identifier)
    (hB : ctx1.buffer 12 = ctx2.buffer 12) :
    ∃ r1 r2, op.run ctx1 w out = some r1 ∧ op.run ctx2 w out = some r2 ∧
      r1.error = r2.error ∧ r1.value = r2.value ∧ r1.world = r2.world := by
  have ht : request_tid ctx1 = request_tid ctx2 := by
    simp only [request_tid, next_transaction_identifier, hcfg, htid]
  refine ⟨_, _, run_eq op ctx1 w out, run_eq op ctx2 w out, ?_⟩
  rw [hcfg, ht]
  exact decode_same op out _ _ _
    (transaction_same ctx2.config (request_tid ctx2) op.function_code
      op.response_payload_length ctx1.buffer ctx2.buffer _ w
      (response_payload_length_bounds op).2 (request_data_length _ _ _ _ _ _) hB)

/-! ## The buffer bytes no operation writes -/

theorem buffer_blit_outside (B : Nat → Nat) (offset : Nat) (data : List Nat) (j : Nat)
    (h : offset + data.length ≤ j) : buffer_blit B offset data j = B j := by
  simp only [buffer_blit]
  rw [if_neg]
  omega

theorem ite_buffer_eq {σ : Type} (c : Prop) [Decidable c]
    (a b : MiniModbusContext σ × World σ × MiniModbusError_t) (j v : Nat)
    (ha : a.1.buffer j = v) (hb : b.1.buffer j = v) :
    (if c then a else b).1.buffer j = v := by
  split_ifs
  · exact ha
  · exact hb

/-- RTU mode, after the send: the buffer from index 12 on is left as it was. -/
theorem await_rtu_buffer_high {σ : Type} (config : MiniModbusConfig σ) (pos tid rc rl : Nat)
    (B : Nat → Nat) (s : σ) (calls : List TransportCall) (hrl : rl ≤ 4) (j : Nat)
    (hj : 12 ≤ j) : (await_rtu config pos tid rc rl B s calls).1.buffer j = B j := by
  unfold await_rtu
  simp only []
  generalize config.receive s 5 = r1
  have hb1 : buffer_blit B 0 (r1.2.1.take 5) j = B j :=
    buffer_blit_outside _ _ _ _ (by have := List.length_take_le 5 r1.2.1; omega)
  generalize buffer_blit B 0 (r1.2.1.take 5) = b1 at hb1 ⊢
  generalize config.receive r1.1 (rl - 1) = r2
  have hb2 : buffer_blit b1 5 (r2.2.1.take (rl - 1)) j = B j := by
    rw [buffer_blit_outside _ _ _ _ (by have := List.length_take_le (rl - 1) r2.2.1; omega)]
    exact hb1
  generalize buffer_blit b1 5 (r2.2.1.take (rl - 1)) = b2 at hb2 ⊢
  refine ite_buffer_eq _ _ _ _ _ hb1 ?_
  refine ite_buffer_eq _ _ _ _ _ hb1 ?_
  refine ite_buffer_eq _ _ _ _ _ ?_ ?_
  · refine ite_buffer_eq _ _ _ _ _ hb2 ?_
    refine ite_buffer_eq _ _ _ _ _ hb2 ?_
    exact ite_buffer_eq _ _ _ _ _ hb2 hb2
  · exact ite_buffer_eq _ _ _ _ _ hb1 hb1

/-- TCP mode, after the send: the buffer from index 12 on is left as it was. -/
theorem await_tcp_buffer_high {σ : Type} (config : MiniModbusConfig σ) (pos tid rc rl : Nat)
    (B : Nat → Nat) (s : σ) (calls : List TransportCall) (hrl : rl ≤ 4) (j : Nat)
    (hj : 12 ≤ j) : (await_tcp config pos tid rc rl B s calls).1.buffer j = B j := by
  unfold await_tcp
  simp only []
  generalize config.receive s 9 = r1
  have hb1 : buffer_blit B 0 (r1.2.1.take 9) j = B j :=
    buffer_blit_outside _ _ _ _ (by have := List.length_take_le 9 r1.2.1; omega)
  generalize buffer_blit B 0 (r1.2.1.take 9) = b1 at hb1 ⊢
  generalize config.receive r1.1 (rl - 1) = r2
  have hb2 : buffer_blit b1 9 (r2.2.1.take (rl - 1)) j = B j := by
    rw [buffer_blit_outside _ _ _ _ (by have := List.length_take_le (rl - 1) r2.2.1; omega)]
    exact hb1
  generalize buffer_blit b1 9 (r2.2.1.take (rl - 1)) = b2 at hb2 ⊢
  refine ite_buffer_eq _ _ _ _ _ hb1 ?_
  refine ite_buffer_eq _ _ _ _ _ hb1 ?_
  refine ite_buffer_eq _ _ _ _ _ hb1 ?_
  refine ite_buffer_eq _ _ _ _ _ hb1 ?_
  refine ite_buffer_eq _ _ _ _ _ ?_ ?_
  · refine ite_buffer_eq _ _ _ _ _ hb2 ?_
    refine ite_buffer_eq _ _ _ _ _ hb2 ?_
    exact ite_buffer_eq _ _ _ _ _ hb2 hb2
  · exact ite_buffer_eq _ _ _ _ _ hb1 hb1

/-- The engine as a whole, on the request bytes the public operations store,
leaves the buffer from index 12 on as it was. -/
theorem transaction_buffer_high {σ : Type} (config : MiniModbusConfig σ) (tid rc rl : Nat)
    (B : Nat → Nat) (data : List Nat) (w : World σ) (hrl : rl ≤ 4)
    (hlen : data.length = match config.mode with
      | MiniModbusMode.RTU => 6
      | MiniModbusMode.TCP => 12)
    (j : Nat) (hj : 12 ≤ j) : (transaction config tid rc rl B data w).1.buffer j = B j := by
  unfold transaction
  cases hm : config.mode
  · simp only [hm] at hlen
    simp only [transaction_rtu]
    have hF : buffer_blit B 0
        (data ++ [MiniModbus_Crc16 data % 256, MiniModbus_Crc16 data / 256]) j = B j :=
      buffer_blit_outside _ _ _ _ (by
        simp only [List.length_append, List.length_cons, List.length_nil, hlen]; omega)
    refine ite_buffer_eq _ _ _ _ _ hF ?_
    rw [await_rtu_buffer_high config _ tid rc rl _ _ _ hrl j hj]
    exact hF
  · simp only [hm] at hlen
    simp only [transaction_tcp]
    have hF : buffer_blit B 0
        ((data.set 4 ((data.length - 6) / 256)).set 5 ((data.length - 6) % 256)) j = B j :=
      buffer_blit_outside _ _ _ _ (by simp only [List.length_set, hlen]; omega)
    refine ite_buffer_eq _ _ _ _ _ hF ?_
    rw [await_tcp_buffer_high config _ tid rc rl _ _ _ hrl j hj]
    exact hF

theorem decode_ctx_buffer {σ : Type} (op : Operation) (out : Nat)
    (t : MiniModbusContext σ × World σ × MiniModbusError_t) :
    ∃ c, (op.decode out t).ctx = some c ∧ c.config = t.1.config ∧ c.buffer = t.1.buffer := by
  cases op <;> simp only [Operation.decode, read_decode, write_decode] <;> split_ifs <;>
    exact ⟨_, rfl, rfl, rfl⟩

/-- Every operation on every context, whatever the transport does, returns,
keeps the configuration and leaves the buffer from index 12 on as it was. -/
theorem run_buffer_high {σ : Type} (op : Operation) (ctx : MiniModbusContext σ) (w : World σ)
    (out : Nat) :
    ∃ r c, op.run ctx w out = some r ∧ r.ctx = some c ∧ c.config = ctx.config ∧
      ∀ j, 12 ≤ j → c.buffer j = ctx.buffer j := by
  obtain ⟨c, hc, hcfg, hbuf⟩ := decode_ctx_buffer op out
    (transaction ctx.config (request_tid ctx) op.function_code op.response_payload_length
      ctx.buffer (request_data ctx.config.mode (request_tid ctx) ctx.config.slave_address
        op.function_code op.first_field op.second_field) w)
  refine ⟨_, c, run_eq op ctx w out, hc, ?_, ?_⟩
  · rw [hcfg, transaction_config]
  · intro j hj
    rw [hbuf]
    exact transaction_buffer_high _ _ _ _ _ _ _ (response_payload_length_bounds op).2
      (request_data_length _ _ _ _ _ _) j hj

/-- Every history of operations, whatever the transport does at each step,
leaves a context, with the configuration it started from and the buffer from
index 12 on as it was. -/
theorem context_after_high {σ : Type} (past : List (Operation × Nat × World σ)) :
    ∀ ctx : MiniModbusContext σ, ∃ c, context_after ctx past = some c ∧
      c.config = ctx.config ∧ ∀ j, 12 ≤ j → c.buffer j = ctx.buffer j := by
  induction past with
  | nil =>
    intro ctx
    exact ⟨ctx, rfl, rfl, fun _ _ => rfl⟩
  | cons x rest ih =>
    intro ctx
    obtain ⟨op, out, w⟩ := x
    obtain ⟨r, c, hr, hc, hcfg, hbuf⟩ := run_buffer_high op ctx w out
    obtain ⟨c2, hc2, hcfg2, hbuf2⟩ := ih c
    refine ⟨c2, ?_, by rw [hcfg2, hcfg], ?_⟩
    · simp only [context_after, hr, hc, hc2]
    · intro j hj
      rw [hbuf2 j hj, hbuf j hj]

/-! ## C21: the receive call after the header -/

/-- C21, counterexample: unit 1 in RTU mode reads register 0 and the device
answers with the exception frame `01 83 02` and its checksum. The read returns
the exception code 2 and the only receive call of the operation is the one for
the five header bytes: no further call asks for 1 byte. -/
theorem body_read_length_counterexample :
    ((Operation.read 0).run (fresh_context (stream_config MiniModbusMode.RTU 1) 0)
        ⟨rtu_frame 1 [0x83, 0x02], []⟩ 0).map
      (fun r => (r.error, receive_requests r.world.calls)) =
        some (MiniModbusError_IllegalDataAddress, [(0, 5)]) ∧
    [((0 : Nat), (5 : Nat))] ≠ [(0, 5), (5, 1)] := by
  constructor
  · rfl
  · decide

/-- C21, amended. Body read length: in either mode and for either operation,
once the transport has taken the request and delivered a header that passes
header validation, (1) when the header's function byte has its high bit clear
the engine makes exactly one further receive call, for exactly
`expected_response_length - 1` bytes (2 for a read, 3 for a write) placed right
after the header, whatever that call returns; (2) when the function byte has its
high bit set the engine makes no further receive call: the exception code is the
header byte after the function byte. -/
theorem body_read_length {σ : Type} (op : Operation) (ctx : MiniModbusContext σ)
    (w : World σ) (out : Nat) (s1 s2 : σ) (hdr : List Nat)
    (hu : ctx.config.slave_address < 256)
    (h1 : op.first_field < 65536) (h2 : op.second_field < 65536)
    (hsend : Accepts ctx.config w.user_data (request_frame ctx op) s1)
    (hlen : hdr.length = header_length ctx.config.mode) (hbytes : ∀ b ∈ hdr, b < 256)
    (hhdr : Delivers ctx.config s1 hdr s2)
    (hchecks : header_checks_pass ctx.config.mode (next_transaction_identifier ctx)
      ctx.config.slave_address hdr) :
    ∃ r, op.run ctx w out = some r ∧
      (function_byte ctx.config.mode hdr &&& ERROR_CODE_BITMASK = 0 →
        receive_requests r.world.calls = receive_requests w.calls ++
          [(0, header_length ctx.config.mode),
            (header_length ctx.config.mode, op.response_payload_length - 1)]) ∧
      (function_byte ctx.config.mode hdr &&& ERROR_CODE_BITMASK ≠ 0 →
        receive_requests r.world.calls = receive_requests w.calls ++
          [(0, header_length ctx.config.mode)]) ∧
      op.response_payload_length - 1 = (match op with
        | Operation.read _ => 2
        | Operation.write _ _ => 3) := by
  have hrun := run_of_accepts op ctx w out s1 hu h1 h2 hsend
  generalize buffer_blit ctx.buffer 0 (request_frame ctx op) = b0 at hrun
  generalize (request_frame ctx op).length = pos at hrun
  refine ⟨_, hrun, ?_, ?_, by cases op <;> rfl⟩
  · intro hfb
    rw [decode_world]
    simp only [ERROR_CODE_BITMASK] at hfb
    cases hm : ctx.config.mode
    · simp only [hm, header_length] at hlen
      simp only [hm, header_checks_pass] at hchecks
      simp only [hm, function_byte] at hfb
      obtain ⟨a0, a1, a2, a3, a4, rfl⟩ := length_eq_five hdr hlen
      have ha0 : a0 < 256 := hbytes a0 (by simp)
      have ha1 : a1 < 256 := hbytes a1 (by simp)
      simp only [List.getD_cons_zero, List.getD_cons_succ] at hchecks hfb
      subst hchecks
      simp only [Delivers, List.length_cons, List.length_nil, Nat.zero_add, Nat.reduceAdd,
        Nat.cast_ofNat] at hhdr
      have hA : (await_rtu ctx.config pos (request_tid ctx) op.function_code
          op.response_payload_length b0 s1
          (w.calls ++ [TransportCall.send (request_frame ctx op)])).2.1.calls =
          w.calls ++ [TransportCall.send (request_frame ctx op)] ++
            [TransportCall.receive 0 5] ++
            [TransportCall.receive 5 (op.response_payload_length - 1)] := by
        simp only [await_rtu, hhdr, List.take, buffer_blit_apply, ne_eq,
          not_true_eq_false, if_false, List.length_cons, List.length_nil, Nat.zero_add,
          Nat.reduceAdd, Nat.zero_le, true_and, Nat.sub_zero, Nat.reduceLT, if_true,
          List.getD_cons_zero, List.getD_cons_succ, Nat.lt_add_one, Nat.mod_eq_of_lt ha0,
          Nat.mod_eq_of_lt ha1, hfb]
        split_ifs <;> rfl
      simp only [await, hm, hA]
      simp [receive_requests, List.filterMap_append, header_length]
    · simp only [hm, header_length] at hlen
      simp only [hm, header_checks_pass] at hchecks
      simp only [hm, function_byte] at hfb
      obtain ⟨a0, a1, a2, a3, a4, a5, a6, a7, a8, rfl⟩ := length_eq_nine hdr hlen
      have ha0 : a0 < 256 := hbytes a0 (by simp)
      have ha1 : a1 < 256 := hbytes a1 (by simp)
      have ha2 : a2 < 256 := hbytes a2 (by simp)
      have ha3 : a3 < 256 := hbytes a3 (by simp)
      have ha6 : a6 < 256 := hbytes a6 (by simp)
      have ha7 : a7 < 256 := hbytes a7 (by simp)
      simp only [frame_u16, List.getD_cons_zero, List.getD_cons_succ, Nat.zero_add,
        Nat.reduceAdd] at hchecks hfb
      obtain ⟨hc1, hc2, hc3⟩ := hchecks
      subst hc3
      simp only [Delivers, List.length_cons, List.length_nil, Nat.zero_add, Nat.reduceAdd,
        Nat.cast_ofNat] at hhdr
      have hA : (await_tcp ctx.config pos (request_tid ctx) op.function_code
          op.response_payload_length b0 s1
          (w.calls ++ [TransportCall.send (request_frame ctx op)])).2.1.calls =
          w.calls ++ [TransportCall.send (request_frame ctx op)] ++
            [TransportCall.receive 0 9] ++
            [TransportCall.receive 9 (op.response_payload_length - 1)] := by
        simp only [await_tcp, hhdr, List.take, buffer_blit_apply, read_u16, ne_eq,
          not_true_eq_false, if_false, List.length_cons, List.length_nil, Nat.zero_add,
          Nat.reduceAdd, Nat.zero_le, true_and, Nat.sub_zero, Nat.reduceLT, if_true,
          List.getD_cons_zero, List.getD_cons_succ, Nat.lt_add_one, Nat.mod_eq_of_lt ha0,
          Nat.mod_eq_of_lt ha1, Nat.mod_eq_of_lt ha2, Nat.mod_eq_of_lt ha3, Nat.mod_eq_of_lt ha6,
          Nat.mod_eq_of_lt ha7, be16 a0 a1 ha0 ha1, be16 a2 a3 ha2 ha3, request_tid_tcp ctx hm,
          hc1, hc2, hfb]
        split_ifs <;> rfl
      simp only [await, hm, hA]
      simp [receive_requests, List.filterMap_append, header_length]
  · intro hfb
    rw [decode_world]
    simp only [ERROR_CODE_BITMASK] at hfb
    cases hm : ctx.config.mode
    · simp only [hm, header_length] at hlen
      simp only [hm, header_checks_pass] at hchecks
      simp only [hm, function_byte] at hfb
      obtain ⟨a0, a1, a2, a3, a4, rfl⟩ := length_eq_five hdr hlen
      have ha0 : a0 < 256 := hbytes a0 (by simp)
      have ha1 : a1 < 256 := hbytes a1 (by simp)
      simp only [List.getD_cons_zero, List.getD_cons_succ] at hchecks hfb
      subst hchecks
      simp only [Delivers, List.length_cons, List.length_nil, Nat.zero_add, Nat.reduceAdd,
        Nat.cast_ofNat] at hhdr
      have hA : (await_rtu ctx.config pos (request_tid ctx) op.function_code
          op.response_payload_length b0 s1
          (w.calls ++ [TransportCall.send (request_frame ctx op)])).2.1.calls =
          w.calls ++ [TransportCall.send (request_frame ctx op)] ++
            [TransportCall.receive 0 5] := by
        simp only [await_rtu, hhdr, List.take, buffer_blit_apply, ne_eq,
          not_true_eq_false, if_false, List.length_cons, List.length_nil, Nat.zero_add,
          Nat.reduceAdd, Nat.zero_le, true_and, Nat.sub_zero, Nat.reduceLT, if_true,
          List.getD_cons_zero, List.getD_cons_succ, Nat.lt_add_one, Nat.mod_eq_of_lt ha0,
          Nat.mod_eq_of_lt ha1, hfb]
        split_ifs <;> rfl
      simp only [await, hm, hA]
      simp [receive_requests, List.filterMap_append, header_length]
    · simp only [hm, header_length] at hlen
      simp only [hm, header_checks_pass] at hchecks
      simp only [hm, function_byte] at hfb
      obtain ⟨a0, a1, a2, a3, a4, a5, a6, a7, a8, rfl⟩ := length_eq_nine hdr hlen
      have ha0 : a0 < 256 := hbytes a0 (by simp)
      have ha1 : a1 < 256 := hbytes a1 (by simp)
      have ha2 : a2 < 256 := hbytes a2 (by simp)
      have ha3 : a3 < 256 := hbytes a3 (by simp)
      have ha6 : a6 < 256 := hbytes a6 (by simp)
      have ha7 : a7 < 256 := hbytes a7 (by simp)
      simp only [frame_u16, List.getD_cons_zero, List.getD_cons_succ, Nat.zero_add,
        Nat.reduceAdd] at hchecks hfb
      obtain ⟨hc1, hc2, hc3⟩ := hchecks
      subst hc3
      simp only [Delivers, List.length_cons, List.length_nil, Nat.zero_add, Nat.reduceAdd,
        Nat.cast_ofNat] at hhdr
      have hA : (await_tcp ctx.config pos (request_tid ctx) op.function_code
          op.response_payload_length b0 s1
          (w.calls ++ [TransportCall.send (request_frame ctx op)])).2.1.calls =
          w.calls ++ [TransportCall.send (request_frame ctx op)] ++
            [TransportCall.receive 0 9] := by
        simp only [await_tcp, hhdr, List.take, buffer_blit_apply, read_u16, ne_eq,
          not_true_eq_false, if_false, List.length_cons, List.length_nil, Nat.zero_add,
          Nat.reduceAdd, Nat.zero_le, true_and, Nat.sub_zero, Nat.reduceLT, if_true,
          List.getD_cons_zero, List.getD_cons_succ, Nat.lt_add_one, Nat.mod_eq_of_lt ha0,
          Nat.mod_eq_of_lt ha1, Nat.mod_eq_of_lt ha2, Nat.mod_eq_of_lt ha3, Nat.mod_eq_of_lt ha6,
          Nat.mod_eq_of_lt ha7, be16 a0 a1 ha0 ha1, be16 a2 a3 ha2 ha3, request_tid_tcp ctx hm,
          hc1, hc2, hfb]
        split_ifs <;> rfl
      simp only [await, hm, hA]
      simp [receive_requests, List.filterMap_append, header_length]

/-- Witness of C21 as amended: unit 1 in RTU mode reads register 0 and the
stream transport holds the exception frame `01 83 02` with its checksum. -/
theorem body_read_length_witness :
    ∃ r, (Operation.read 0).run (fresh_context (stream_config MiniModbusMode.RTU 1) 0)
        ⟨rtu_frame 1 [0x83, 0x02], []⟩ 0 = some r ∧
      (function_byte MiniModbusMode.RTU (rtu_frame 1 [0x83, 0x02]) &&& ERROR_CODE_BITMASK = 0 →
        receive_requests r.world.calls = receive_requests [] ++
          [(0, header_length MiniModbusMode.RTU),
            (header_length MiniModbusMode.RTU,
              (Operation.read 0).response_payload_length - 1)]) ∧
      (function_byte MiniModbusMode.RTU (rtu_frame 1 [0x83, 0x02]) &&& ERROR_CODE_BITMASK ≠ 0 →
        receive_requests r.world.calls = receive_requests [] ++
          [(0, header_length MiniModbusMode.RTU)]) ∧
      (Operation.read 0).response_payload_length - 1 = 2 :=
  body_read_length (Operation.read 0) (fresh_context (stream_config MiniModbusMode.RTU 1) 0)
    ⟨rtu_frame 1 [0x83, 0x02], []⟩ 0 (rtu_frame 1 [0x83, 0x02]) [] (rtu_frame 1 [0x83, 0x02])
    (by decide) (by decide) (by decide) rfl rfl (by decide) rfl rfl

/-! ## C22: state left in the context by earlier transactions -/

/-- C22. No partial-state reuse: take two contexts set up by `MiniModbus_Init`
with the same configuration (either mode, any transport callbacks) and let each
go through any history of read and write operations, each run against any
transport state and replies, succeeding or failing. Both histories leave a
context with that configuration, in general with different buffer contents,
cursor, stored request code and stored response length. When the two contexts
have the same transaction counter, the same operation with the same arguments
run on each against the same transport state and replies returns, sends the same
request frame, returns the same code, decodes the same value and leaves the same
world. -/
theorem no_partial_state_reuse {σ : Type} (config : MiniModbusConfig σ)
    (seed1 seed2 : MiniModbusContext σ) (past1 past2 : List (Operation × Nat × World σ))
    (op : Operation) (w : World σ) (out : Nat) :
    ∃ i1 i2 c1 c2,
      MiniModbus_Init (some seed1) (some config) = (MiniModbusError_Success, some i1) ∧
      MiniModbus_Init (some seed2) (some config) = (MiniModbusError_Success, some i2) ∧
      context_after i1 past1 = some c1 ∧ context_after i2 past2 = some c2 ∧
      c1.config = config ∧ c2.config = config ∧
      (c1.current_tcp_transaction_identifier = c2.current_tcp_transaction_identifier →
        ∃ r1 r2 frame, op.run c1 w out = some r1 ∧ op.run c2 w out = some r2 ∧
          sent_frames r1.world.calls = sent_frames w.calls ++ [frame] ∧
          sent_frames r2.world.calls = sent_frames w.calls ++ [frame] ∧
          r1.error = r2.error ∧ r1.value = r2.value ∧ r1.world = r2.world) := by
  obtain ⟨c1, hc1, hcfg1, hbuf1⟩ := context_after_high past1
    (⟨config, 0, 0, 0, 0, fun _ => 0⟩ : MiniModbusContext σ)
  obtain ⟨c2, hc2, hcfg2, hbuf2⟩ := context_after_high past2
    (⟨config, 0, 0, 0, 0, fun _ => 0⟩ : MiniModbusContext σ)
  refine ⟨_, _, c1, c2, rfl, rfl, hc1, hc2, hcfg1, hcfg2, ?_⟩
  intro htid
  have hB : c1.buffer 12 = c2.buffer 12 := by
    rw [hbuf1 12 (Nat.le_refl 12), hbuf2 12 (Nat.le_refl 12)]
  obtain ⟨r1, r2, hr1, hr2, he, hv, hw⟩ :=
    run_same_of_agree op c1 c2 w out (hcfg1.trans hcfg2.symm) htid hB
  have h := run_eq op c1 w out
  rw [hr1] at h
  have hr := Option.some.inj h
  generalize request_data c1.config.mode (request_tid c1) c1.config.slave_address
    op.function_code op.first_field op.second_field = data at hr
  refine ⟨r1, r2,
    (match c1.config.mode with
      | MiniModbusMode.RTU => data ++ [MiniModbus_Crc16 data % 256, MiniModbus_Crc16 data / 256]
      | MiniModbusMode.TCP =>
        (data.set 4 ((data.length - 6) / 256)).set 5 ((data.length - 6) % 256)),
    hr1, hr2, ?_, ?_, he, hv, hw⟩
  · rw [hr, decode_world, transaction_sent]
    try (cases c1.config.mode <;> rfl)
  · rw [← hw, hr, decode_world, transaction_sent]
    try (cases c1.config.mode <;> rfl)

/-- Witness of C22: unit 1 in TCP mode. One context has been through a read of
register 5 that failed on the transaction identifier of the response, the other
through a successful write of 9 to register 3: they differ in cursor, stored
request code, stored response length and buffer contents. A read of register 0
answered with the value `0x1234` sends the same frame on both and returns
Success with `0x1234` on both. -/
theorem no_partial_state_reuse_witness :
    ∃ c1 c2,
      context_after (fresh_context (stream_config MiniModbusMode.TCP 1) 0)
        [(Operation.read 5, 0,
          ⟨[0x00, 0x09, 0x00, 0x00, 0x00, 0x05, 0x01, 0x03, 0x02], []⟩)] = some c1 ∧
      context_after (fresh_context (stream_config MiniModbusMode.TCP 1) 0)
        [(Operation.write 3 9, 0, ⟨tcp_frame 1 1 [0x06, 0x00, 0x03, 0x00, 0x09], []⟩)] =
          some c2 ∧
      c1.buffer_position ≠ c2.buffer_position ∧ c1.request_code ≠ c2.request_code ∧
      c1.response_length ≠ c2.response_length ∧ c1.buffer 9 ≠ c2.buffer 9 ∧
      ∃ r1 r2 frame,
        (Operation.read 0).run c1 ⟨tcp_frame 2 1 [0x03, 0x02, 0x12, 0x34], []⟩ 0 = some r1 ∧
        (Operation.read 0).run c2 ⟨tcp_frame 2 1 [0x03, 0x02, 0x12, 0x34], []⟩ 0 = some r2 ∧
        sent_frames r1.world.calls = [frame] ∧ sent_frames r2.world.calls = [frame] ∧
        r1.error = MiniModbusError_Success ∧ r2.error = MiniModbusError_Success ∧
        r1.value = some 0x1234 ∧ r2.value = some 0x1234 := by
  obtain ⟨i1, i2, c1, c2, hi1, hi2, hc1, hc2, -, -, h⟩ :=
    no_partial_state_reuse (stream_config MiniModbusMode.TCP 1)
      (fresh_context (stream_config MiniModbusMode.TCP 1) 0)
      (fresh_context (stream_config MiniModbusMode.TCP 1) 0)
      [(Operation.read 5, 0, ⟨[0x00, 0x09, 0x00, 0x00, 0x00, 0x05, 0x01, 0x03, 0x02], []⟩)]
      [(Operation.write 3 9, 0, ⟨tcp_frame 1 1 [0x06, 0x00, 0x03, 0x00, 0x09], []⟩)]
      (Operation.read 0) ⟨tcp_frame 2 1 [0x03, 0x02, 0x12, 0x34], []⟩ 0
  have e1 : fresh_context (stream_config MiniModbusMode.TCP 1) 0 = i1 :=
    Option.some.inj (congrArg Prod.snd hi1)
  have e2 : fresh_context (stream_config MiniModbusMode.TCP 1) 0 = i2 :=
    Option.some.inj (congrArg Prod.snd hi2)
  subst e1
  subst e2
  have k1 : (context_after (fresh_context (stream_config MiniModbusMode.TCP 1) 0)
      [(Operation.read 5, 0,
        ⟨[0x00, 0x09, 0x00, 0x00, 0x00, 0x05, 0x01, 0x03, 0x02], []⟩)]).map
      (fun c => (c.buffer_position, c.request_code, c.response_length, c.buffer 9,
        c.current_tcp_transaction_identifier)) = some (2, 3, 3, 5, 1) := rfl
  have k2 : (context_after (fresh_context (stream_config MiniModbusMode.TCP 1) 0)
      [(Operation.write 3 9, 0, ⟨tcp_frame 1 1 [0x06, 0x00, 0x03, 0x00, 0x09], []⟩)]).map
      (fun c => (c.buffer_position, c.request_code, c.response_length, c.buffer 9,
        c.current_tcp_transaction_identifier)) = some (12, 6, 4, 3, 1) := rfl
  rw [hc1] at k1
  rw [hc2] at k2
  simp only [Option.map_some', Option.some.injEq, Prod.mk.injEq] at k1 k2
  obtain ⟨p1, q1, l1, b1, t1⟩ := k1
  obtain ⟨p2, q2, l2, b2, t2⟩ := k2
  obtain ⟨r1, r2, frame, hr1, hr2, hs1, hs2, he, hv, -⟩ := h (by rw [t1, t2])
  have k3 : ((Operation.read 0).run c1 ⟨tcp_frame 2 1 [0x03, 0x02, 0x12, 0x34], []⟩ 0).map
      (fun r => (r.error, r.value)) = some (MiniModbusError_Success, some 0x1234) := by
    have k : ((context_after (fresh_context (stream_config MiniModbusMode.TCP 1) 0)
        [(Operation.read 5, 0,
          ⟨[0x00, 0x09, 0x00, 0x00, 0x00, 0x05, 0x01, 0x03, 0x02], []⟩)]).bind
        (fun c => (Operation.read 0).run c ⟨tcp_frame 2 1 [0x03, 0x02, 0x12, 0x34], []⟩ 0)).map
        (fun r => (r.error, r.value)) = some (MiniModbusError_Success, some 0x1234) := rfl
    rw [hc1] at k
    exact k
  rw [hr1] at k3
  simp only [Option.map_some', Option.some.injEq, Prod.mk.injEq] at k3
  refine ⟨c1, c2, hc1, hc2, by rw [p1, p2]; decide, by rw [q1, q2]; decide,
    by rw [l1, l2]; decide, by rw [b1, b2]; decide, r1, r2, frame, hr1, hr2, hs1, hs2,
    k3.1, by rw [← he]; exact k3.1, k3.2, by rw [← hv]; exact k3.2⟩

/-- Remark on the scope of the theorem above: the contexts are those
`MiniModbus_Init` and the operations produce, where the buffer byte at index 12
is 0 (no request or response reaches it). A context whose byte 12 was set
otherwise can behave differently: for unit 1 in TCP mode with the counter at 7,
`MiniModbus_WriteSingleRegister(0, 0)` answered with the exception frame
`00 08 00 00 00 03 01 86 00` (exception code 0) returns Success on an all-zero
buffer and ResponseInvalid when byte 12 is 1, because the exception code 0 is
taken for Success and the echo is then decoded from the bytes at 9 to 12. -/
theorem stale_buffer_byte_changes_write_result :
    (MiniModbus_WriteSingleRegister
        (some (fresh_context (stream_config MiniModbusMode.TCP 1) 7))
        ⟨[0x00, 0x08, 0x00, 0x00, 0x00, 0x03, 0x01, 0x86, 0x00], []⟩ 0 0).map
      (fun r => (r.error, sent_frames r.world.calls)) =
      some (MiniModbusError_Success,
        [[0x00, 0x08, 0x00, 0x00, 0x00, 0x06, 0x01, 0x06, 0x00, 0x00, 0x00, 0x00]]) ∧
    (MiniModbus_WriteSingleRegister
        (some { fresh_context (stream_config MiniModbusMode.TCP 1) 7 with
          buffer := fun j => if j = 12 then 1 else 0 })
        ⟨[0x00, 0x08, 0x00, 0x00, 0x00, 0x03, 0x01, 0x86, 0x00], []⟩ 0 0).map
      (fun r => (r.error, sent_frames r.world.calls)) =
      some (MiniModbusError_ResponseInvalid,
        [[0x00, 0x08, 0x00, 0x00, 0x00, 0x06, 0x01, 0x06, 0x00, 0x00, 0x00, 0x00]]) ∧
    MiniModbusError_Success ≠ MiniModbusError_ResponseInvalid := by
  refine ⟨?_, ?_, ?_⟩
  · rfl
  · rfl
  · decide

/-! ## C23: the checksum of a frame with its checksum appended -/

/-- C23. Checksum residue: for every byte sequence `m`, with `c` its checksum,
the checksum of `m` followed by `c & 0xFF` and `c >> 8` (the order in which the
RTU encoder appends them) is 0; hence in RTU mode, for either operation and
whatever the transport does, the one frame the operation hands to send has
checksum 0 when taken as a whole. -/
theorem checksum_residue {σ : Type} (m : List Nat) (op : Operation) (ctx : MiniModbusContext σ)
    (w : World σ) (out : Nat) (hm : ctx.config.mode = MiniModbusMode.RTU) :
    MiniModbus_Crc16 (m ++ [MiniModbus_Crc16 m &&& 0xFF, MiniModbus_Crc16 m >>> 8]) = 0 ∧
    ∃ r frame, op.run ctx w out = some r ∧
      sent_frames r.world.calls = sent_frames w.calls ++ [frame] ∧
      MiniModbus_Crc16 frame = 0 := by
  generalize hd : request_data ctx.config.mode (request_tid ctx) ctx.config.slave_address
    op.function_code op.first_field op.second_field = data
  refine ⟨crc16_residue m, _,
    data ++ [MiniModbus_Crc16 data % 256, MiniModbus_Crc16 data / 256],
    run_eq op ctx w out, ?_, ?_⟩
  · rw [decode_world, transaction_sent, hd]
    simp only [hm]
  · rw [← byte_lo, ← shiftRight_eight]
    exact crc16_residue data

/-- Witness of C23: the six bytes `01 03 00 00 00 01`, and a read of register 0
by unit 1 in RTU mode. -/
theorem checksum_residue_witness :
    MiniModbus_Crc16 ([0x01, 0x03, 0x00, 0x00, 0x00, 0x01] ++
      [MiniModbus_Crc16 [0x01, 0x03, 0x00, 0x00, 0x00, 0x01] &&& 0xFF,
        MiniModbus_Crc16 [0x01, 0x03, 0x00, 0x00, 0x00, 0x01] >>> 8]) = 0 ∧
    ∃ r frame, (Operation.read 0).run (fresh_context (stream_config MiniModbusMode.RTU 1) 0)
        ⟨[], []⟩ 0 = some r ∧
      sent_frames r.world.calls = sent_frames [] ++ [frame] ∧
      MiniModbus_Crc16 frame = 0 :=
  checksum_residue [0x01, 0x03, 0x00, 0x00, 0x00, 0x01] (Operation.read 0)
    (fresh_context (stream_config MiniModbusMode.RTU 1) 0) ⟨[], []⟩ 0 rfl

end MiniModbus
